import Mathlib

/-!
Verification of the 3dsnake backend core against its specification.

The definitions below are shallow embeddings of the Python sources:
  backend/app/game/geometry.py  (cube-surface geometry)
  backend/app/game/sim.py       (deterministic tick simulation)
  backend/app/rooms.py          (room join checks)
  backend/app/main.py           (wire dispatcher fragments)

Machine integers are modelled as Nat / Int (Python integers are unbounded,
so no wrap-around is needed).  Python floor division `//` is modelled by
Int.fdiv.  Code that can raise an exception is modelled with Option or
Except String, where the error string names the Python exception.
-/

/-! ## Geometry: backend/app/game/geometry.py -/

/-- Immutable integer 3-vector, from class Vec3. -/
structure Vec3 where
  x : Int
  y : Int
  z : Int
deriving DecidableEq

def Vec3.add (a b : Vec3) : Vec3 := ⟨a.x + b.x, a.y + b.y, a.z + b.z⟩

instance : Add Vec3 := ⟨Vec3.add⟩

/-- Vec3.scale from the source. -/
def Vec3.scale (a : Vec3) (k : Int) : Vec3 := ⟨a.x * k, a.y * k, a.z * k⟩

@[simp] theorem Vec3.mk_add_mk (a b c d e f : Int) :
    (⟨a, b, c⟩ + ⟨d, e, f⟩ : Vec3) = ⟨a + d, b + e, c + f⟩ := rfl
@[simp] theorem Vec3.add_x (a b : Vec3) : (a + b).x = a.x + b.x := rfl
@[simp] theorem Vec3.add_y (a b : Vec3) : (a + b).y = a.y + b.y := rfl
@[simp] theorem Vec3.add_z (a b : Vec3) : (a + b).z = a.z + b.z := rfl
@[simp] theorem Vec3.scale_x (a : Vec3) (k : Int) : (a.scale k).x = a.x * k := rfl
@[simp] theorem Vec3.scale_y (a : Vec3) (k : Int) : (a.scale k).y = a.y * k := rfl
@[simp] theorem Vec3.scale_z (a : Vec3) (k : Int) : (a.scale k).z = a.z * k := rfl

def X : Vec3 := ⟨1, 0, 0⟩
def Y : Vec3 := ⟨0, 1, 0⟩
def Z : Vec3 := ⟨0, 0, 1⟩

/-- dot from the source. -/
def dot (a b : Vec3) : Int := a.x * b.x + a.y * b.y + a.z * b.z

/-- neg from the source. -/
def neg (v : Vec3) : Vec3 := ⟨-v.x, -v.y, -v.z⟩

/-- Face basis (outward normal, face-local right, face-local up). -/
structure FaceBasis where
  n : Vec3
  r : Vec3
  u : Vec3
deriving DecidableEq

/-- FACE_BASIS table from the source.  The Python dict raises KeyError for a
face outside 0..5; callers below guard with face < 6, so the default branch
is unreachable in guarded use. -/
def FACE_BASIS : Nat → FaceBasis
  | 0 => ⟨X, neg Z, Y⟩
  | 1 => ⟨neg X, Z, Y⟩
  | 2 => ⟨Y, X, neg Z⟩
  | 3 => ⟨neg Y, X, Z⟩
  | 4 => ⟨Z, X, Y⟩
  | _ => ⟨neg Z, neg X, Y⟩

def encode_cell (face u v n : Nat) : Nat := face * (n * n) + v * n + u

/-- decode_cell returns (face, u, v). -/
def decode_cell (cell n : Nat) : Nat × Nat × Nat :=
  (cell / (n * n), cell % (n * n) % n, cell % (n * n) / n)

/-- dir_vec (source: _dir_vec): 0 maps to u, 1 to r, 2 to -u, any other to -r. -/
def dir_vec (basis : FaceBasis) (direction : Nat) : Vec3 :=
  if direction = 0 then basis.u
  else if direction = 1 then basis.r
  else if direction = 2 then neg basis.u
  else neg basis.r

/-- dir_from_vec (source: _dir_from_vec); none models the ValueError. -/
def dir_from_vec (basis : FaceBasis) (v : Vec3) : Option Nat :=
  if v = basis.u then some 0
  else if v = basis.r then some 1
  else if v = neg basis.u then some 2
  else if v = neg basis.r then some 3
  else none

/-- turn from the source; none models the ValueError on an invalid turn value.
Python (direction + turn_value) % 4 on a positive modulus is Int.emod. -/
def turn (direction : Nat) (turn_value : Int) : Option Nat :=
  if turn_value = -1 ∨ turn_value = 0 ∨ turn_value = 1 then
    some ((((direction : Int) + turn_value) % 4).toNat)
  else none

/-- Axis selection from step_cell lines 107-116: the axis of maximum absolute
component of pos2, ties broken X then Y then Z, with the sign on that axis
choosing the outward normal.  Python ax >= ay is modelled as ay <= ax. -/
def pick_axis (p : Vec3) : Nat × Vec3 :=
  if p.y.natAbs ≤ p.x.natAbs ∧ p.z.natAbs ≤ p.x.natAbs then
    (p.x.natAbs, if 0 ≤ p.x then X else neg X)
  else if p.x.natAbs ≤ p.y.natAbs ∧ p.z.natAbs ≤ p.y.natAbs then
    (p.y.natAbs, if 0 ≤ p.y then Y else neg Y)
  else
    (p.z.natAbs, if 0 ≤ p.z then Z else neg Z)

/-- Face-index chain from step_cell lines 118-129. -/
def face_of_normal (w : Vec3) : Nat :=
  if w = X then 0
  else if w = neg X then 1
  else if w = Y then 2
  else if w = neg Y then 3
  else if w = Z then 4
  else 5

/-- Coordinate clamp from step_cell lines 138-145. -/
def clamp_coord (q : Int) (n : Nat) : Int :=
  if q < 0 then 0 else if (n : Int) ≤ q then (n : Int) - 1 else q

/-- The pushed-forward position of step_cell lines 100-105: the cell center
plus twice the direction vector. -/
def step_pos2 (face u v direction n : Nat) : Vec3 :=
  let basis := FACE_BASIS face
  let x_num : Int := 2 * (u : Int) + 1 - (n : Int)
  let y_num : Int := (n : Int) - (2 * (v : Int) + 1)
  let pos := basis.n.scale (n : Int) + basis.r.scale x_num + basis.u.scale y_num
  let move := (dir_vec basis direction).scale 2
  pos + move

/-- step_cell from the source.  Returns none when FACE_BASIS would raise
KeyError (decoded face outside 0..5) or dir_from_vec would raise ValueError. -/
def step_cell (cell direction n : Nat) : Option (Nat × Nat) :=
  let dcd := decode_cell cell n
  let face := dcd.1
  let u := dcd.2.1
  let v := dcd.2.2
  if face < 6 then
    let basis := FACE_BASIS face
    let pos2 := step_pos2 face u v direction n
    let sel := pick_axis pos2
    let max_abs := sel.1
    let new_n := sel.2
    let new_face := face_of_normal new_n
    let new_basis := FACE_BASIS new_face
    let dot_r := dot pos2 new_basis.r
    let dot_u := dot pos2 new_basis.u
    let new_u := ((dot_r + (max_abs : Int)) * (n : Int)).fdiv (2 * (max_abs : Int))
    let new_v := (((max_abs : Int) - dot_u) * (n : Int)).fdiv (2 * (max_abs : Int))
    let new_cell := encode_cell new_face (clamp_coord new_u n).toNat (clamp_coord new_v n).toNat n
    if new_face = face then some (new_cell, direction)
    else
      match dir_from_vec new_basis (neg basis.n) with
      | some nd => some (new_cell, nd)
      | none => none
  else none

/-! ### Basic encode/decode lemmas -/

theorem decode_encode (face u v n : Nat) (hf : face < 6) (hu : u < n) (hv : v < n) :
    decode_cell (encode_cell face u v n) n = (face, u, v) := by
  have hn : 0 < n := by omega
  have hr : v * n + u < n * n := by
    have h1 : v * n + u < (v + 1) * n := by
      have : (v + 1) * n = v * n + n := by ring
      omega
    have h2 : (v + 1) * n ≤ n * n := Nat.mul_le_mul_right n (by omega)
    omega
  unfold encode_cell decode_cell
  have e1 : face * (n * n) + v * n + u = (n * n) * face + (v * n + u) := by ring
  rw [e1]
  have hd : ((n * n) * face + (v * n + u)) / (n * n) = face := by
    rw [Nat.mul_add_div (by positivity), Nat.div_eq_of_lt hr]
    omega
  have hm : ((n * n) * face + (v * n + u)) % (n * n) = v * n + u := by
    rw [Nat.mul_add_mod]
    exact Nat.mod_eq_of_lt hr
  rw [hd, hm]
  have e2 : v * n + u = n * v + u := by ring
  rw [e2]
  have hd2 : (n * v + u) / n = v := by
    rw [Nat.mul_add_div hn, Nat.div_eq_of_lt hu]
    omega
  have hm2 : (n * v + u) % n = u := by
    rw [Nat.mul_add_mod]
    exact Nat.mod_eq_of_lt hu
  rw [hd2, hm2]

theorem encode_lt (face u v n : Nat) (hf : face < 6) (hu : u < n) (hv : v < n) :
    encode_cell face u v n < 6 * n * n := by
  unfold encode_cell
  have hr : v * n + u < n * n := by
    have h1 : v * n + u < (v + 1) * n := by
      have : (v + 1) * n = v * n + n := by ring
      omega
    have h2 : (v + 1) * n ≤ n * n := Nat.mul_le_mul_right n (by omega)
    omega
  have h5 : face * (n * n) ≤ 5 * (n * n) := Nat.mul_le_mul_right (n * n) (by omega)
  have : 6 * n * n = 5 * (n * n) + n * n := by ring
  omega

theorem decode_valid (cell n : Nat) (hn : 0 < n) (hc : cell < 6 * n * n) :
    (decode_cell cell n).1 < 6 ∧ (decode_cell cell n).2.1 < n ∧ (decode_cell cell n).2.2 < n := by
  unfold decode_cell
  have hnn : 0 < n * n := by positivity
  refine ⟨?_, ?_, ?_⟩
  · have : cell / (n * n) < 6 := by
      apply Nat.div_lt_of_lt_mul
      have : 6 * n * n = n * n * 6 := by ring
      omega
    simpa using this
  · exact Nat.lt_of_lt_of_le (Nat.mod_lt _ hn) (Nat.le_refl n)
  · have : cell % (n * n) < n * n := Nat.mod_lt _ hnn
    exact Nat.div_lt_of_lt_mul (by omega)

theorem encode_decode (cell n : Nat) :
    encode_cell (decode_cell cell n).1 (decode_cell cell n).2.1 (decode_cell cell n).2.2 n = cell := by
  unfold encode_cell decode_cell
  have h1 : n * (cell % (n * n) / n) + cell % (n * n) % n = cell % (n * n) :=
    Nat.div_add_mod _ n
  have h2 : n * n * (cell / (n * n)) + cell % (n * n) = cell := Nat.div_add_mod _ _
  calc cell / (n * n) * (n * n) + cell % (n * n) / n * n + cell % (n * n) % n
      = n * n * (cell / (n * n)) + (n * (cell % (n * n) / n) + cell % (n * n) % n) := by ring
    _ = n * n * (cell / (n * n)) + cell % (n * n) := by rw [h1]
    _ = cell := h2

/-- Claim C7: for every face in 0..5, u and v in [0, N-1], and N at least 1,
decode_cell (encode_cell face u v N) N = (face, u, v) and
encode_cell face u v N < 6 N^2. -/
theorem C7_encode_decode_roundtrip (face u v n : Nat)
    (hf : face < 6) (hu : u < n) (hv : v < n) :
    decode_cell (encode_cell face u v n) n = (face, u, v) ∧
      encode_cell face u v n < 6 * n * n :=
  ⟨decode_encode face u v n hf hu hv, encode_lt face u v n hf hu hv⟩

/-- Witness for C7 at face 4, u 3, v 3, N 8. -/
theorem C7_encode_decode_roundtrip_witness :
    decode_cell (encode_cell 4 3 3 8) 8 = (4, 3, 3) ∧ encode_cell 4 3 3 8 < 6 * 8 * 8 :=
  C7_encode_decode_roundtrip 4 3 3 8 (by decide) (by decide) (by decide)

/-- Closed form of step_cell on valid inputs, used as an intermediate for the
reversibility proof: interior moves change one coordinate; boundary moves
cross to the adjacent face following the FACE_BASIS table. -/
def stepSpec (f u v d n : Nat) : Nat × Nat :=
  if d = 0 then
    if 0 < v then (encode_cell f u (v - 1) n, 0) else
      match f with
      | 0 => (encode_cell 2 (n - 1) (n - 1 - u) n, 3)
      | 1 => (encode_cell 2 0 u n, 1)
      | 2 => (encode_cell 5 (n - 1 - u) 0 n, 2)
      | 3 => (encode_cell 4 u (n - 1) n, 0)
      | 4 => (encode_cell 2 u (n - 1) n, 0)
      | _ => (encode_cell 2 (n - 1 - u) 0 n, 2)
  else if d = 1 then
    if u + 1 < n then (encode_cell f (u + 1) v n, 1) else
      match f with
      | 0 => (encode_cell 5 0 v n, 1)
      | 1 => (encode_cell 4 0 v n, 1)
      | 2 => (encode_cell 0 (n - 1 - v) 0 n, 2)
      | 3 => (encode_cell 0 v (n - 1) n, 0)
      | 4 => (encode_cell 0 0 v n, 1)
      | _ => (encode_cell 1 0 v n, 1)
  else if d = 2 then
    if v + 1 < n then (encode_cell f u (v + 1) n, 2) else
      match f with
      | 0 => (encode_cell 3 (n - 1) u n, 3)
      | 1 => (encode_cell 3 0 (n - 1 - u) n, 1)
      | 2 => (encode_cell 4 u 0 n, 2)
      | 3 => (encode_cell 5 (n - 1 - u) (n - 1) n, 0)
      | 4 => (encode_cell 3 u 0 n, 2)
      | _ => (encode_cell 3 (n - 1 - u) (n - 1) n, 0)
  else
    if 0 < u then (encode_cell f (u - 1) v n, 3) else
      match f with
      | 0 => (encode_cell 4 (n - 1) v n, 3)
      | 1 => (encode_cell 5 (n - 1) v n, 3)
      | 2 => (encode_cell 1 v 0 n, 2)
      | 3 => (encode_cell 1 (n - 1 - v) (n - 1) n, 0)
      | 4 => (encode_cell 1 (n - 1) v n, 3)
      | _ => (encode_cell 0 (n - 1) v n, 3)


/-! ### Evaluation lemmas for step_cell -/

theorem int_fdiv_eq (a b q : Int) (hb : 0 < b) (h1 : q * b ≤ a) (h2 : a < (q + 1) * b) :
    a.fdiv b = q := by
  rw [Int.fdiv_eq_ediv _ (le_of_lt hb)]
  have hle : q ≤ a / b := (Int.le_ediv_iff_mul_le hb).2 h1
  have hlt : a / b < q + 1 := by
    rw [Int.ediv_lt_iff_lt_mul hb]
    linarith
  omega

theorem pick_axis_x_pos (p : Vec3) (m : Nat) (h1 : p.y.natAbs ≤ p.x.natAbs)
    (h2 : p.z.natAbs ≤ p.x.natAbs) (hs : 0 ≤ p.x) (hm : p.x.natAbs = m) :
    pick_axis p = (m, X) := by
  unfold pick_axis
  rw [if_pos ⟨h1, h2⟩, if_pos hs, hm]

theorem pick_axis_x_neg (p : Vec3) (m : Nat) (h1 : p.y.natAbs ≤ p.x.natAbs)
    (h2 : p.z.natAbs ≤ p.x.natAbs) (hs : ¬0 ≤ p.x) (hm : p.x.natAbs = m) :
    pick_axis p = (m, neg X) := by
  unfold pick_axis
  rw [if_pos ⟨h1, h2⟩, if_neg hs, hm]

theorem pick_axis_y_pos (p : Vec3) (m : Nat)
    (h1 : ¬(p.y.natAbs ≤ p.x.natAbs ∧ p.z.natAbs ≤ p.x.natAbs))
    (h2 : p.x.natAbs ≤ p.y.natAbs) (h3 : p.z.natAbs ≤ p.y.natAbs)
    (hs : 0 ≤ p.y) (hm : p.y.natAbs = m) :
    pick_axis p = (m, Y) := by
  unfold pick_axis
  rw [if_neg h1, if_pos ⟨h2, h3⟩, if_pos hs, hm]

theorem pick_axis_y_neg (p : Vec3) (m : Nat)
    (h1 : ¬(p.y.natAbs ≤ p.x.natAbs ∧ p.z.natAbs ≤ p.x.natAbs))
    (h2 : p.x.natAbs ≤ p.y.natAbs) (h3 : p.z.natAbs ≤ p.y.natAbs)
    (hs : ¬0 ≤ p.y) (hm : p.y.natAbs = m) :
    pick_axis p = (m, neg Y) := by
  unfold pick_axis
  rw [if_neg h1, if_pos ⟨h2, h3⟩, if_neg hs, hm]

theorem pick_axis_z_pos (p : Vec3) (m : Nat)
    (h1 : ¬(p.y.natAbs ≤ p.x.natAbs ∧ p.z.natAbs ≤ p.x.natAbs))
    (h2 : ¬(p.x.natAbs ≤ p.y.natAbs ∧ p.z.natAbs ≤ p.y.natAbs))
    (hs : 0 ≤ p.z) (hm : p.z.natAbs = m) :
    pick_axis p = (m, Z) := by
  unfold pick_axis
  rw [if_neg h1, if_neg h2, if_pos hs, hm]

theorem pick_axis_z_neg (p : Vec3) (m : Nat)
    (h1 : ¬(p.y.natAbs ≤ p.x.natAbs ∧ p.z.natAbs ≤ p.x.natAbs))
    (h2 : ¬(p.x.natAbs ≤ p.y.natAbs ∧ p.z.natAbs ≤ p.y.natAbs))
    (hs : ¬0 ≤ p.z) (hm : p.z.natAbs = m) :
    pick_axis p = (m, neg Z) := by
  unfold pick_axis
  rw [if_neg h1, if_neg h2, if_neg hs, hm]

theorem clamp_coord_cast (k n : Nat) (hk : k < n) : clamp_coord (k : Int) n = (k : Int) := by
  unfold clamp_coord
  rw [if_neg (by omega), if_neg (by omega)]

/-- Closes a fully reduced step_cell goal once the two divisions are bounded. -/
theorem step_done (F u2 v2 n : Nat) (A C B : Int) (hB : 0 < B)
    (h1 : (u2 : Int) * B ≤ A) (h2 : A < ((u2 : Int) + 1) * B) (hu2 : u2 < n)
    (h3 : (v2 : Int) * B ≤ C) (h4 : C < ((v2 : Int) + 1) * B) (hv2 : v2 < n) :
    encode_cell F (clamp_coord (A.fdiv B) n).toNat (clamp_coord (C.fdiv B) n).toNat n =
      encode_cell F u2 v2 n := by
  rw [int_fdiv_eq A B (u2 : Int) hB h1 h2, int_fdiv_eq C B (v2 : Int) hB h3 h4,
    clamp_coord_cast u2 n hu2, clamp_coord_cast v2 n hv2]
  simp

/-! ### Case-by-case evaluation of step_cell on valid inputs -/

theorem step_f0_d0_int (u v n : Nat) (hu : u < n) (hv : v < n) (hv0 : 0 < v) (hn : 2 ≤ n) :
    step_cell (encode_cell 0 u v n) 0 n = some (encode_cell 0 (u) (v - 1) n, 0) := by
  have hdec := decode_encode 0 u v n (by omega) hu hv
  have hp : step_pos2 0 u v 0 n = ⟨(n : Int), -2 * (v : Int) + (n : Int) + 1, -2 * (u : Int) + (n : Int) - 1⟩ := by
    simp [step_pos2, FACE_BASIS, dir_vec, X, Y, Z, neg, Vec3.scale, Vec3.mk_add_mk, Vec3.mk.injEq] <;> omega
  have hqa : ((v - 1 : Nat) : Int) = (v : Int) - 1 := by omega
  simp only [step_cell, hdec, hp]
  rw [pick_axis_x_pos _ n]
  · norm_num [face_of_normal, FACE_BASIS, dir_from_vec, X, Y, Z, neg, Vec3.mk.injEq, dot]
    refine step_done _ _ _ _ _ _ _ ?_ ?_ ?_ ?_ ?_ ?_ ?_
    · push_cast
      omega
    · push_cast [hqa]
      nlinarith
    · push_cast [hqa]
      nlinarith
    · omega
    · push_cast [hqa]
      nlinarith
    · push_cast [hqa]
      nlinarith
    · omega
  all_goals dsimp only
  all_goals omega

theorem step_f0_d0_cross (u n : Nat) (hu : u < n) (hn : 2 ≤ n) :
    step_cell (encode_cell 0 (u) (0) n) 0 n = some (encode_cell 2 (n - 1) (n - 1 - u) n, 3) := by
  have hdec := decode_encode 0 (u) (0) n (by omega) hu (by omega)
  have hp : step_pos2 0 u 0 0 n = ⟨(n : Int), (n : Int) + 1, -2 * (u : Int) + (n : Int) - 1⟩ := by
    simp [step_pos2, FACE_BASIS, dir_vec, X, Y, Z, neg, Vec3.scale, Vec3.mk_add_mk, Vec3.mk.injEq] <;> omega
  have hqb : ((n - 1 : Nat) : Int) = (n : Int) - 1 := by omega
  have hqc : ((n - 1 - u : Nat) : Int) = (n : Int) - 1 - (u : Int) := by omega
  simp only [step_cell, hdec, hp]
  rw [pick_axis_y_pos _ (n + 1)]
  · norm_num [face_of_normal, FACE_BASIS, dir_from_vec, X, Y, Z, neg, Vec3.mk.injEq, dot]
    refine step_done _ _ _ _ _ _ _ ?_ ?_ ?_ ?_ ?_ ?_ ?_
    · push_cast
      omega
    · push_cast [hqb, hqc]
      nlinarith
    · push_cast [hqb, hqc]
      nlinarith
    · omega
    · push_cast [hqb, hqc]
      nlinarith
    · push_cast [hqb, hqc]
      nlinarith
    · omega
  all_goals dsimp only
  all_goals omega

theorem step_f0_d1_int (u v n : Nat) (hu : u < n) (hv : v < n) (hu1 : u + 1 < n) (hn : 2 ≤ n) :
    step_cell (encode_cell 0 u v n) 1 n = some (encode_cell 0 (u + 1) (v) n, 1) := by
  have hdec := decode_encode 0 u v n (by omega) hu hv
  have hp : step_pos2 0 u v 1 n = ⟨(n : Int), -2 * (v : Int) + (n : Int) - 1, -2 * (u : Int) + (n : Int) - 3⟩ := by
    simp [step_pos2, FACE_BASIS, dir_vec, X, Y, Z, neg, Vec3.scale, Vec3.mk_add_mk, Vec3.mk.injEq] <;> omega
  simp only [step_cell, hdec, hp]
  rw [pick_axis_x_pos _ n]
  · norm_num [face_of_normal, FACE_BASIS, dir_from_vec, X, Y, Z, neg, Vec3.mk.injEq, dot]
    refine step_done _ _ _ _ _ _ _ ?_ ?_ ?_ ?_ ?_ ?_ ?_
    · push_cast
      omega
    · push_cast
      nlinarith
    · push_cast
      nlinarith
    · omega
    · push_cast
      nlinarith
    · push_cast
      nlinarith
    · omega
  all_goals dsimp only
  all_goals omega

theorem step_f0_d1_cross (v n : Nat) (hv : v < n) (hn : 2 ≤ n) :
    step_cell (encode_cell 0 (n - 1) (v) n) 1 n = some (encode_cell 5 (0) (v) n, 1) := by
  have hdec := decode_encode 0 (n - 1) (v) n (by omega) (by omega) hv
  have hp : step_pos2 0 (n - 1) v 1 n = ⟨(n : Int), -2 * (v : Int) + (n : Int) - 1, -(n : Int) - 1⟩ := by
    simp [step_pos2, FACE_BASIS, dir_vec, X, Y, Z, neg, Vec3.scale, Vec3.mk_add_mk, Vec3.mk.injEq] <;> omega
  simp only [step_cell, hdec, hp]
  rw [pick_axis_z_neg _ (n + 1)]
  · norm_num [face_of_normal, FACE_BASIS, dir_from_vec, X, Y, Z, neg, Vec3.mk.injEq, dot]
    refine step_done _ _ _ _ _ _ _ ?_ ?_ ?_ ?_ ?_ ?_ ?_
    · push_cast
      omega
    · push_cast
      nlinarith
    · push_cast
      nlinarith
    · omega
    · push_cast
      nlinarith
    · push_cast
      nlinarith
    · omega
  all_goals dsimp only
  all_goals omega

theorem step_f0_d2_int (u v n : Nat) (hu : u < n) (hv : v < n) (hv1 : v + 1 < n) (hn : 2 ≤ n) :
    step_cell (encode_cell 0 u v n) 2 n = some (encode_cell 0 (u) (v + 1) n, 2) := by
  have hdec := decode_encode 0 u v n (by omega) hu hv
  have hp : step_pos2 0 u v 2 n = ⟨(n : Int), -2 * (v : Int) + (n : Int) - 3, -2 * (u : Int) + (n : Int) - 1⟩ := by
    simp [step_pos2, FACE_BASIS, dir_vec, X, Y, Z, neg, Vec3.scale, Vec3.mk_add_mk, Vec3.mk.injEq] <;> omega
  simp only [step_cell, hdec, hp]
  rw [pick_axis_x_pos _ n]
  · norm_num [face_of_normal, FACE_BASIS, dir_from_vec, X, Y, Z, neg, Vec3.mk.injEq, dot]
    refine step_done _ _ _ _ _ _ _ ?_ ?_ ?_ ?_ ?_ ?_ ?_
    · push_cast
      omega
    · push_cast
      nlinarith
    · push_cast
      nlinarith
    · omega
    · push_cast
      nlinarith
    · push_cast
      nlinarith
    · omega
  all_goals dsimp only
  all_goals omega

theorem step_f0_d2_cross (u n : Nat) (hu : u < n) (hn : 2 ≤ n) :
    step_cell (encode_cell 0 (u) (n - 1) n) 2 n = some (encode_cell 3 (n - 1) (u) n, 3) := by
  have hdec := decode_encode 0 (u) (n - 1) n (by omega) hu (by omega)
  have hp : step_pos2 0 u (n - 1) 2 n = ⟨(n : Int), -(n : Int) - 1, -2 * (u : Int) + (n : Int) - 1⟩ := by
    simp [step_pos2, FACE_BASIS, dir_vec, X, Y, Z, neg, Vec3.scale, Vec3.mk_add_mk, Vec3.mk.injEq] <;> omega
  have hqb : ((n - 1 : Nat) : Int) = (n : Int) - 1 := by omega
  simp only [step_cell, hdec, hp]
  rw [pick_axis_y_neg _ (n + 1)]
  · norm_num [face_of_normal, FACE_BASIS, dir_from_vec, X, Y, Z, neg, Vec3.mk.injEq, dot]
    refine step_done _ _ _ _ _ _ _ ?_ ?_ ?_ ?_ ?_ ?_ ?_
    · push_cast
      omega
    · push_cast [hqb]
      nlinarith
    · push_cast [hqb]
      nlinarith
    · omega
    · push_cast [hqb]
      nlinarith
    · push_cast [hqb]
      nlinarith
    · omega
  all_goals dsimp only
  all_goals omega

theorem step_f0_d3_int (u v n : Nat) (hu : u < n) (hv : v < n) (hu0 : 0 < u) (hn : 2 ≤ n) :
    step_cell (encode_cell 0 u v n) 3 n = some (encode_cell 0 (u - 1) (v) n, 3) := by
  have hdec := decode_encode 0 u v n (by omega) hu hv
  have hp : step_pos2 0 u v 3 n = ⟨(n : Int), -2 * (v : Int) + (n : Int) - 1, -2 * (u : Int) + (n : Int) + 1⟩ := by
    simp [step_pos2, FACE_BASIS, dir_vec, X, Y, Z, neg, Vec3.scale, Vec3.mk_add_mk, Vec3.mk.injEq] <;> omega
  have hqa : ((u - 1 : Nat) : Int) = (u : Int) - 1 := by omega
  simp only [step_cell, hdec, hp]
  rw [pick_axis_x_pos _ n]
  · norm_num [face_of_normal, FACE_BASIS, dir_from_vec, X, Y, Z, neg, Vec3.mk.injEq, dot]
    refine step_done _ _ _ _ _ _ _ ?_ ?_ ?_ ?_ ?_ ?_ ?_
    · push_cast
      omega
    · push_cast [hqa]
      nlinarith
    · push_cast [hqa]
      nlinarith
    · omega
    · push_cast [hqa]
      nlinarith
    · push_cast [hqa]
      nlinarith
    · omega
  all_goals dsimp only
  all_goals omega

theorem step_f0_d3_cross (v n : Nat) (hv : v < n) (hn : 2 ≤ n) :
    step_cell (encode_cell 0 (0) (v) n) 3 n = some (encode_cell 4 (n - 1) (v) n, 3) := by
  have hdec := decode_encode 0 (0) (v) n (by omega) (by omega) hv
  have hp : step_pos2 0 0 v 3 n = ⟨(n : Int), -2 * (v : Int) + (n : Int) - 1, (n : Int) + 1⟩ := by
    simp [step_pos2, FACE_BASIS, dir_vec, X, Y, Z, neg, Vec3.scale, Vec3.mk_add_mk, Vec3.mk.injEq] <;> omega
  have hqb : ((n - 1 : Nat) : Int) = (n : Int) - 1 := by omega
  simp only [step_cell, hdec, hp]
  rw [pick_axis_z_pos _ (n + 1)]
  · norm_num [face_of_normal, FACE_BASIS, dir_from_vec, X, Y, Z, neg, Vec3.mk.injEq, dot]
    refine step_done _ _ _ _ _ _ _ ?_ ?_ ?_ ?_ ?_ ?_ ?_
    · push_cast
      omega
    · push_cast [hqb]
      nlinarith
    · push_cast [hqb]
      nlinarith
    · omega
    · push_cast [hqb]
      nlinarith
    · push_cast [hqb]
      nlinarith
    · omega
  all_goals dsimp only
  all_goals omega

theorem step_f1_d0_int (u v n : Nat) (hu : u < n) (hv : v < n) (hv0 : 0 < v) (hn : 2 ≤ n) :
    step_cell (encode_cell 1 u v n) 0 n = some (encode_cell 1 (u) (v - 1) n, 0) := by
  have hdec := decode_encode 1 u v n (by omega) hu hv
  have hp : step_pos2 1 u v 0 n = ⟨-(n : Int), -2 * (v : Int) + (n : Int) + 1, 2 * (u : Int) - (n : Int) + 1⟩ := by
    simp [step_pos2, FACE_BASIS, dir_vec, X, Y, Z, neg, Vec3.scale, Vec3.mk_add_mk, Vec3.mk.injEq] <;> omega
  have hqa : ((v - 1 : Nat) : Int) = (v : Int) - 1 := by omega
  simp only [step_cell, hdec, hp]
  rw [pick_axis_x_neg _ n]
  · norm_num [face_of_normal, FACE_BASIS, dir_from_vec, X, Y, Z, neg, Vec3.mk.injEq, dot]
    refine step_done _ _ _ _ _ _ _ ?_ ?_ ?_ ?_ ?_ ?_ ?_
    · push_cast
      omega
    · push_cast [hqa]
      nlinarith
    · push_cast [hqa]
      nlinarith
    · omega
    · push_cast [hqa]
      nlinarith
    · push_cast [hqa]
      nlinarith
    · omega
  all_goals dsimp only
  all_goals omega

theorem step_f1_d0_cross (u n : Nat) (hu : u < n) (hn : 2 ≤ n) :
    step_cell (encode_cell 1 (u) (0) n) 0 n = some (encode_cell 2 (0) (u) n, 1) := by
  have hdec := decode_encode 1 (u) (0) n (by omega) hu (by omega)
  have hp : step_pos2 1 u 0 0 n = ⟨-(n : Int), (n : Int) + 1, 2 * (u : Int) - (n : Int) + 1⟩ := by
    simp [step_pos2, FACE_BASIS, dir_vec, X, Y, Z, neg, Vec3.scale, Vec3.mk_add_mk, Vec3.mk.injEq] <;> omega
  simp only [step_cell, hdec, hp]
  rw [pick_axis_y_pos _ (n + 1)]
  · norm_num [face_of_normal, FACE_BASIS, dir_from_vec, X, Y, Z, neg, Vec3.mk.injEq, dot]
    refine step_done _ _ _ _ _ _ _ ?_ ?_ ?_ ?_ ?_ ?_ ?_
    · push_cast
      omega
    · push_cast
      nlinarith
    · push_cast
      nlinarith
    · omega
    · push_cast
      nlinarith
    · push_cast
      nlinarith
    · omega
  all_goals dsimp only
  all_goals omega

theorem step_f1_d1_int (u v n : Nat) (hu : u < n) (hv : v < n) (hu1 : u + 1 < n) (hn : 2 ≤ n) :
    step_cell (encode_cell 1 u v n) 1 n = some (encode_cell 1 (u + 1) (v) n, 1) := by
  have hdec := decode_encode 1 u v n (by omega) hu hv
  have hp : step_pos2 1 u v 1 n = ⟨-(n : Int), -2 * (v : Int) + (n : Int) - 1, 2 * (u : Int) - (n : Int) + 3⟩ := by
    simp [step_pos2, FACE_BASIS, dir_vec, X, Y, Z, neg, Vec3.scale, Vec3.mk_add_mk, Vec3.mk.injEq] <;> omega
  simp only [step_cell, hdec, hp]
  rw [pick_axis_x_neg _ n]
  · norm_num [face_of_normal, FACE_BASIS, dir_from_vec, X, Y, Z, neg, Vec3.mk.injEq, dot]
    refine step_done _ _ _ _ _ _ _ ?_ ?_ ?_ ?_ ?_ ?_ ?_
    · push_cast
      omega
    · push_cast
      nlinarith
    · push_cast
      nlinarith
    · omega
    · push_cast
      nlinarith
    · push_cast
      nlinarith
    · omega
  all_goals dsimp only
  all_goals omega

theorem step_f1_d1_cross (v n : Nat) (hv : v < n) (hn : 2 ≤ n) :
    step_cell (encode_cell 1 (n - 1) (v) n) 1 n = some (encode_cell 4 (0) (v) n, 1) := by
  have hdec := decode_encode 1 (n - 1) (v) n (by omega) (by omega) hv
  have hp : step_pos2 1 (n - 1) v 1 n = ⟨-(n : Int), -2 * (v : Int) + (n : Int) - 1, (n : Int) + 1⟩ := by
    simp [step_pos2, FACE_BASIS, dir_vec, X, Y, Z, neg, Vec3.scale, Vec3.mk_add_mk, Vec3.mk.injEq] <;> omega
  simp only [step_cell, hdec, hp]
  rw [pick_axis_z_pos _ (n + 1)]
  · norm_num [face_of_normal, FACE_BASIS, dir_from_vec, X, Y, Z, neg, Vec3.mk.injEq, dot]
    refine step_done _ _ _ _ _ _ _ ?_ ?_ ?_ ?_ ?_ ?_ ?_
    · push_cast
      omega
    · push_cast
      nlinarith
    · push_cast
      nlinarith
    · omega
    · push_cast
      nlinarith
    · push_cast
      nlinarith
    · omega
  all_goals dsimp only
  all_goals omega

theorem step_f1_d2_int (u v n : Nat) (hu : u < n) (hv : v < n) (hv1 : v + 1 < n) (hn : 2 ≤ n) :
    step_cell (encode_cell 1 u v n) 2 n = some (encode_cell 1 (u) (v + 1) n, 2) := by
  have hdec := decode_encode 1 u v n (by omega) hu hv
  have hp : step_pos2 1 u v 2 n = ⟨-(n : Int), -2 * (v : Int) + (n : Int) - 3, 2 * (u : Int) - (n : Int) + 1⟩ := by
    simp [step_pos2, FACE_BASIS, dir_vec, X, Y, Z, neg, Vec3.scale, Vec3.mk_add_mk, Vec3.mk.injEq] <;> omega
  simp only [step_cell, hdec, hp]
  rw [pick_axis_x_neg _ n]
  · norm_num [face_of_normal, FACE_BASIS, dir_from_vec, X, Y, Z, neg, Vec3.mk.injEq, dot]
    refine step_done _ _ _ _ _ _ _ ?_ ?_ ?_ ?_ ?_ ?_ ?_
    · push_cast
      omega
    · push_cast
      nlinarith
    · push_cast
      nlinarith
    · omega
    · push_cast
      nlinarith
    · push_cast
      nlinarith
    · omega
  all_goals dsimp only
  all_goals omega

theorem step_f1_d2_cross (u n : Nat) (hu : u < n) (hn : 2 ≤ n) :
    step_cell (encode_cell 1 (u) (n - 1) n) 2 n = some (encode_cell 3 (0) (n - 1 - u) n, 1) := by
  have hdec := decode_encode 1 (u) (n - 1) n (by omega) hu (by omega)
  have hp : step_pos2 1 u (n - 1) 2 n = ⟨-(n : Int), -(n : Int) - 1, 2 * (u : Int) - (n : Int) + 1⟩ := by
    simp [step_pos2, FACE_BASIS, dir_vec, X, Y, Z, neg, Vec3.scale, Vec3.mk_add_mk, Vec3.mk.injEq] <;> omega
  have hqc : ((n - 1 - u : Nat) : Int) = (n : Int) - 1 - (u : Int) := by omega
  simp only [step_cell, hdec, hp]
  rw [pick_axis_y_neg _ (n + 1)]
  · norm_num [face_of_normal, FACE_BASIS, dir_from_vec, X, Y, Z, neg, Vec3.mk.injEq, dot]
    refine step_done _ _ _ _ _ _ _ ?_ ?_ ?_ ?_ ?_ ?_ ?_
    · push_cast
      omega
    · push_cast [hqc]
      nlinarith
    · push_cast [hqc]
      nlinarith
    · omega
    · push_cast [hqc]
      nlinarith
    · push_cast [hqc]
      nlinarith
    · omega
  all_goals dsimp only
  all_goals omega

theorem step_f1_d3_int (u v n : Nat) (hu : u < n) (hv : v < n) (hu0 : 0 < u) (hn : 2 ≤ n) :
    step_cell (encode_cell 1 u v n) 3 n = some (encode_cell 1 (u - 1) (v) n, 3) := by
  have hdec := decode_encode 1 u v n (by omega) hu hv
  have hp : step_pos2 1 u v 3 n = ⟨-(n : Int), -2 * (v : Int) + (n : Int) - 1, 2 * (u : Int) - (n : Int) - 1⟩ := by
    simp [step_pos2, FACE_BASIS, dir_vec, X, Y, Z, neg, Vec3.scale, Vec3.mk_add_mk, Vec3.mk.injEq] <;> omega
  have hqa : ((u - 1 : Nat) : Int) = (u : Int) - 1 := by omega
  simp only [step_cell, hdec, hp]
  rw [pick_axis_x_neg _ n]
  · norm_num [face_of_normal, FACE_BASIS, dir_from_vec, X, Y, Z, neg, Vec3.mk.injEq, dot]
    refine step_done _ _ _ _ _ _ _ ?_ ?_ ?_ ?_ ?_ ?_ ?_
    · push_cast
      omega
    · push_cast [hqa]
      nlinarith
    · push_cast [hqa]
      nlinarith
    · omega
    · push_cast [hqa]
      nlinarith
    · push_cast [hqa]
      nlinarith
    · omega
  all_goals dsimp only
  all_goals omega

theorem step_f1_d3_cross (v n : Nat) (hv : v < n) (hn : 2 ≤ n) :
    step_cell (encode_cell 1 (0) (v) n) 3 n = some (encode_cell 5 (n - 1) (v) n, 3) := by
  have hdec := decode_encode 1 (0) (v) n (by omega) (by omega) hv
  have hp : step_pos2 1 0 v 3 n = ⟨-(n : Int), -2 * (v : Int) + (n : Int) - 1, -(n : Int) - 1⟩ := by
    simp [step_pos2, FACE_BASIS, dir_vec, X, Y, Z, neg, Vec3.scale, Vec3.mk_add_mk, Vec3.mk.injEq] <;> omega
  have hqb : ((n - 1 : Nat) : Int) = (n : Int) - 1 := by omega
  simp only [step_cell, hdec, hp]
  rw [pick_axis_z_neg _ (n + 1)]
  · norm_num [face_of_normal, FACE_BASIS, dir_from_vec, X, Y, Z, neg, Vec3.mk.injEq, dot]
    refine step_done _ _ _ _ _ _ _ ?_ ?_ ?_ ?_ ?_ ?_ ?_
    · push_cast
      omega
    · push_cast [hqb]
      nlinarith
    · push_cast [hqb]
      nlinarith
    · omega
    · push_cast [hqb]
      nlinarith
    · push_cast [hqb]
      nlinarith
    · omega
  all_goals dsimp only
  all_goals omega

theorem step_f2_d0_int (u v n : Nat) (hu : u < n) (hv : v < n) (hv0 : 0 < v) (hn : 2 ≤ n) :
    step_cell (encode_cell 2 u v n) 0 n = some (encode_cell 2 (u) (v - 1) n, 0) := by
  have hdec := decode_encode 2 u v n (by omega) hu hv
  have hp : step_pos2 2 u v 0 n = ⟨2 * (u : Int) - (n : Int) + 1, (n : Int), 2 * (v : Int) - (n : Int) - 1⟩ := by
    simp [step_pos2, FACE_BASIS, dir_vec, X, Y, Z, neg, Vec3.scale, Vec3.mk_add_mk, Vec3.mk.injEq] <;> omega
  have hqa : ((v - 1 : Nat) : Int) = (v : Int) - 1 := by omega
  simp only [step_cell, hdec, hp]
  rw [pick_axis_y_pos _ n]
  · norm_num [face_of_normal, FACE_BASIS, dir_from_vec, X, Y, Z, neg, Vec3.mk.injEq, dot]
    refine step_done _ _ _ _ _ _ _ ?_ ?_ ?_ ?_ ?_ ?_ ?_
    · push_cast
      omega
    · push_cast [hqa]
      nlinarith
    · push_cast [hqa]
      nlinarith
    · omega
    · push_cast [hqa]
      nlinarith
    · push_cast [hqa]
      nlinarith
    · omega
  all_goals dsimp only
  all_goals omega

theorem step_f2_d0_cross (u n : Nat) (hu : u < n) (hn : 2 ≤ n) :
    step_cell (encode_cell 2 (u) (0) n) 0 n = some (encode_cell 5 (n - 1 - u) (0) n, 2) := by
  have hdec := decode_encode 2 (u) (0) n (by omega) hu (by omega)
  have hp : step_pos2 2 u 0 0 n = ⟨2 * (u : Int) - (n : Int) + 1, (n : Int), -(n : Int) - 1⟩ := by
    simp [step_pos2, FACE_BASIS, dir_vec, X, Y, Z, neg, Vec3.scale, Vec3.mk_add_mk, Vec3.mk.injEq] <;> omega
  have hqc : ((n - 1 - u : Nat) : Int) = (n : Int) - 1 - (u : Int) := by omega
  simp only [step_cell, hdec, hp]
  rw [pick_axis_z_neg _ (n + 1)]
  · norm_num [face_of_normal, FACE_BASIS, dir_from_vec, X, Y, Z, neg, Vec3.mk.injEq, dot]
    refine step_done _ _ _ _ _ _ _ ?_ ?_ ?_ ?_ ?_ ?_ ?_
    · push_cast
      omega
    · push_cast [hqc]
      nlinarith
    · push_cast [hqc]
      nlinarith
    · omega
    · push_cast [hqc]
      nlinarith
    · push_cast [hqc]
      nlinarith
    · omega
  all_goals dsimp only
  all_goals omega

theorem step_f2_d1_int (u v n : Nat) (hu : u < n) (hv : v < n) (hu1 : u + 1 < n) (hn : 2 ≤ n) :
    step_cell (encode_cell 2 u v n) 1 n = some (encode_cell 2 (u + 1) (v) n, 1) := by
  have hdec := decode_encode 2 u v n (by omega) hu hv
  have hp : step_pos2 2 u v 1 n = ⟨2 * (u : Int) - (n : Int) + 3, (n : Int), 2 * (v : Int) - (n : Int) + 1⟩ := by
    simp [step_pos2, FACE_BASIS, dir_vec, X, Y, Z, neg, Vec3.scale, Vec3.mk_add_mk, Vec3.mk.injEq] <;> omega
  simp only [step_cell, hdec, hp]
  rw [pick_axis_y_pos _ n]
  · norm_num [face_of_normal, FACE_BASIS, dir_from_vec, X, Y, Z, neg, Vec3.mk.injEq, dot]
    refine step_done _ _ _ _ _ _ _ ?_ ?_ ?_ ?_ ?_ ?_ ?_
    · push_cast
      omega
    · push_cast
      nlinarith
    · push_cast
      nlinarith
    · omega
    · push_cast
      nlinarith
    · push_cast
      nlinarith
    · omega
  all_goals dsimp only
  all_goals omega

theorem step_f2_d1_cross (v n : Nat) (hv : v < n) (hn : 2 ≤ n) :
    step_cell (encode_cell 2 (n - 1) (v) n) 1 n = some (encode_cell 0 (n - 1 - v) (0) n, 2) := by
  have hdec := decode_encode 2 (n - 1) (v) n (by omega) (by omega) hv
  have hp : step_pos2 2 (n - 1) v 1 n = ⟨(n : Int) + 1, (n : Int), 2 * (v : Int) - (n : Int) + 1⟩ := by
    simp [step_pos2, FACE_BASIS, dir_vec, X, Y, Z, neg, Vec3.scale, Vec3.mk_add_mk, Vec3.mk.injEq] <;> omega
  have hqd : ((n - 1 - v : Nat) : Int) = (n : Int) - 1 - (v : Int) := by omega
  simp only [step_cell, hdec, hp]
  rw [pick_axis_x_pos _ (n + 1)]
  · norm_num [face_of_normal, FACE_BASIS, dir_from_vec, X, Y, Z, neg, Vec3.mk.injEq, dot]
    refine step_done _ _ _ _ _ _ _ ?_ ?_ ?_ ?_ ?_ ?_ ?_
    · push_cast
      omega
    · push_cast [hqd]
      nlinarith
    · push_cast [hqd]
      nlinarith
    · omega
    · push_cast [hqd]
      nlinarith
    · push_cast [hqd]
      nlinarith
    · omega
  all_goals dsimp only
  all_goals omega

theorem step_f2_d2_int (u v n : Nat) (hu : u < n) (hv : v < n) (hv1 : v + 1 < n) (hn : 2 ≤ n) :
    step_cell (encode_cell 2 u v n) 2 n = some (encode_cell 2 (u) (v + 1) n, 2) := by
  have hdec := decode_encode 2 u v n (by omega) hu hv
  have hp : step_pos2 2 u v 2 n = ⟨2 * (u : Int) - (n : Int) + 1, (n : Int), 2 * (v : Int) - (n : Int) + 3⟩ := by
    simp [step_pos2, FACE_BASIS, dir_vec, X, Y, Z, neg, Vec3.scale, Vec3.mk_add_mk, Vec3.mk.injEq] <;> omega
  simp only [step_cell, hdec, hp]
  rw [pick_axis_y_pos _ n]
  · norm_num [face_of_normal, FACE_BASIS, dir_from_vec, X, Y, Z, neg, Vec3.mk.injEq, dot]
    refine step_done _ _ _ _ _ _ _ ?_ ?_ ?_ ?_ ?_ ?_ ?_
    · push_cast
      omega
    · push_cast
      nlinarith
    · push_cast
      nlinarith
    · omega
    · push_cast
      nlinarith
    · push_cast
      nlinarith
    · omega
  all_goals dsimp only
  all_goals omega

theorem step_f2_d2_cross (u n : Nat) (hu : u < n) (hn : 2 ≤ n) :
    step_cell (encode_cell 2 (u) (n - 1) n) 2 n = some (encode_cell 4 (u) (0) n, 2) := by
  have hdec := decode_encode 2 (u) (n - 1) n (by omega) hu (by omega)
  have hp : step_pos2 2 u (n - 1) 2 n = ⟨2 * (u : Int) - (n : Int) + 1, (n : Int), (n : Int) + 1⟩ := by
    simp [step_pos2, FACE_BASIS, dir_vec, X, Y, Z, neg, Vec3.scale, Vec3.mk_add_mk, Vec3.mk.injEq] <;> omega
  simp only [step_cell, hdec, hp]
  rw [pick_axis_z_pos _ (n + 1)]
  · norm_num [face_of_normal, FACE_BASIS, dir_from_vec, X, Y, Z, neg, Vec3.mk.injEq, dot]
    refine step_done _ _ _ _ _ _ _ ?_ ?_ ?_ ?_ ?_ ?_ ?_
    · push_cast
      omega
    · push_cast
      nlinarith
    · push_cast
      nlinarith
    · omega
    · push_cast
      nlinarith
    · push_cast
      nlinarith
    · omega
  all_goals dsimp only
  all_goals omega

theorem step_f2_d3_int (u v n : Nat) (hu : u < n) (hv : v < n) (hu0 : 0 < u) (hn : 2 ≤ n) :
    step_cell (encode_cell 2 u v n) 3 n = some (encode_cell 2 (u - 1) (v) n, 3) := by
  have hdec := decode_encode 2 u v n (by omega) hu hv
  have hp : step_pos2 2 u v 3 n = ⟨2 * (u : Int) - (n : Int) - 1, (n : Int), 2 * (v : Int) - (n : Int) + 1⟩ := by
    simp [step_pos2, FACE_BASIS, dir_vec, X, Y, Z, neg, Vec3.scale, Vec3.mk_add_mk, Vec3.mk.injEq] <;> omega
  have hqa : ((u - 1 : Nat) : Int) = (u : Int) - 1 := by omega
  simp only [step_cell, hdec, hp]
  rw [pick_axis_y_pos _ n]
  · norm_num [face_of_normal, FACE_BASIS, dir_from_vec, X, Y, Z, neg, Vec3.mk.injEq, dot]
    refine step_done _ _ _ _ _ _ _ ?_ ?_ ?_ ?_ ?_ ?_ ?_
    · push_cast
      omega
    · push_cast [hqa]
      nlinarith
    · push_cast [hqa]
      nlinarith
    · omega
    · push_cast [hqa]
      nlinarith
    · push_cast [hqa]
      nlinarith
    · omega
  all_goals dsimp only
  all_goals omega

theorem step_f2_d3_cross (v n : Nat) (hv : v < n) (hn : 2 ≤ n) :
    step_cell (encode_cell 2 (0) (v) n) 3 n = some (encode_cell 1 (v) (0) n, 2) := by
  have hdec := decode_encode 2 (0) (v) n (by omega) (by omega) hv
  have hp : step_pos2 2 0 v 3 n = ⟨-(n : Int) - 1, (n : Int), 2 * (v : Int) - (n : Int) + 1⟩ := by
    simp [step_pos2, FACE_BASIS, dir_vec, X, Y, Z, neg, Vec3.scale, Vec3.mk_add_mk, Vec3.mk.injEq] <;> omega
  simp only [step_cell, hdec, hp]
  rw [pick_axis_x_neg _ (n + 1)]
  · norm_num [face_of_normal, FACE_BASIS, dir_from_vec, X, Y, Z, neg, Vec3.mk.injEq, dot]
    refine step_done _ _ _ _ _ _ _ ?_ ?_ ?_ ?_ ?_ ?_ ?_
    · push_cast
      omega
    · push_cast
      nlinarith
    · push_cast
      nlinarith
    · omega
    · push_cast
      nlinarith
    · push_cast
      nlinarith
    · omega
  all_goals dsimp only
  all_goals omega

theorem step_f3_d0_int (u v n : Nat) (hu : u < n) (hv : v < n) (hv0 : 0 < v) (hn : 2 ≤ n) :
    step_cell (encode_cell 3 u v n) 0 n = some (encode_cell 3 (u) (v - 1) n, 0) := by
  have hdec := decode_encode 3 u v n (by omega) hu hv
  have hp : step_pos2 3 u v 0 n = ⟨2 * (u : Int) - (n : Int) + 1, -(n : Int), -2 * (v : Int) + (n : Int) + 1⟩ := by
    simp [step_pos2, FACE_BASIS, dir_vec, X, Y, Z, neg, Vec3.scale, Vec3.mk_add_mk, Vec3.mk.injEq] <;> omega
  have hqa : ((v - 1 : Nat) : Int) = (v : Int) - 1 := by omega
  simp only [step_cell, hdec, hp]
  rw [pick_axis_y_neg _ n]
  · norm_num [face_of_normal, FACE_BASIS, dir_from_vec, X, Y, Z, neg, Vec3.mk.injEq, dot]
    refine step_done _ _ _ _ _ _ _ ?_ ?_ ?_ ?_ ?_ ?_ ?_
    · push_cast
      omega
    · push_cast [hqa]
      nlinarith
    · push_cast [hqa]
      nlinarith
    · omega
    · push_cast [hqa]
      nlinarith
    · push_cast [hqa]
      nlinarith
    · omega
  all_goals dsimp only
  all_goals omega

theorem step_f3_d0_cross (u n : Nat) (hu : u < n) (hn : 2 ≤ n) :
    step_cell (encode_cell 3 (u) (0) n) 0 n = some (encode_cell 4 (u) (n - 1) n, 0) := by
  have hdec := decode_encode 3 (u) (0) n (by omega) hu (by omega)
  have hp : step_pos2 3 u 0 0 n = ⟨2 * (u : Int) - (n : Int) + 1, -(n : Int), (n : Int) + 1⟩ := by
    simp [step_pos2, FACE_BASIS, dir_vec, X, Y, Z, neg, Vec3.scale, Vec3.mk_add_mk, Vec3.mk.injEq] <;> omega
  have hqb : ((n - 1 : Nat) : Int) = (n : Int) - 1 := by omega
  simp only [step_cell, hdec, hp]
  rw [pick_axis_z_pos _ (n + 1)]
  · norm_num [face_of_normal, FACE_BASIS, dir_from_vec, X, Y, Z, neg, Vec3.mk.injEq, dot]
    refine step_done _ _ _ _ _ _ _ ?_ ?_ ?_ ?_ ?_ ?_ ?_
    · push_cast
      omega
    · push_cast [hqb]
      nlinarith
    · push_cast [hqb]
      nlinarith
    · omega
    · push_cast [hqb]
      nlinarith
    · push_cast [hqb]
      nlinarith
    · omega
  all_goals dsimp only
  all_goals omega

theorem step_f3_d1_int (u v n : Nat) (hu : u < n) (hv : v < n) (hu1 : u + 1 < n) (hn : 2 ≤ n) :
    step_cell (encode_cell 3 u v n) 1 n = some (encode_cell 3 (u + 1) (v) n, 1) := by
  have hdec := decode_encode 3 u v n (by omega) hu hv
  have hp : step_pos2 3 u v 1 n = ⟨2 * (u : Int) - (n : Int) + 3, -(n : Int), -2 * (v : Int) + (n : Int) - 1⟩ := by
    simp [step_pos2, FACE_BASIS, dir_vec, X, Y, Z, neg, Vec3.scale, Vec3.mk_add_mk, Vec3.mk.injEq] <;> omega
  simp only [step_cell, hdec, hp]
  rw [pick_axis_y_neg _ n]
  · norm_num [face_of_normal, FACE_BASIS, dir_from_vec, X, Y, Z, neg, Vec3.mk.injEq, dot]
    refine step_done _ _ _ _ _ _ _ ?_ ?_ ?_ ?_ ?_ ?_ ?_
    · push_cast
      omega
    · push_cast
      nlinarith
    · push_cast
      nlinarith
    · omega
    · push_cast
      nlinarith
    · push_cast
      nlinarith
    · omega
  all_goals dsimp only
  all_goals omega

theorem step_f3_d1_cross (v n : Nat) (hv : v < n) (hn : 2 ≤ n) :
    step_cell (encode_cell 3 (n - 1) (v) n) 1 n = some (encode_cell 0 (v) (n - 1) n, 0) := by
  have hdec := decode_encode 3 (n - 1) (v) n (by omega) (by omega) hv
  have hp : step_pos2 3 (n - 1) v 1 n = ⟨(n : Int) + 1, -(n : Int), -2 * (v : Int) + (n : Int) - 1⟩ := by
    simp [step_pos2, FACE_BASIS, dir_vec, X, Y, Z, neg, Vec3.scale, Vec3.mk_add_mk, Vec3.mk.injEq] <;> omega
  have hqb : ((n - 1 : Nat) : Int) = (n : Int) - 1 := by omega
  simp only [step_cell, hdec, hp]
  rw [pick_axis_x_pos _ (n + 1)]
  · norm_num [face_of_normal, FACE_BASIS, dir_from_vec, X, Y, Z, neg, Vec3.mk.injEq, dot]
    refine step_done _ _ _ _ _ _ _ ?_ ?_ ?_ ?_ ?_ ?_ ?_
    · push_cast
      omega
    · push_cast [hqb]
      nlinarith
    · push_cast [hqb]
      nlinarith
    · omega
    · push_cast [hqb]
      nlinarith
    · push_cast [hqb]
      nlinarith
    · omega
  all_goals dsimp only
  all_goals omega

theorem step_f3_d2_int (u v n : Nat) (hu : u < n) (hv : v < n) (hv1 : v + 1 < n) (hn : 2 ≤ n) :
    step_cell (encode_cell 3 u v n) 2 n = some (encode_cell 3 (u) (v + 1) n, 2) := by
  have hdec := decode_encode 3 u v n (by omega) hu hv
  have hp : step_pos2 3 u v 2 n = ⟨2 * (u : Int) - (n : Int) + 1, -(n : Int), -2 * (v : Int) + (n : Int) - 3⟩ := by
    simp [step_pos2, FACE_BASIS, dir_vec, X, Y, Z, neg, Vec3.scale, Vec3.mk_add_mk, Vec3.mk.injEq] <;> omega
  simp only [step_cell, hdec, hp]
  rw [pick_axis_y_neg _ n]
  · norm_num [face_of_normal, FACE_BASIS, dir_from_vec, X, Y, Z, neg, Vec3.mk.injEq, dot]
    refine step_done _ _ _ _ _ _ _ ?_ ?_ ?_ ?_ ?_ ?_ ?_
    · push_cast
      omega
    · push_cast
      nlinarith
    · push_cast
      nlinarith
    · omega
    · push_cast
      nlinarith
    · push_cast
      nlinarith
    · omega
  all_goals dsimp only
  all_goals omega

theorem step_f3_d2_cross (u n : Nat) (hu : u < n) (hn : 2 ≤ n) :
    step_cell (encode_cell 3 (u) (n - 1) n) 2 n = some (encode_cell 5 (n - 1 - u) (n - 1) n, 0) := by
  have hdec := decode_encode 3 (u) (n - 1) n (by omega) hu (by omega)
  have hp : step_pos2 3 u (n - 1) 2 n = ⟨2 * (u : Int) - (n : Int) + 1, -(n : Int), -(n : Int) - 1⟩ := by
    simp [step_pos2, FACE_BASIS, dir_vec, X, Y, Z, neg, Vec3.scale, Vec3.mk_add_mk, Vec3.mk.injEq] <;> omega
  have hqc : ((n - 1 - u : Nat) : Int) = (n : Int) - 1 - (u : Int) := by omega
  have hqb : ((n - 1 : Nat) : Int) = (n : Int) - 1 := by omega
  simp only [step_cell, hdec, hp]
  rw [pick_axis_z_neg _ (n + 1)]
  · norm_num [face_of_normal, FACE_BASIS, dir_from_vec, X, Y, Z, neg, Vec3.mk.injEq, dot]
    refine step_done _ _ _ _ _ _ _ ?_ ?_ ?_ ?_ ?_ ?_ ?_
    · push_cast
      omega
    · push_cast [hqc, hqb]
      nlinarith
    · push_cast [hqc, hqb]
      nlinarith
    · omega
    · push_cast [hqc, hqb]
      nlinarith
    · push_cast [hqc, hqb]
      nlinarith
    · omega
  all_goals dsimp only
  all_goals omega

theorem step_f3_d3_int (u v n : Nat) (hu : u < n) (hv : v < n) (hu0 : 0 < u) (hn : 2 ≤ n) :
    step_cell (encode_cell 3 u v n) 3 n = some (encode_cell 3 (u - 1) (v) n, 3) := by
  have hdec := decode_encode 3 u v n (by omega) hu hv
  have hp : step_pos2 3 u v 3 n = ⟨2 * (u : Int) - (n : Int) - 1, -(n : Int), -2 * (v : Int) + (n : Int) - 1⟩ := by
    simp [step_pos2, FACE_BASIS, dir_vec, X, Y, Z, neg, Vec3.scale, Vec3.mk_add_mk, Vec3.mk.injEq] <;> omega
  have hqa : ((u - 1 : Nat) : Int) = (u : Int) - 1 := by omega
  simp only [step_cell, hdec, hp]
  rw [pick_axis_y_neg _ n]
  · norm_num [face_of_normal, FACE_BASIS, dir_from_vec, X, Y, Z, neg, Vec3.mk.injEq, dot]
    refine step_done _ _ _ _ _ _ _ ?_ ?_ ?_ ?_ ?_ ?_ ?_
    · push_cast
      omega
    · push_cast [hqa]
      nlinarith
    · push_cast [hqa]
      nlinarith
    · omega
    · push_cast [hqa]
      nlinarith
    · push_cast [hqa]
      nlinarith
    · omega
  all_goals dsimp only
  all_goals omega

theorem step_f3_d3_cross (v n : Nat) (hv : v < n) (hn : 2 ≤ n) :
    step_cell (encode_cell 3 (0) (v) n) 3 n = some (encode_cell 1 (n - 1 - v) (n - 1) n, 0) := by
  have hdec := decode_encode 3 (0) (v) n (by omega) (by omega) hv
  have hp : step_pos2 3 0 v 3 n = ⟨-(n : Int) - 1, -(n : Int), -2 * (v : Int) + (n : Int) - 1⟩ := by
    simp [step_pos2, FACE_BASIS, dir_vec, X, Y, Z, neg, Vec3.scale, Vec3.mk_add_mk, Vec3.mk.injEq] <;> omega
  have hqd : ((n - 1 - v : Nat) : Int) = (n : Int) - 1 - (v : Int) := by omega
  have hqb : ((n - 1 : Nat) : Int) = (n : Int) - 1 := by omega
  simp only [step_cell, hdec, hp]
  rw [pick_axis_x_neg _ (n + 1)]
  · norm_num [face_of_normal, FACE_BASIS, dir_from_vec, X, Y, Z, neg, Vec3.mk.injEq, dot]
    refine step_done _ _ _ _ _ _ _ ?_ ?_ ?_ ?_ ?_ ?_ ?_
    · push_cast
      omega
    · push_cast [hqd, hqb]
      nlinarith
    · push_cast [hqd, hqb]
      nlinarith
    · omega
    · push_cast [hqd, hqb]
      nlinarith
    · push_cast [hqd, hqb]
      nlinarith
    · omega
  all_goals dsimp only
  all_goals omega

theorem step_f4_d0_int (u v n : Nat) (hu : u < n) (hv : v < n) (hv0 : 0 < v) (hn : 2 ≤ n) :
    step_cell (encode_cell 4 u v n) 0 n = some (encode_cell 4 (u) (v - 1) n, 0) := by
  have hdec := decode_encode 4 u v n (by omega) hu hv
  have hp : step_pos2 4 u v 0 n = ⟨2 * (u : Int) - (n : Int) + 1, -2 * (v : Int) + (n : Int) + 1, (n : Int)⟩ := by
    simp [step_pos2, FACE_BASIS, dir_vec, X, Y, Z, neg, Vec3.scale, Vec3.mk_add_mk, Vec3.mk.injEq] <;> omega
  have hqa : ((v - 1 : Nat) : Int) = (v : Int) - 1 := by omega
  simp only [step_cell, hdec, hp]
  rw [pick_axis_z_pos _ n]
  · norm_num [face_of_normal, FACE_BASIS, dir_from_vec, X, Y, Z, neg, Vec3.mk.injEq, dot]
    refine step_done _ _ _ _ _ _ _ ?_ ?_ ?_ ?_ ?_ ?_ ?_
    · push_cast
      omega
    · push_cast [hqa]
      nlinarith
    · push_cast [hqa]
      nlinarith
    · omega
    · push_cast [hqa]
      nlinarith
    · push_cast [hqa]
      nlinarith
    · omega
  all_goals dsimp only
  all_goals omega

theorem step_f4_d0_cross (u n : Nat) (hu : u < n) (hn : 2 ≤ n) :
    step_cell (encode_cell 4 (u) (0) n) 0 n = some (encode_cell 2 (u) (n - 1) n, 0) := by
  have hdec := decode_encode 4 (u) (0) n (by omega) hu (by omega)
  have hp : step_pos2 4 u 0 0 n = ⟨2 * (u : Int) - (n : Int) + 1, (n : Int) + 1, (n : Int)⟩ := by
    simp [step_pos2, FACE_BASIS, dir_vec, X, Y, Z, neg, Vec3.scale, Vec3.mk_add_mk, Vec3.mk.injEq] <;> omega
  have hqb : ((n - 1 : Nat) : Int) = (n : Int) - 1 := by omega
  simp only [step_cell, hdec, hp]
  rw [pick_axis_y_pos _ (n + 1)]
  · norm_num [face_of_normal, FACE_BASIS, dir_from_vec, X, Y, Z, neg, Vec3.mk.injEq, dot]
    refine step_done _ _ _ _ _ _ _ ?_ ?_ ?_ ?_ ?_ ?_ ?_
    · push_cast
      omega
    · push_cast [hqb]
      nlinarith
    · push_cast [hqb]
      nlinarith
    · omega
    · push_cast [hqb]
      nlinarith
    · push_cast [hqb]
      nlinarith
    · omega
  all_goals dsimp only
  all_goals omega

theorem step_f4_d1_int (u v n : Nat) (hu : u < n) (hv : v < n) (hu1 : u + 1 < n) (hn : 2 ≤ n) :
    step_cell (encode_cell 4 u v n) 1 n = some (encode_cell 4 (u + 1) (v) n, 1) := by
  have hdec := decode_encode 4 u v n (by omega) hu hv
  have hp : step_pos2 4 u v 1 n = ⟨2 * (u : Int) - (n : Int) + 3, -2 * (v : Int) + (n : Int) - 1, (n : Int)⟩ := by
    simp [step_pos2, FACE_BASIS, dir_vec, X, Y, Z, neg, Vec3.scale, Vec3.mk_add_mk, Vec3.mk.injEq] <;> omega
  simp only [step_cell, hdec, hp]
  rw [pick_axis_z_pos _ n]
  · norm_num [face_of_normal, FACE_BASIS, dir_from_vec, X, Y, Z, neg, Vec3.mk.injEq, dot]
    refine step_done _ _ _ _ _ _ _ ?_ ?_ ?_ ?_ ?_ ?_ ?_
    · push_cast
      omega
    · push_cast
      nlinarith
    · push_cast
      nlinarith
    · omega
    · push_cast
      nlinarith
    · push_cast
      nlinarith
    · omega
  all_goals dsimp only
  all_goals omega

theorem step_f4_d1_cross (v n : Nat) (hv : v < n) (hn : 2 ≤ n) :
    step_cell (encode_cell 4 (n - 1) (v) n) 1 n = some (encode_cell 0 (0) (v) n, 1) := by
  have hdec := decode_encode 4 (n - 1) (v) n (by omega) (by omega) hv
  have hp : step_pos2 4 (n - 1) v 1 n = ⟨(n : Int) + 1, -2 * (v : Int) + (n : Int) - 1, (n : Int)⟩ := by
    simp [step_pos2, FACE_BASIS, dir_vec, X, Y, Z, neg, Vec3.scale, Vec3.mk_add_mk, Vec3.mk.injEq] <;> omega
  simp only [step_cell, hdec, hp]
  rw [pick_axis_x_pos _ (n + 1)]
  · norm_num [face_of_normal, FACE_BASIS, dir_from_vec, X, Y, Z, neg, Vec3.mk.injEq, dot]
    refine step_done _ _ _ _ _ _ _ ?_ ?_ ?_ ?_ ?_ ?_ ?_
    · push_cast
      omega
    · push_cast
      nlinarith
    · push_cast
      nlinarith
    · omega
    · push_cast
      nlinarith
    · push_cast
      nlinarith
    · omega
  all_goals dsimp only
  all_goals omega

theorem step_f4_d2_int (u v n : Nat) (hu : u < n) (hv : v < n) (hv1 : v + 1 < n) (hn : 2 ≤ n) :
    step_cell (encode_cell 4 u v n) 2 n = some (encode_cell 4 (u) (v + 1) n, 2) := by
  have hdec := decode_encode 4 u v n (by omega) hu hv
  have hp : step_pos2 4 u v 2 n = ⟨2 * (u : Int) - (n : Int) + 1, -2 * (v : Int) + (n : Int) - 3, (n : Int)⟩ := by
    simp [step_pos2, FACE_BASIS, dir_vec, X, Y, Z, neg, Vec3.scale, Vec3.mk_add_mk, Vec3.mk.injEq] <;> omega
  simp only [step_cell, hdec, hp]
  rw [pick_axis_z_pos _ n]
  · norm_num [face_of_normal, FACE_BASIS, dir_from_vec, X, Y, Z, neg, Vec3.mk.injEq, dot]
    refine step_done _ _ _ _ _ _ _ ?_ ?_ ?_ ?_ ?_ ?_ ?_
    · push_cast
      omega
    · push_cast
      nlinarith
    · push_cast
      nlinarith
    · omega
    · push_cast
      nlinarith
    · push_cast
      nlinarith
    · omega
  all_goals dsimp only
  all_goals omega

theorem step_f4_d2_cross (u n : Nat) (hu : u < n) (hn : 2 ≤ n) :
    step_cell (encode_cell 4 (u) (n - 1) n) 2 n = some (encode_cell 3 (u) (0) n, 2) := by
  have hdec := decode_encode 4 (u) (n - 1) n (by omega) hu (by omega)
  have hp : step_pos2 4 u (n - 1) 2 n = ⟨2 * (u : Int) - (n : Int) + 1, -(n : Int) - 1, (n : Int)⟩ := by
    simp [step_pos2, FACE_BASIS, dir_vec, X, Y, Z, neg, Vec3.scale, Vec3.mk_add_mk, Vec3.mk.injEq] <;> omega
  simp only [step_cell, hdec, hp]
  rw [pick_axis_y_neg _ (n + 1)]
  · norm_num [face_of_normal, FACE_BASIS, dir_from_vec, X, Y, Z, neg, Vec3.mk.injEq, dot]
    refine step_done _ _ _ _ _ _ _ ?_ ?_ ?_ ?_ ?_ ?_ ?_
    · push_cast
      omega
    · push_cast
      nlinarith
    · push_cast
      nlinarith
    · omega
    · push_cast
      nlinarith
    · push_cast
      nlinarith
    · omega
  all_goals dsimp only
  all_goals omega

theorem step_f4_d3_int (u v n : Nat) (hu : u < n) (hv : v < n) (hu0 : 0 < u) (hn : 2 ≤ n) :
    step_cell (encode_cell 4 u v n) 3 n = some (encode_cell 4 (u - 1) (v) n, 3) := by
  have hdec := decode_encode 4 u v n (by omega) hu hv
  have hp : step_pos2 4 u v 3 n = ⟨2 * (u : Int) - (n : Int) - 1, -2 * (v : Int) + (n : Int) - 1, (n : Int)⟩ := by
    simp [step_pos2, FACE_BASIS, dir_vec, X, Y, Z, neg, Vec3.scale, Vec3.mk_add_mk, Vec3.mk.injEq] <;> omega
  have hqa : ((u - 1 : Nat) : Int) = (u : Int) - 1 := by omega
  simp only [step_cell, hdec, hp]
  rw [pick_axis_z_pos _ n]
  · norm_num [face_of_normal, FACE_BASIS, dir_from_vec, X, Y, Z, neg, Vec3.mk.injEq, dot]
    refine step_done _ _ _ _ _ _ _ ?_ ?_ ?_ ?_ ?_ ?_ ?_
    · push_cast
      omega
    · push_cast [hqa]
      nlinarith
    · push_cast [hqa]
      nlinarith
    · omega
    · push_cast [hqa]
      nlinarith
    · push_cast [hqa]
      nlinarith
    · omega
  all_goals dsimp only
  all_goals omega

theorem step_f4_d3_cross (v n : Nat) (hv : v < n) (hn : 2 ≤ n) :
    step_cell (encode_cell 4 (0) (v) n) 3 n = some (encode_cell 1 (n - 1) (v) n, 3) := by
  have hdec := decode_encode 4 (0) (v) n (by omega) (by omega) hv
  have hp : step_pos2 4 0 v 3 n = ⟨-(n : Int) - 1, -2 * (v : Int) + (n : Int) - 1, (n : Int)⟩ := by
    simp [step_pos2, FACE_BASIS, dir_vec, X, Y, Z, neg, Vec3.scale, Vec3.mk_add_mk, Vec3.mk.injEq] <;> omega
  have hqb : ((n - 1 : Nat) : Int) = (n : Int) - 1 := by omega
  simp only [step_cell, hdec, hp]
  rw [pick_axis_x_neg _ (n + 1)]
  · norm_num [face_of_normal, FACE_BASIS, dir_from_vec, X, Y, Z, neg, Vec3.mk.injEq, dot]
    refine step_done _ _ _ _ _ _ _ ?_ ?_ ?_ ?_ ?_ ?_ ?_
    · push_cast
      omega
    · push_cast [hqb]
      nlinarith
    · push_cast [hqb]
      nlinarith
    · omega
    · push_cast [hqb]
      nlinarith
    · push_cast [hqb]
      nlinarith
    · omega
  all_goals dsimp only
  all_goals omega

theorem step_f5_d0_int (u v n : Nat) (hu : u < n) (hv : v < n) (hv0 : 0 < v) (hn : 2 ≤ n) :
    step_cell (encode_cell 5 u v n) 0 n = some (encode_cell 5 (u) (v - 1) n, 0) := by
  have hdec := decode_encode 5 u v n (by omega) hu hv
  have hp : step_pos2 5 u v 0 n = ⟨-2 * (u : Int) + (n : Int) - 1, -2 * (v : Int) + (n : Int) + 1, -(n : Int)⟩ := by
    simp [step_pos2, FACE_BASIS, dir_vec, X, Y, Z, neg, Vec3.scale, Vec3.mk_add_mk, Vec3.mk.injEq] <;> omega
  have hqa : ((v - 1 : Nat) : Int) = (v : Int) - 1 := by omega
  simp only [step_cell, hdec, hp]
  rw [pick_axis_z_neg _ n]
  · norm_num [face_of_normal, FACE_BASIS, dir_from_vec, X, Y, Z, neg, Vec3.mk.injEq, dot]
    refine step_done _ _ _ _ _ _ _ ?_ ?_ ?_ ?_ ?_ ?_ ?_
    · push_cast
      omega
    · push_cast [hqa]
      nlinarith
    · push_cast [hqa]
      nlinarith
    · omega
    · push_cast [hqa]
      nlinarith
    · push_cast [hqa]
      nlinarith
    · omega
  all_goals dsimp only
  all_goals omega

theorem step_f5_d0_cross (u n : Nat) (hu : u < n) (hn : 2 ≤ n) :
    step_cell (encode_cell 5 (u) (0) n) 0 n = some (encode_cell 2 (n - 1 - u) (0) n, 2) := by
  have hdec := decode_encode 5 (u) (0) n (by omega) hu (by omega)
  have hp : step_pos2 5 u 0 0 n = ⟨-2 * (u : Int) + (n : Int) - 1, (n : Int) + 1, -(n : Int)⟩ := by
    simp [step_pos2, FACE_BASIS, dir_vec, X, Y, Z, neg, Vec3.scale, Vec3.mk_add_mk, Vec3.mk.injEq] <;> omega
  have hqc : ((n - 1 - u : Nat) : Int) = (n : Int) - 1 - (u : Int) := by omega
  simp only [step_cell, hdec, hp]
  rw [pick_axis_y_pos _ (n + 1)]
  · norm_num [face_of_normal, FACE_BASIS, dir_from_vec, X, Y, Z, neg, Vec3.mk.injEq, dot]
    refine step_done _ _ _ _ _ _ _ ?_ ?_ ?_ ?_ ?_ ?_ ?_
    · push_cast
      omega
    · push_cast [hqc]
      nlinarith
    · push_cast [hqc]
      nlinarith
    · omega
    · push_cast [hqc]
      nlinarith
    · push_cast [hqc]
      nlinarith
    · omega
  all_goals dsimp only
  all_goals omega

theorem step_f5_d1_int (u v n : Nat) (hu : u < n) (hv : v < n) (hu1 : u + 1 < n) (hn : 2 ≤ n) :
    step_cell (encode_cell 5 u v n) 1 n = some (encode_cell 5 (u + 1) (v) n, 1) := by
  have hdec := decode_encode 5 u v n (by omega) hu hv
  have hp : step_pos2 5 u v 1 n = ⟨-2 * (u : Int) + (n : Int) - 3, -2 * (v : Int) + (n : Int) - 1, -(n : Int)⟩ := by
    simp [step_pos2, FACE_BASIS, dir_vec, X, Y, Z, neg, Vec3.scale, Vec3.mk_add_mk, Vec3.mk.injEq] <;> omega
  simp only [step_cell, hdec, hp]
  rw [pick_axis_z_neg _ n]
  · norm_num [face_of_normal, FACE_BASIS, dir_from_vec, X, Y, Z, neg, Vec3.mk.injEq, dot]
    refine step_done _ _ _ _ _ _ _ ?_ ?_ ?_ ?_ ?_ ?_ ?_
    · push_cast
      omega
    · push_cast
      nlinarith
    · push_cast
      nlinarith
    · omega
    · push_cast
      nlinarith
    · push_cast
      nlinarith
    · omega
  all_goals dsimp only
  all_goals omega

theorem step_f5_d1_cross (v n : Nat) (hv : v < n) (hn : 2 ≤ n) :
    step_cell (encode_cell 5 (n - 1) (v) n) 1 n = some (encode_cell 1 (0) (v) n, 1) := by
  have hdec := decode_encode 5 (n - 1) (v) n (by omega) (by omega) hv
  have hp : step_pos2 5 (n - 1) v 1 n = ⟨-(n : Int) - 1, -2 * (v : Int) + (n : Int) - 1, -(n : Int)⟩ := by
    simp [step_pos2, FACE_BASIS, dir_vec, X, Y, Z, neg, Vec3.scale, Vec3.mk_add_mk, Vec3.mk.injEq] <;> omega
  simp only [step_cell, hdec, hp]
  rw [pick_axis_x_neg _ (n + 1)]
  · norm_num [face_of_normal, FACE_BASIS, dir_from_vec, X, Y, Z, neg, Vec3.mk.injEq, dot]
    refine step_done _ _ _ _ _ _ _ ?_ ?_ ?_ ?_ ?_ ?_ ?_
    · push_cast
      omega
    · push_cast
      nlinarith
    · push_cast
      nlinarith
    · omega
    · push_cast
      nlinarith
    · push_cast
      nlinarith
    · omega
  all_goals dsimp only
  all_goals omega

theorem step_f5_d2_int (u v n : Nat) (hu : u < n) (hv : v < n) (hv1 : v + 1 < n) (hn : 2 ≤ n) :
    step_cell (encode_cell 5 u v n) 2 n = some (encode_cell 5 (u) (v + 1) n, 2) := by
  have hdec := decode_encode 5 u v n (by omega) hu hv
  have hp : step_pos2 5 u v 2 n = ⟨-2 * (u : Int) + (n : Int) - 1, -2 * (v : Int) + (n : Int) - 3, -(n : Int)⟩ := by
    simp [step_pos2, FACE_BASIS, dir_vec, X, Y, Z, neg, Vec3.scale, Vec3.mk_add_mk, Vec3.mk.injEq] <;> omega
  simp only [step_cell, hdec, hp]
  rw [pick_axis_z_neg _ n]
  · norm_num [face_of_normal, FACE_BASIS, dir_from_vec, X, Y, Z, neg, Vec3.mk.injEq, dot]
    refine step_done _ _ _ _ _ _ _ ?_ ?_ ?_ ?_ ?_ ?_ ?_
    · push_cast
      omega
    · push_cast
      nlinarith
    · push_cast
      nlinarith
    · omega
    · push_cast
      nlinarith
    · push_cast
      nlinarith
    · omega
  all_goals dsimp only
  all_goals omega

theorem step_f5_d2_cross (u n : Nat) (hu : u < n) (hn : 2 ≤ n) :
    step_cell (encode_cell 5 (u) (n - 1) n) 2 n = some (encode_cell 3 (n - 1 - u) (n - 1) n, 0) := by
  have hdec := decode_encode 5 (u) (n - 1) n (by omega) hu (by omega)
  have hp : step_pos2 5 u (n - 1) 2 n = ⟨-2 * (u : Int) + (n : Int) - 1, -(n : Int) - 1, -(n : Int)⟩ := by
    simp [step_pos2, FACE_BASIS, dir_vec, X, Y, Z, neg, Vec3.scale, Vec3.mk_add_mk, Vec3.mk.injEq] <;> omega
  have hqc : ((n - 1 - u : Nat) : Int) = (n : Int) - 1 - (u : Int) := by omega
  have hqb : ((n - 1 : Nat) : Int) = (n : Int) - 1 := by omega
  simp only [step_cell, hdec, hp]
  rw [pick_axis_y_neg _ (n + 1)]
  · norm_num [face_of_normal, FACE_BASIS, dir_from_vec, X, Y, Z, neg, Vec3.mk.injEq, dot]
    refine step_done _ _ _ _ _ _ _ ?_ ?_ ?_ ?_ ?_ ?_ ?_
    · push_cast
      omega
    · push_cast [hqc, hqb]
      nlinarith
    · push_cast [hqc, hqb]
      nlinarith
    · omega
    · push_cast [hqc, hqb]
      nlinarith
    · push_cast [hqc, hqb]
      nlinarith
    · omega
  all_goals dsimp only
  all_goals omega

theorem step_f5_d3_int (u v n : Nat) (hu : u < n) (hv : v < n) (hu0 : 0 < u) (hn : 2 ≤ n) :
    step_cell (encode_cell 5 u v n) 3 n = some (encode_cell 5 (u - 1) (v) n, 3) := by
  have hdec := decode_encode 5 u v n (by omega) hu hv
  have hp : step_pos2 5 u v 3 n = ⟨-2 * (u : Int) + (n : Int) + 1, -2 * (v : Int) + (n : Int) - 1, -(n : Int)⟩ := by
    simp [step_pos2, FACE_BASIS, dir_vec, X, Y, Z, neg, Vec3.scale, Vec3.mk_add_mk, Vec3.mk.injEq] <;> omega
  have hqa : ((u - 1 : Nat) : Int) = (u : Int) - 1 := by omega
  simp only [step_cell, hdec, hp]
  rw [pick_axis_z_neg _ n]
  · norm_num [face_of_normal, FACE_BASIS, dir_from_vec, X, Y, Z, neg, Vec3.mk.injEq, dot]
    refine step_done _ _ _ _ _ _ _ ?_ ?_ ?_ ?_ ?_ ?_ ?_
    · push_cast
      omega
    · push_cast [hqa]
      nlinarith
    · push_cast [hqa]
      nlinarith
    · omega
    · push_cast [hqa]
      nlinarith
    · push_cast [hqa]
      nlinarith
    · omega
  all_goals dsimp only
  all_goals omega

theorem step_f5_d3_cross (v n : Nat) (hv : v < n) (hn : 2 ≤ n) :
    step_cell (encode_cell 5 (0) (v) n) 3 n = some (encode_cell 0 (n - 1) (v) n, 3) := by
  have hdec := decode_encode 5 (0) (v) n (by omega) (by omega) hv
  have hp : step_pos2 5 0 v 3 n = ⟨(n : Int) + 1, -2 * (v : Int) + (n : Int) - 1, -(n : Int)⟩ := by
    simp [step_pos2, FACE_BASIS, dir_vec, X, Y, Z, neg, Vec3.scale, Vec3.mk_add_mk, Vec3.mk.injEq] <;> omega
  have hqb : ((n - 1 : Nat) : Int) = (n : Int) - 1 := by omega
  simp only [step_cell, hdec, hp]
  rw [pick_axis_x_pos _ (n + 1)]
  · norm_num [face_of_normal, FACE_BASIS, dir_from_vec, X, Y, Z, neg, Vec3.mk.injEq, dot]
    refine step_done _ _ _ _ _ _ _ ?_ ?_ ?_ ?_ ?_ ?_ ?_
    · push_cast
      omega
    · push_cast [hqb]
      nlinarith
    · push_cast [hqb]
      nlinarith
    · omega
    · push_cast [hqb]
      nlinarith
    · push_cast [hqb]
      nlinarith
    · omega
  all_goals dsimp only
  all_goals omega

theorem step_eval (f u v d n : Nat) (hf : f < 6) (hu : u < n) (hv : v < n)
    (hd : d < 4) (hn : 2 ≤ n) :
    step_cell (encode_cell f u v n) d n = some (stepSpec f u v d n) := by
  interval_cases f <;> interval_cases d
  · by_cases hb : 0 < v
    · have hs : stepSpec 0 u v 0 n = (encode_cell 0 (u) (v - 1) n, 0) := by
        simp [stepSpec, hb]
      rw [hs]
      exact step_f0_d0_int u v n hu hv hb hn
    · have hv' : v = 0 := by omega
      subst hv'
      have hs : stepSpec 0 u 0 0 n = (encode_cell 2 (n - 1) (n - 1 - u) n, 3) := by
        simp [stepSpec]
      rw [hs]
      exact step_f0_d0_cross u n hu hn
  · by_cases hb : u + 1 < n
    · have hs : stepSpec 0 u v 1 n = (encode_cell 0 (u + 1) (v) n, 1) := by
        simp [stepSpec, hb]
      rw [hs]
      exact step_f0_d1_int u v n hu hv hb hn
    · have hu' : u = n - 1 := by omega
      subst hu'
      have hs : stepSpec 0 (n - 1) v 1 n = (encode_cell 5 (0) (v) n, 1) := by
        simp [stepSpec, show ¬(n - 1 + 1 < n) from by omega]
      rw [hs]
      exact step_f0_d1_cross v n hv hn
  · by_cases hb : v + 1 < n
    · have hs : stepSpec 0 u v 2 n = (encode_cell 0 (u) (v + 1) n, 2) := by
        simp [stepSpec, hb]
      rw [hs]
      exact step_f0_d2_int u v n hu hv hb hn
    · have hv' : v = n - 1 := by omega
      subst hv'
      have hs : stepSpec 0 u (n - 1) 2 n = (encode_cell 3 (n - 1) (u) n, 3) := by
        simp [stepSpec, show ¬(n - 1 + 1 < n) from by omega]
      rw [hs]
      exact step_f0_d2_cross u n hu hn
  · by_cases hb : 0 < u
    · have hs : stepSpec 0 u v 3 n = (encode_cell 0 (u - 1) (v) n, 3) := by
        simp [stepSpec, hb]
      rw [hs]
      exact step_f0_d3_int u v n hu hv hb hn
    · have hu' : u = 0 := by omega
      subst hu'
      have hs : stepSpec 0 0 v 3 n = (encode_cell 4 (n - 1) (v) n, 3) := by
        simp [stepSpec]
      rw [hs]
      exact step_f0_d3_cross v n hv hn
  · by_cases hb : 0 < v
    · have hs : stepSpec 1 u v 0 n = (encode_cell 1 (u) (v - 1) n, 0) := by
        simp [stepSpec, hb]
      rw [hs]
      exact step_f1_d0_int u v n hu hv hb hn
    · have hv' : v = 0 := by omega
      subst hv'
      have hs : stepSpec 1 u 0 0 n = (encode_cell 2 (0) (u) n, 1) := by
        simp [stepSpec]
      rw [hs]
      exact step_f1_d0_cross u n hu hn
  · by_cases hb : u + 1 < n
    · have hs : stepSpec 1 u v 1 n = (encode_cell 1 (u + 1) (v) n, 1) := by
        simp [stepSpec, hb]
      rw [hs]
      exact step_f1_d1_int u v n hu hv hb hn
    · have hu' : u = n - 1 := by omega
      subst hu'
      have hs : stepSpec 1 (n - 1) v 1 n = (encode_cell 4 (0) (v) n, 1) := by
        simp [stepSpec, show ¬(n - 1 + 1 < n) from by omega]
      rw [hs]
      exact step_f1_d1_cross v n hv hn
  · by_cases hb : v + 1 < n
    · have hs : stepSpec 1 u v 2 n = (encode_cell 1 (u) (v + 1) n, 2) := by
        simp [stepSpec, hb]
      rw [hs]
      exact step_f1_d2_int u v n hu hv hb hn
    · have hv' : v = n - 1 := by omega
      subst hv'
      have hs : stepSpec 1 u (n - 1) 2 n = (encode_cell 3 (0) (n - 1 - u) n, 1) := by
        simp [stepSpec, show ¬(n - 1 + 1 < n) from by omega]
      rw [hs]
      exact step_f1_d2_cross u n hu hn
  · by_cases hb : 0 < u
    · have hs : stepSpec 1 u v 3 n = (encode_cell 1 (u - 1) (v) n, 3) := by
        simp [stepSpec, hb]
      rw [hs]
      exact step_f1_d3_int u v n hu hv hb hn
    · have hu' : u = 0 := by omega
      subst hu'
      have hs : stepSpec 1 0 v 3 n = (encode_cell 5 (n - 1) (v) n, 3) := by
        simp [stepSpec]
      rw [hs]
      exact step_f1_d3_cross v n hv hn
  · by_cases hb : 0 < v
    · have hs : stepSpec 2 u v 0 n = (encode_cell 2 (u) (v - 1) n, 0) := by
        simp [stepSpec, hb]
      rw [hs]
      exact step_f2_d0_int u v n hu hv hb hn
    · have hv' : v = 0 := by omega
      subst hv'
      have hs : stepSpec 2 u 0 0 n = (encode_cell 5 (n - 1 - u) (0) n, 2) := by
        simp [stepSpec]
      rw [hs]
      exact step_f2_d0_cross u n hu hn
  · by_cases hb : u + 1 < n
    · have hs : stepSpec 2 u v 1 n = (encode_cell 2 (u + 1) (v) n, 1) := by
        simp [stepSpec, hb]
      rw [hs]
      exact step_f2_d1_int u v n hu hv hb hn
    · have hu' : u = n - 1 := by omega
      subst hu'
      have hs : stepSpec 2 (n - 1) v 1 n = (encode_cell 0 (n - 1 - v) (0) n, 2) := by
        simp [stepSpec, show ¬(n - 1 + 1 < n) from by omega]
      rw [hs]
      exact step_f2_d1_cross v n hv hn
  · by_cases hb : v + 1 < n
    · have hs : stepSpec 2 u v 2 n = (encode_cell 2 (u) (v + 1) n, 2) := by
        simp [stepSpec, hb]
      rw [hs]
      exact step_f2_d2_int u v n hu hv hb hn
    · have hv' : v = n - 1 := by omega
      subst hv'
      have hs : stepSpec 2 u (n - 1) 2 n = (encode_cell 4 (u) (0) n, 2) := by
        simp [stepSpec, show ¬(n - 1 + 1 < n) from by omega]
      rw [hs]
      exact step_f2_d2_cross u n hu hn
  · by_cases hb : 0 < u
    · have hs : stepSpec 2 u v 3 n = (encode_cell 2 (u - 1) (v) n, 3) := by
        simp [stepSpec, hb]
      rw [hs]
      exact step_f2_d3_int u v n hu hv hb hn
    · have hu' : u = 0 := by omega
      subst hu'
      have hs : stepSpec 2 0 v 3 n = (encode_cell 1 (v) (0) n, 2) := by
        simp [stepSpec]
      rw [hs]
      exact step_f2_d3_cross v n hv hn
  · by_cases hb : 0 < v
    · have hs : stepSpec 3 u v 0 n = (encode_cell 3 (u) (v - 1) n, 0) := by
        simp [stepSpec, hb]
      rw [hs]
      exact step_f3_d0_int u v n hu hv hb hn
    · have hv' : v = 0 := by omega
      subst hv'
      have hs : stepSpec 3 u 0 0 n = (encode_cell 4 (u) (n - 1) n, 0) := by
        simp [stepSpec]
      rw [hs]
      exact step_f3_d0_cross u n hu hn
  · by_cases hb : u + 1 < n
    · have hs : stepSpec 3 u v 1 n = (encode_cell 3 (u + 1) (v) n, 1) := by
        simp [stepSpec, hb]
      rw [hs]
      exact step_f3_d1_int u v n hu hv hb hn
    · have hu' : u = n - 1 := by omega
      subst hu'
      have hs : stepSpec 3 (n - 1) v 1 n = (encode_cell 0 (v) (n - 1) n, 0) := by
        simp [stepSpec, show ¬(n - 1 + 1 < n) from by omega]
      rw [hs]
      exact step_f3_d1_cross v n hv hn
  · by_cases hb : v + 1 < n
    · have hs : stepSpec 3 u v 2 n = (encode_cell 3 (u) (v + 1) n, 2) := by
        simp [stepSpec, hb]
      rw [hs]
      exact step_f3_d2_int u v n hu hv hb hn
    · have hv' : v = n - 1 := by omega
      subst hv'
      have hs : stepSpec 3 u (n - 1) 2 n = (encode_cell 5 (n - 1 - u) (n - 1) n, 0) := by
        simp [stepSpec, show ¬(n - 1 + 1 < n) from by omega]
      rw [hs]
      exact step_f3_d2_cross u n hu hn
  · by_cases hb : 0 < u
    · have hs : stepSpec 3 u v 3 n = (encode_cell 3 (u - 1) (v) n, 3) := by
        simp [stepSpec, hb]
      rw [hs]
      exact step_f3_d3_int u v n hu hv hb hn
    · have hu' : u = 0 := by omega
      subst hu'
      have hs : stepSpec 3 0 v 3 n = (encode_cell 1 (n - 1 - v) (n - 1) n, 0) := by
        simp [stepSpec]
      rw [hs]
      exact step_f3_d3_cross v n hv hn
  · by_cases hb : 0 < v
    · have hs : stepSpec 4 u v 0 n = (encode_cell 4 (u) (v - 1) n, 0) := by
        simp [stepSpec, hb]
      rw [hs]
      exact step_f4_d0_int u v n hu hv hb hn
    · have hv' : v = 0 := by omega
      subst hv'
      have hs : stepSpec 4 u 0 0 n = (encode_cell 2 (u) (n - 1) n, 0) := by
        simp [stepSpec]
      rw [hs]
      exact step_f4_d0_cross u n hu hn
  · by_cases hb : u + 1 < n
    · have hs : stepSpec 4 u v 1 n = (encode_cell 4 (u + 1) (v) n, 1) := by
        simp [stepSpec, hb]
      rw [hs]
      exact step_f4_d1_int u v n hu hv hb hn
    · have hu' : u = n - 1 := by omega
      subst hu'
      have hs : stepSpec 4 (n - 1) v 1 n = (encode_cell 0 (0) (v) n, 1) := by
        simp [stepSpec, show ¬(n - 1 + 1 < n) from by omega]
      rw [hs]
      exact step_f4_d1_cross v n hv hn
  · by_cases hb : v + 1 < n
    · have hs : stepSpec 4 u v 2 n = (encode_cell 4 (u) (v + 1) n, 2) := by
        simp [stepSpec, hb]
      rw [hs]
      exact step_f4_d2_int u v n hu hv hb hn
    · have hv' : v = n - 1 := by omega
      subst hv'
      have hs : stepSpec 4 u (n - 1) 2 n = (encode_cell 3 (u) (0) n, 2) := by
        simp [stepSpec, show ¬(n - 1 + 1 < n) from by omega]
      rw [hs]
      exact step_f4_d2_cross u n hu hn
  · by_cases hb : 0 < u
    · have hs : stepSpec 4 u v 3 n = (encode_cell 4 (u - 1) (v) n, 3) := by
        simp [stepSpec, hb]
      rw [hs]
      exact step_f4_d3_int u v n hu hv hb hn
    · have hu' : u = 0 := by omega
      subst hu'
      have hs : stepSpec 4 0 v 3 n = (encode_cell 1 (n - 1) (v) n, 3) := by
        simp [stepSpec]
      rw [hs]
      exact step_f4_d3_cross v n hv hn
  · by_cases hb : 0 < v
    · have hs : stepSpec 5 u v 0 n = (encode_cell 5 (u) (v - 1) n, 0) := by
        simp [stepSpec, hb]
      rw [hs]
      exact step_f5_d0_int u v n hu hv hb hn
    · have hv' : v = 0 := by omega
      subst hv'
      have hs : stepSpec 5 u 0 0 n = (encode_cell 2 (n - 1 - u) (0) n, 2) := by
        simp [stepSpec]
      rw [hs]
      exact step_f5_d0_cross u n hu hn
  · by_cases hb : u + 1 < n
    · have hs : stepSpec 5 u v 1 n = (encode_cell 5 (u + 1) (v) n, 1) := by
        simp [stepSpec, hb]
      rw [hs]
      exact step_f5_d1_int u v n hu hv hb hn
    · have hu' : u = n - 1 := by omega
      subst hu'
      have hs : stepSpec 5 (n - 1) v 1 n = (encode_cell 1 (0) (v) n, 1) := by
        simp [stepSpec, show ¬(n - 1 + 1 < n) from by omega]
      rw [hs]
      exact step_f5_d1_cross v n hv hn
  · by_cases hb : v + 1 < n
    · have hs : stepSpec 5 u v 2 n = (encode_cell 5 (u) (v + 1) n, 2) := by
        simp [stepSpec, hb]
      rw [hs]
      exact step_f5_d2_int u v n hu hv hb hn
    · have hv' : v = n - 1 := by omega
      subst hv'
      have hs : stepSpec 5 u (n - 1) 2 n = (encode_cell 3 (n - 1 - u) (n - 1) n, 0) := by
        simp [stepSpec, show ¬(n - 1 + 1 < n) from by omega]
      rw [hs]
      exact step_f5_d2_cross u n hu hn
  · by_cases hb : 0 < u
    · have hs : stepSpec 5 u v 3 n = (encode_cell 5 (u - 1) (v) n, 3) := by
        simp [stepSpec, hb]
      rw [hs]
      exact step_f5_d3_int u v n hu hv hb hn
    · have hu' : u = 0 := by omega
      subst hu'
      have hs : stepSpec 5 0 v 3 n = (encode_cell 0 (n - 1) (v) n, 3) := by
        simp [stepSpec]
      rw [hs]
      exact step_f5_d3_cross v n hv hn


/-- Validity and reversibility of the closed form stepSpec: the image is a
valid (face, u, v, dir) tuple and stepping back with the reversed direction
returns to the start with the reversed original direction. -/
theorem stepSpec_rev (f u v d n : Nat) (hf : f < 6) (hu : u < n) (hv : v < n)
    (hd : d < 4) (hn : 2 ≤ n) :
    ∃ f2 u2 v2 d2, stepSpec f u v d n = (encode_cell f2 u2 v2 n, d2) ∧
      f2 < 6 ∧ u2 < n ∧ v2 < n ∧ d2 < 4 ∧
      stepSpec f2 u2 v2 ((d2 + 2) % 4) n = (encode_cell f u v n, (d + 2) % 4) := by
  interval_cases f <;> interval_cases d
  · by_cases hb : 0 < v
    · refine ⟨0, u, v - 1, 0, ?_, by omega, by omega, by omega, by omega, ?_⟩
      · simp [stepSpec, hb]
      · have e1 : v - 1 + 1 = v := by omega
        simp [stepSpec, e1, hv]
    · have hv' : v = 0 := by omega
      subst hv'
      refine ⟨2, n - 1, n - 1 - u, 3, ?_, by omega, by omega, by omega, by omega, ?_⟩
      · simp [stepSpec]
      ·
        have e1 : n - 1 - (n - 1 - u) = u := by omega
        simp [stepSpec, show ¬(n - 1 + 1 < n) from by omega, e1]
  · by_cases hb : u + 1 < n
    · refine ⟨0, u + 1, v, 1, ?_, by omega, by omega, by omega, by omega, ?_⟩
      · simp [stepSpec, hb]
      · have e1 : u + 1 - 1 = u := by omega
        simp [stepSpec, show 0 < u + 1 from by omega, e1]
    · have hu' : u = n - 1 := by omega
      subst hu'
      refine ⟨5, 0, v, 1, ?_, by omega, by omega, by omega, by omega, ?_⟩
      · simp [stepSpec, show ¬(n - 1 + 1 < n) from by omega]
      ·
        simp [stepSpec]
  · by_cases hb : v + 1 < n
    · refine ⟨0, u, v + 1, 2, ?_, by omega, by omega, by omega, by omega, ?_⟩
      · simp [stepSpec, hb]
      · have e1 : v + 1 - 1 = v := by omega
        simp [stepSpec, show 0 < v + 1 from by omega, e1]
    · have hv' : v = n - 1 := by omega
      subst hv'
      refine ⟨3, n - 1, u, 3, ?_, by omega, by omega, by omega, by omega, ?_⟩
      · simp [stepSpec, show ¬(n - 1 + 1 < n) from by omega]
      ·
        simp [stepSpec, show ¬(n - 1 + 1 < n) from by omega]
  · by_cases hb : 0 < u
    · refine ⟨0, u - 1, v, 3, ?_, by omega, by omega, by omega, by omega, ?_⟩
      · simp [stepSpec, hb]
      · have e1 : u - 1 + 1 = u := by omega
        simp [stepSpec, e1, hu]
    · have hu' : u = 0 := by omega
      subst hu'
      refine ⟨4, n - 1, v, 3, ?_, by omega, by omega, by omega, by omega, ?_⟩
      · simp [stepSpec]
      ·
        simp [stepSpec, show ¬(n - 1 + 1 < n) from by omega]
  · by_cases hb : 0 < v
    · refine ⟨1, u, v - 1, 0, ?_, by omega, by omega, by omega, by omega, ?_⟩
      · simp [stepSpec, hb]
      · have e1 : v - 1 + 1 = v := by omega
        simp [stepSpec, e1, hv]
    · have hv' : v = 0 := by omega
      subst hv'
      refine ⟨2, 0, u, 1, ?_, by omega, by omega, by omega, by omega, ?_⟩
      · simp [stepSpec]
      ·
        simp [stepSpec]
  · by_cases hb : u + 1 < n
    · refine ⟨1, u + 1, v, 1, ?_, by omega, by omega, by omega, by omega, ?_⟩
      · simp [stepSpec, hb]
      · have e1 : u + 1 - 1 = u := by omega
        simp [stepSpec, show 0 < u + 1 from by omega, e1]
    · have hu' : u = n - 1 := by omega
      subst hu'
      refine ⟨4, 0, v, 1, ?_, by omega, by omega, by omega, by omega, ?_⟩
      · simp [stepSpec, show ¬(n - 1 + 1 < n) from by omega]
      ·
        simp [stepSpec]
  · by_cases hb : v + 1 < n
    · refine ⟨1, u, v + 1, 2, ?_, by omega, by omega, by omega, by omega, ?_⟩
      · simp [stepSpec, hb]
      · have e1 : v + 1 - 1 = v := by omega
        simp [stepSpec, show 0 < v + 1 from by omega, e1]
    · have hv' : v = n - 1 := by omega
      subst hv'
      refine ⟨3, 0, n - 1 - u, 1, ?_, by omega, by omega, by omega, by omega, ?_⟩
      · simp [stepSpec, show ¬(n - 1 + 1 < n) from by omega]
      ·
        have e1 : n - 1 - (n - 1 - u) = u := by omega
        simp [stepSpec, e1]
  · by_cases hb : 0 < u
    · refine ⟨1, u - 1, v, 3, ?_, by omega, by omega, by omega, by omega, ?_⟩
      · simp [stepSpec, hb]
      · have e1 : u - 1 + 1 = u := by omega
        simp [stepSpec, e1, hu]
    · have hu' : u = 0 := by omega
      subst hu'
      refine ⟨5, n - 1, v, 3, ?_, by omega, by omega, by omega, by omega, ?_⟩
      · simp [stepSpec]
      ·
        simp [stepSpec, show ¬(n - 1 + 1 < n) from by omega]
  · by_cases hb : 0 < v
    · refine ⟨2, u, v - 1, 0, ?_, by omega, by omega, by omega, by omega, ?_⟩
      · simp [stepSpec, hb]
      · have e1 : v - 1 + 1 = v := by omega
        simp [stepSpec, e1, hv]
    · have hv' : v = 0 := by omega
      subst hv'
      refine ⟨5, n - 1 - u, 0, 2, ?_, by omega, by omega, by omega, by omega, ?_⟩
      · simp [stepSpec]
      ·
        have e1 : n - 1 - (n - 1 - u) = u := by omega
        simp [stepSpec, e1]
  · by_cases hb : u + 1 < n
    · refine ⟨2, u + 1, v, 1, ?_, by omega, by omega, by omega, by omega, ?_⟩
      · simp [stepSpec, hb]
      · have e1 : u + 1 - 1 = u := by omega
        simp [stepSpec, show 0 < u + 1 from by omega, e1]
    · have hu' : u = n - 1 := by omega
      subst hu'
      refine ⟨0, n - 1 - v, 0, 2, ?_, by omega, by omega, by omega, by omega, ?_⟩
      · simp [stepSpec, show ¬(n - 1 + 1 < n) from by omega]
      ·
        have e2 : n - 1 - (n - 1 - v) = v := by omega
        simp [stepSpec, e2]
  · by_cases hb : v + 1 < n
    · refine ⟨2, u, v + 1, 2, ?_, by omega, by omega, by omega, by omega, ?_⟩
      · simp [stepSpec, hb]
      · have e1 : v + 1 - 1 = v := by omega
        simp [stepSpec, show 0 < v + 1 from by omega, e1]
    · have hv' : v = n - 1 := by omega
      subst hv'
      refine ⟨4, u, 0, 2, ?_, by omega, by omega, by omega, by omega, ?_⟩
      · simp [stepSpec, show ¬(n - 1 + 1 < n) from by omega]
      ·
        simp [stepSpec]
  · by_cases hb : 0 < u
    · refine ⟨2, u - 1, v, 3, ?_, by omega, by omega, by omega, by omega, ?_⟩
      · simp [stepSpec, hb]
      · have e1 : u - 1 + 1 = u := by omega
        simp [stepSpec, e1, hu]
    · have hu' : u = 0 := by omega
      subst hu'
      refine ⟨1, v, 0, 2, ?_, by omega, by omega, by omega, by omega, ?_⟩
      · simp [stepSpec]
      ·
        simp [stepSpec]
  · by_cases hb : 0 < v
    · refine ⟨3, u, v - 1, 0, ?_, by omega, by omega, by omega, by omega, ?_⟩
      · simp [stepSpec, hb]
      · have e1 : v - 1 + 1 = v := by omega
        simp [stepSpec, e1, hv]
    · have hv' : v = 0 := by omega
      subst hv'
      refine ⟨4, u, n - 1, 0, ?_, by omega, by omega, by omega, by omega, ?_⟩
      · simp [stepSpec]
      ·
        simp [stepSpec, show ¬(n - 1 + 1 < n) from by omega]
  · by_cases hb : u + 1 < n
    · refine ⟨3, u + 1, v, 1, ?_, by omega, by omega, by omega, by omega, ?_⟩
      · simp [stepSpec, hb]
      · have e1 : u + 1 - 1 = u := by omega
        simp [stepSpec, show 0 < u + 1 from by omega, e1]
    · have hu' : u = n - 1 := by omega
      subst hu'
      refine ⟨0, v, n - 1, 0, ?_, by omega, by omega, by omega, by omega, ?_⟩
      · simp [stepSpec, show ¬(n - 1 + 1 < n) from by omega]
      ·
        simp [stepSpec, show ¬(n - 1 + 1 < n) from by omega]
  · by_cases hb : v + 1 < n
    · refine ⟨3, u, v + 1, 2, ?_, by omega, by omega, by omega, by omega, ?_⟩
      · simp [stepSpec, hb]
      · have e1 : v + 1 - 1 = v := by omega
        simp [stepSpec, show 0 < v + 1 from by omega, e1]
    · have hv' : v = n - 1 := by omega
      subst hv'
      refine ⟨5, n - 1 - u, n - 1, 0, ?_, by omega, by omega, by omega, by omega, ?_⟩
      · simp [stepSpec, show ¬(n - 1 + 1 < n) from by omega]
      ·
        have e1 : n - 1 - (n - 1 - u) = u := by omega
        simp [stepSpec, show ¬(n - 1 + 1 < n) from by omega, e1]
  · by_cases hb : 0 < u
    · refine ⟨3, u - 1, v, 3, ?_, by omega, by omega, by omega, by omega, ?_⟩
      · simp [stepSpec, hb]
      · have e1 : u - 1 + 1 = u := by omega
        simp [stepSpec, e1, hu]
    · have hu' : u = 0 := by omega
      subst hu'
      refine ⟨1, n - 1 - v, n - 1, 0, ?_, by omega, by omega, by omega, by omega, ?_⟩
      · simp [stepSpec]
      ·
        have e2 : n - 1 - (n - 1 - v) = v := by omega
        simp [stepSpec, show ¬(n - 1 + 1 < n) from by omega, e2]
  · by_cases hb : 0 < v
    · refine ⟨4, u, v - 1, 0, ?_, by omega, by omega, by omega, by omega, ?_⟩
      · simp [stepSpec, hb]
      · have e1 : v - 1 + 1 = v := by omega
        simp [stepSpec, e1, hv]
    · have hv' : v = 0 := by omega
      subst hv'
      refine ⟨2, u, n - 1, 0, ?_, by omega, by omega, by omega, by omega, ?_⟩
      · simp [stepSpec]
      ·
        simp [stepSpec, show ¬(n - 1 + 1 < n) from by omega]
  · by_cases hb : u + 1 < n
    · refine ⟨4, u + 1, v, 1, ?_, by omega, by omega, by omega, by omega, ?_⟩
      · simp [stepSpec, hb]
      · have e1 : u + 1 - 1 = u := by omega
        simp [stepSpec, show 0 < u + 1 from by omega, e1]
    · have hu' : u = n - 1 := by omega
      subst hu'
      refine ⟨0, 0, v, 1, ?_, by omega, by omega, by omega, by omega, ?_⟩
      · simp [stepSpec, show ¬(n - 1 + 1 < n) from by omega]
      ·
        simp [stepSpec]
  · by_cases hb : v + 1 < n
    · refine ⟨4, u, v + 1, 2, ?_, by omega, by omega, by omega, by omega, ?_⟩
      · simp [stepSpec, hb]
      · have e1 : v + 1 - 1 = v := by omega
        simp [stepSpec, show 0 < v + 1 from by omega, e1]
    · have hv' : v = n - 1 := by omega
      subst hv'
      refine ⟨3, u, 0, 2, ?_, by omega, by omega, by omega, by omega, ?_⟩
      · simp [stepSpec, show ¬(n - 1 + 1 < n) from by omega]
      ·
        simp [stepSpec]
  · by_cases hb : 0 < u
    · refine ⟨4, u - 1, v, 3, ?_, by omega, by omega, by omega, by omega, ?_⟩
      · simp [stepSpec, hb]
      · have e1 : u - 1 + 1 = u := by omega
        simp [stepSpec, e1, hu]
    · have hu' : u = 0 := by omega
      subst hu'
      refine ⟨1, n - 1, v, 3, ?_, by omega, by omega, by omega, by omega, ?_⟩
      · simp [stepSpec]
      ·
        simp [stepSpec, show ¬(n - 1 + 1 < n) from by omega]
  · by_cases hb : 0 < v
    · refine ⟨5, u, v - 1, 0, ?_, by omega, by omega, by omega, by omega, ?_⟩
      · simp [stepSpec, hb]
      · have e1 : v - 1 + 1 = v := by omega
        simp [stepSpec, e1, hv]
    · have hv' : v = 0 := by omega
      subst hv'
      refine ⟨2, n - 1 - u, 0, 2, ?_, by omega, by omega, by omega, by omega, ?_⟩
      · simp [stepSpec]
      ·
        have e1 : n - 1 - (n - 1 - u) = u := by omega
        simp [stepSpec, e1]
  · by_cases hb : u + 1 < n
    · refine ⟨5, u + 1, v, 1, ?_, by omega, by omega, by omega, by omega, ?_⟩
      · simp [stepSpec, hb]
      · have e1 : u + 1 - 1 = u := by omega
        simp [stepSpec, show 0 < u + 1 from by omega, e1]
    · have hu' : u = n - 1 := by omega
      subst hu'
      refine ⟨1, 0, v, 1, ?_, by omega, by omega, by omega, by omega, ?_⟩
      · simp [stepSpec, show ¬(n - 1 + 1 < n) from by omega]
      ·
        simp [stepSpec]
  · by_cases hb : v + 1 < n
    · refine ⟨5, u, v + 1, 2, ?_, by omega, by omega, by omega, by omega, ?_⟩
      · simp [stepSpec, hb]
      · have e1 : v + 1 - 1 = v := by omega
        simp [stepSpec, show 0 < v + 1 from by omega, e1]
    · have hv' : v = n - 1 := by omega
      subst hv'
      refine ⟨3, n - 1 - u, n - 1, 0, ?_, by omega, by omega, by omega, by omega, ?_⟩
      · simp [stepSpec, show ¬(n - 1 + 1 < n) from by omega]
      ·
        have e1 : n - 1 - (n - 1 - u) = u := by omega
        simp [stepSpec, show ¬(n - 1 + 1 < n) from by omega, e1]
  · by_cases hb : 0 < u
    · refine ⟨5, u - 1, v, 3, ?_, by omega, by omega, by omega, by omega, ?_⟩
      · simp [stepSpec, hb]
      · have e1 : u - 1 + 1 = u := by omega
        simp [stepSpec, e1, hu]
    · have hu' : u = 0 := by omega
      subst hu'
      refine ⟨0, n - 1, v, 3, ?_, by omega, by omega, by omega, by omega, ?_⟩
      · simp [stepSpec]
      ·
        simp [stepSpec, show ¬(n - 1 + 1 < n) from by omega]


/-- Claim C3: for every valid cell id (decoding to face in 0..5 and u, v in
[0, N-1]), every direction dir in 0..3, and every N at least 2: if
step_cell cell dir N = some (c2, d2) then
step_cell c2 ((d2 + 2) % 4) N = some (cell, (dir + 2) % 4). -/
theorem C3_step_reversible (n cell d c2 d2 : Nat) (hn : 2 ≤ n) (hc : cell < 6 * n * n)
    (hd : d < 4) (h : step_cell cell d n = some (c2, d2)) :
    step_cell c2 ((d2 + 2) % 4) n = some (cell, (d + 2) % 4) := by
  obtain ⟨hf, hu, hv⟩ := decode_valid cell n (by omega) hc
  have he : encode_cell (decode_cell cell n).1 (decode_cell cell n).2.1
      (decode_cell cell n).2.2 n = cell := encode_decode cell n
  obtain ⟨f2, u2, v2, dd2, hspec, hf2, hu2, hv2, hdd2, hrev⟩ :=
    stepSpec_rev (decode_cell cell n).1 (decode_cell cell n).2.1 (decode_cell cell n).2.2
      d n hf hu hv hd hn
  have h1 := step_eval (decode_cell cell n).1 (decode_cell cell n).2.1
    (decode_cell cell n).2.2 d n hf hu hv hd hn
  rw [he, h, hspec] at h1
  simp only [Option.some.injEq, Prod.mk.injEq] at h1
  obtain ⟨hc2, hd2⟩ := h1
  subst hc2
  subst hd2
  have h3 := step_eval f2 u2 v2 ((d2 + 2) % 4) n hf2 hu2 hv2 (by omega) hn
  rw [hrev, he] at h3
  exact h3

/-- Witness for C3 at N 8, cell 283 (face 4, u 3, v 3), direction 0. -/
theorem C3_step_reversible_witness :
    step_cell 283 0 8 = some (275, 0) ∧ step_cell 275 2 8 = some (283, 2) :=
  ⟨by decide, C3_step_reversible 8 283 0 275 0 (by decide) (by decide) (by decide) (by decide)⟩

/-! ## Simulation: backend/app/game/sim.py

Python dicts with string keys are modelled as insertion-ordered association
lists with Nat keys (dict iteration order in CPython is insertion order, and
value replacement keeps the order).  Player and fruit ids are Nat.  Code that
can raise is modelled with Except String, where the message names the Python
exception. -/

inductive FruitKind where
  | berry | apple | banana | watermelon
deriving DecidableEq

structure Fruit where
  id : Nat
  cell : Nat
  kind : FruitKind
  value : Nat
deriving DecidableEq

structure Snake where
  playerId : Nat
  alive : Bool
  dir : Nat
  cells : List Nat
  pendingGrowth : Nat
  score : Nat
  respawnAtMs : Option Int
deriving DecidableEq

structure GameSettings where
  cubeN : Nat
  roundSeconds : Nat
  tickRate : Nat
  fruitTarget : Nat
deriving DecidableEq

/-- Abstract model of random.Random together with the external fruit-id source
(secrets.token_hex): an arbitrary stream of naturals consumed one draw at a
time, and a fresh-id counter giving distinct fruit ids.  The reference PRNG is
implementation-specific and no claim depends on the distribution of draws. -/
structure Rng where
  stream : Nat → Nat
  pos : Nat
  nextId : Nat

/-- rng.randrange(k); ValueError on an empty range. -/
def randrange (k : Nat) (r : Rng) : Except String (Nat × Rng) :=
  if k = 0 then .error "ValueError: empty range for randrange"
  else .ok (r.stream r.pos % k, { r with pos := r.pos + 1 })

/-- new_fruit_id from app/util/ids.py, modelled as a fresh counter. -/
def new_fruit_id (r : Rng) : Nat × Rng := (r.nextId, { r with nextId := r.nextId + 1 })

structure GameState where
  seed : Nat
  rng : Rng
  settings : GameSettings
  tick : Nat
  startServerTimeMs : Int
  endsAtMs : Int
  snakes : List (Nat × Snake)
  fruits : List Fruit

/-- FRUITS table (kind, value, base weight is only used by the weighted
choice, which is modelled abstractly). -/
def FRUITS : List (FruitKind × Nat) :=
  [(.berry, 2), (.apple, 3), (.banana, 5), (.watermelon, 10)]

/-- Replace the value stored at key k (Python object field mutation or dict
value assignment); keys and order are unchanged. -/
def aupdate (l : List (Nat × Snake)) (k : Nat) (f : Snake → Snake) : List (Nat × Snake) :=
  l.map (fun p => if p.1 = k then (k, f p.2) else p)

def aset (l : List (Nat × Snake)) (k : Nat) (s : Snake) : List (Nat × Snake) :=
  aupdate l k (fun _ => s)

/-- The cells of all alive snakes (keys of _occupied_cells), with fruit cells
added by the callers that need them. -/
def occupied_cell_list (snakes : List (Nat × Snake)) : List Nat :=
  snakes.flatMap (fun p => if p.2.alive then p.2.cells else [])

/-- _occupied_cells: all (playerId, segmentIndex) pairs of alive snakes lying
on a given cell, in snake order then segment order. -/
def occupied_cells (snakes : List (Nat × Snake)) (c : Nat) : List (Nat × Nat) :=
  snakes.flatMap (fun p =>
    if p.2.alive then (p.2.cells.enum.filter (fun ic => ic.2 = c)).map (fun ic => (p.1, ic.1))
    else [])

/-- _is_forward_clear. -/
def is_forward_clear (cell dir_now n steps : Nat) (occupied : List Nat) : Except String Bool :=
  match steps with
  | 0 => .ok true
  | steps' + 1 =>
    match step_cell cell dir_now n with
    | none => .error "KeyError or ValueError in step_cell"
    | some cd =>
      if occupied.contains cd.1 then .ok false
      else is_forward_clear cd.1 cd.2 n steps' occupied

/-- The backward walk of _try_place_snake (lines 104-114): three steps in the
reversed direction, none if a backward cell is occupied. -/
def back_walk (cell back_dir n count : Nat) (occupied : List Nat) :
    Except String (Option (List Nat)) :=
  match count with
  | 0 => .ok (some [])
  | c + 1 =>
    match step_cell cell back_dir n with
    | none => .error "KeyError or ValueError in step_cell"
    | some cd =>
      if occupied.contains cd.1 then .ok none
      else (back_walk cd.1 cd.2 n c occupied).map (Option.map (cd.1 :: ·))

/-- _try_place_snake.  The source also inserts the new body into the caller's
occupied set; the only tick-time caller rebuilds that set each iteration, so
the model returns just the snake and the advanced rng. -/
def try_place_snake (player_id n : Nat) (rng : Rng) (occupied : List Nat) (attempts : Nat) :
    Except String (Option Snake × Rng) :=
  match attempts with
  | 0 => .ok (none, rng)
  | a + 1 => do
    let (face, r1) ← randrange 6 rng
    let (u, r2) ← randrange n r1
    let (v, r3) ← randrange n r2
    let (dirv, r4) ← randrange 4 r3
    let head := encode_cell face u v n
    if occupied.contains head then try_place_snake player_id n r4 occupied a
    else do
      let fwd ← is_forward_clear head dirv n 3 occupied
      if ¬fwd then try_place_snake player_id n r4 occupied a
      else do
        let bw ← back_walk head ((dirv + 2) % 4) n 3 occupied
        match bw with
        | none => try_place_snake player_id n r4 occupied a
        | some tail =>
          .ok (some { playerId := player_id, alive := true, dir := dirv,
                      cells := head :: tail, pendingGrowth := 0, score := 0,
                      respawnAtMs := none }, r4)

/-- _pick_fruit_kind.  The source draws with float weights
base_w / (1 + count(kind)); every weight is positive, so every kind is a
possible outcome.  The model picks by the abstract stream; no claim depends
on the distribution. -/
def pick_fruit_kind (rng : Rng) : Except String ((FruitKind × Nat) × Rng) := do
  let (i, r2) ← randrange 4 rng
  .ok (FRUITS.getD i (.berry, 2), r2)

/-- _spawn_fruit. -/
def spawn_fruit (n : Nat) (occupied : List Nat) (fruits : List Fruit) (attempts : Nat) (rng : Rng) :
    Except String (Option Fruit × List Fruit × Rng) :=
  match attempts with
  | 0 => .ok (none, fruits, rng)
  | a + 1 => do
    let (face, r1) ← randrange 6 rng
    let (u, r2) ← randrange n r1
    let (v, r3) ← randrange n r2
    let cell := encode_cell face u v n
    if occupied.contains cell then spawn_fruit n occupied fruits a r3
    else do
      let (kv, r4) ← pick_fruit_kind r3
      let (fid, r5) := new_fruit_id r4
      let fruit : Fruit := { id := fid, cell := cell, kind := kv.1, value := kv.2 }
      .ok (some fruit, fruits ++ [fruit], r5)

/-- The while loop of ensure_fruit_target.  Fuel bounds the iterations; each
successful spawn adds one fruit, so fruitTarget iterations always suffice and
the fuel-exhausted branch is unreachable from ensure_fruit_target. -/
def ensure_fruit_target_loop (n target : Nat) (occupied : List Nat) :
    Nat → List Fruit → Rng → Except String (List Fruit × Rng)
  | 0, fruits, rng => .ok (fruits, rng)
  | fuel + 1, fruits, rng =>
    if fruits.length < target then do
      let (ofr, fruits2, rng2) ← spawn_fruit n occupied fruits 2000 rng
      match ofr with
      | none => .ok (fruits2, rng2)
      | some f => ensure_fruit_target_loop n target (occupied ++ [f.cell]) fuel fruits2 rng2
    else .ok (fruits, rng)

/-- ensure_fruit_target. -/
def ensure_fruit_target (settings : GameSettings) (snakes : List (Nat × Snake))
    (fruits : List Fruit) (rng : Rng) : Except String (List Fruit × Rng) :=
  let n := settings.cubeN
  let occupied := occupied_cell_list snakes ++ fruits.map (·.cell)
  ensure_fruit_target_loop n settings.fruitTarget occupied settings.fruitTarget fruits rng

/-! ### tick, phase by phase -/

/-- A Python value stored in inputs: either a bare int (what main.py line 202
actually stores) or a dict with optional dir and turn keys (what sim.py
expects). -/
inductive PyVal where
  | pyInt (t : Int)
  | pyDict (dirF : Option Int) (turnF : Option Int)
deriving DecidableEq

/-- Python inputs.get(pid) or {}: None, 0 and the empty dict are falsy and
collapse to the empty dict. -/
def cmd_or_empty (v : Option PyVal) : PyVal :=
  match v with
  | none => .pyDict none none
  | some (.pyInt 0) => .pyDict none none
  | some x => x

/-- Input application, sim.py lines 216-226.  On a bare int Python evaluates
"dir" in cmd which raises TypeError. -/
def apply_input (sdir : Nat) (cmd : PyVal) : Except String Nat :=
  match cmd with
  | .pyInt _ => .error "TypeError: argument of type int is not iterable"
  | .pyDict dirF turnF =>
    match dirF with
    | some d =>
      if d = 0 ∨ d = 1 ∨ d = 2 ∨ d = 3 then
        if (d + 2) % 4 ≠ (sdir : Int) then .ok d.toNat else .ok sdir
      else .ok sdir
    | none =>
      match turnF with
      | some t =>
        if t = -1 ∨ t = 0 ∨ t = 1 then
          match turn sdir t with
          | some nd => .ok nd
          | none => .error "ValueError: turn must be -1, 0, or 1"
        else .ok sdir
      | none => .ok sdir

/-- Lookup in the dict comprehension fruit_by_cell of line 209: later fruits
overwrite earlier ones on the same cell, so the last match wins. -/
def fruit_by_cell (fruits : List Fruit) (c : Nat) : Option Fruit :=
  fruits.reverse.find? (fun f => f.cell = c)

structure Plan where
  nextHead : Nat
  newDir : Nat
  eatValue : Nat
deriving DecidableEq

/-- Input application and head projection, lines 211-236, iterating the snake
dict in order.  Returns the snakes with updated directions and the planned
dict. -/
def plan_phase (inputs : List (Nat × PyVal)) (fruits0 : List Fruit) (n : Nat) :
    List Nat → List (Nat × Snake) → Except String (List (Nat × Snake) × List (Nat × Plan))
  | [], snakes => .ok (snakes, [])
  | pid :: rest, snakes =>
    match List.lookup pid snakes with
    | none => plan_phase inputs fruits0 n rest snakes
    | some s =>
      if s.alive then do
        let nd ← apply_input s.dir (cmd_or_empty (List.lookup pid inputs))
        match s.cells with
        | [] => .error "IndexError: deque index out of range"
        | head :: _ =>
          match step_cell head nd n with
          | none => .error "KeyError or ValueError in step_cell"
          | some nhd => do
            let ev := match fruit_by_cell fruits0 nhd.1 with
                      | some f => f.value
                      | none => 0
            let r ← plan_phase inputs fruits0 n rest (aset snakes pid { s with dir := nhd.2 })
            .ok (r.1, (pid, { nextHead := nhd.1, newDir := nhd.2, eatValue := ev }) :: r.2)
      else plan_phase inputs fruits0 n rest snakes

/-- dict.pop(fid, None) on the fruits dict: remove the fruit with the given id
if present. -/
def pop_fruit (fruits : List Fruit) (fid : Nat) : Option Fruit × List Fruit :=
  match fruits.find? (fun f => f.id = fid) with
  | some f => (some f, fruits.eraseP (fun g => g.id = fid))
  | none => (none, fruits)

/-- The per-snake body of the move and eat loop, lines 244-257: grow or drop
the tail, pop an eaten fruit and credit its planned value.  Returns the
updated snake, the remaining fruits and the new body for
new_cells_by_player. -/
def move_snake_update (s : Snake) (pl : Plan) (fruits0 fruits : List Fruit) :
    Snake × List Fruit × List Nat :=
  let body0 := pl.nextHead :: s.cells
  let bs :=
    if s.pendingGrowth > 0 then (body0, { s with pendingGrowth := s.pendingGrowth - 1 })
    else (body0.dropLast, s)
  let s1 := bs.2
  let sf :=
    if pl.eatValue > 0 then
      match fruit_by_cell fruits0 pl.nextHead with
      | some f =>
        match pop_fruit fruits f.id with
        | (some _, fruitsN) =>
          ({ s1 with pendingGrowth := s1.pendingGrowth + pl.eatValue,
                     score := s1.score + pl.eatValue }, fruitsN)
        | (none, fruitsN) => (s1, fruitsN)
      | none => (s1, fruits)
    else (s1, fruits)
  (sf.1, sf.2, bs.1)

/-- Move and eat, lines 238-258, iterating the snake dict in order. -/
def move_phase (plans : List (Nat × Plan)) (fruits0 : List Fruit) :
    List Nat → List (Nat × Snake) → List Fruit →
    Except String (List (Nat × Snake) × List Fruit × List (Nat × List Nat))
  | [], snakes, fruits => .ok (snakes, fruits, [])
  | pid :: rest, snakes, fruits =>
    match List.lookup pid snakes with
    | none => move_phase plans fruits0 rest snakes fruits
    | some s =>
      if s.alive then
        match List.lookup pid plans with
        | none => .error "KeyError: planned"
        | some pl => do
          let upd := move_snake_update s pl fruits0 fruits
          let r ← move_phase plans fruits0 rest (aset snakes pid upd.1) upd.2.1
          .ok (r.1, r.2.1, (pid, upd.2.2) :: r.2.2)
      else move_phase plans fruits0 rest snakes fruits

/-- Deferred cells assignment, lines 260-261. -/
def apply_new_cells (snakes : List (Nat × Snake)) : List (Nat × List Nat) → List (Nat × Snake)
  | [] => snakes
  | pc :: rest => apply_new_cells (aupdate snakes pc.1 (fun s => { s with cells := pc.2 })) rest

/-- The (pid, head cell) pairs of alive snakes in order, lines 265-267;
IndexError on an empty body. -/
def alive_heads : List (Nat × Snake) → Except String (List (Nat × Nat))
  | [] => .ok []
  | p :: rest =>
    if p.2.alive then
      match p.2.cells with
      | [] => .error "IndexError: deque index out of range"
      | c :: _ => (alive_heads rest).map ((p.1, c) :: ·)
    else alive_heads rest

/-- The head-on dead set, lines 269-272: every snake sharing its head cell
with another alive snake.  The source collects a Python set; this list has
the same membership. -/
def head_on_dead (heads : List (Nat × Nat)) : List Nat :=
  heads.filterMap (fun pc =>
    if 2 ≤ heads.countP (fun qc => qc.2 = pc.2) then some pc.1 else none)

/-- The flat bite records (victim, segIdx, attacker) of lines 274-282 in
attacker order, skipping dead attackers and head segments. -/
def collect_bites (snakes : List (Nat × Snake)) (dead : List Nat) :
    List (Nat × Snake) → Except String (List (Nat × Nat × Nat))
  | [] => .ok []
  | p :: rest =>
    if p.2.alive ∧ ¬dead.contains p.1 then
      match p.2.cells with
      | [] => .error "IndexError: deque index out of range"
      | h :: _ =>
        ((collect_bites snakes dead rest).map
          (((occupied_cells snakes h).filterMap
            (fun vs => if vs.2 = 0 then none else some (vs.1, vs.2, p.1))) ++ ·))
    else collect_bites snakes dead rest

/-- First-seen deduplication, modelling insertion order of a Python dict. -/
def first_seen (l : List Nat) : List Nat :=
  l.foldl (fun acc x => if acc.contains x then acc else acc ++ [x]) []

/-- Python int sort of a Nat list. -/
def nat_sort (l : List Nat) : List Nat := l.insertionSort (· ≤ ·)

/-- state.snakes[a].score += x; KeyError if the key is absent. -/
def add_score (snakes : List (Nat × Snake)) (pid x : Nat) : Except String (List (Nat × Snake)) :=
  match List.lookup pid snakes with
  | none => .error "KeyError: snakes"
  | some _ => .ok (aupdate snakes pid (fun s => { s with score := s.score + x }))

def add_scores (snakes : List (Nat × Snake)) (pids : List Nat) (x : Nat) :
    Except String (List (Nat × Snake)) :=
  match pids with
  | [] => .ok snakes
  | p :: rest => do
    let s1 ← add_score snakes p x
    add_scores s1 rest x

/-- The segment award loop, lines 294-306. -/
def award_segments (snakes : List (Nat × Snake)) (bitePoints : List Nat)
    (attackersAt : Nat → List Nat) (oldLen : Nat) : Except String (List (Nat × Snake)) :=
  match bitePoints with
  | [] => .ok snakes
  | k :: rest => do
    let next_k := rest.headD oldLen
    let portion := next_k - k
    let attackers := nat_sort (attackersAt k)
    match attackers with
    | [] => award_segments snakes rest attackersAt oldLen
    | a0 :: _ =>
      if portion = 0 then award_segments snakes rest attackersAt oldLen
      else do
        let share := portion / attackers.length
        let rem := portion % attackers.length
        let snakes1 ← add_scores snakes attackers share
        let snakes2 ← if rem ≠ 0 then add_score snakes1 a0 rem else .ok snakes1
        award_segments snakes2 rest attackersAt oldLen

/-- One victim of the bite loop, lines 284-309.  vbites are this victim's
(segIdx, attacker) records in collection order. -/
def process_victim (snakes : List (Nat × Snake)) (dead : List Nat) (victim : Nat)
    (vbites : List (Nat × Nat)) : Except String (List (Nat × Snake) × List Nat) :=
  match List.lookup victim snakes with
  | none => .ok (snakes, dead)
  | some v =>
    if ¬v.alive ∨ dead.contains victim then .ok (snakes, dead)
    else
      match nat_sort (first_seen (vbites.map (·.1))) with
      | [] => .error "IndexError: list index out of range"
      | cut :: restPts => do
        let old_len := v.cells.length
        let snakes1 := aupdate snakes victim (fun s => { s with cells := s.cells.take cut })
        let snakes2 ← award_segments snakes1 (cut :: restPts)
          (fun k => (vbites.filter (fun sa => sa.1 = k)).map (·.2)) old_len
        match List.lookup victim snakes2 with
        | none => .error "KeyError: snakes"
        | some v2 =>
          .ok (snakes2, if v2.cells.length < 4 then dead ++ [victim] else dead)

/-- The victim loop of the bite pass, iterating victims in first-seen order. -/
def bite_loop (bites : List (Nat × Nat × Nat)) :
    List Nat → List (Nat × Snake) × List Nat → Except String (List (Nat × Snake) × List Nat)
  | [], acc => .ok acc
  | vtm :: rest, acc => do
    let nxt ← process_victim acc.1 acc.2 vtm
      ((bites.filter (fun r => r.1 = vtm)).map (fun r => (r.2.1, r.2.2)))
    bite_loop bites rest nxt

/-- The bite resolution phase: collect bites from the occupied map, then
process victims in first-seen order. -/
def bite_phase (snakes : List (Nat × Snake)) (dead : List Nat) :
    Except String (List (Nat × Snake) × List Nat) := do
  let bites ← collect_bites snakes dead snakes
  bite_loop bites (first_seen (bites.map (·.1))) (snakes, dead)

/-- Death finalization, lines 311-318, iterating the dead set. -/
def finalize_deaths (snakes : List (Nat × Snake)) (dead : List Nat) (nowMs : Int) :
    List (Nat × Snake) :=
  match dead with
  | [] => snakes
  | pid :: rest =>
    finalize_deaths
      (match List.lookup pid snakes with
       | none => snakes
       | some s =>
         if ¬s.alive then snakes
         else aset snakes pid { s with alive := false, cells := [], pendingGrowth := 0,
                                       respawnAtMs := some (nowMs + 3000) })
      rest nowMs

/-- The respawn pass, lines 192-207, iterating the snake dict in order. -/
def respawn_pass (fruits : List Fruit) (n : Nat) (nowMs : Int) :
    List Nat → List (Nat × Snake) → Rng → Except String (List (Nat × Snake) × Rng)
  | [], snakes, rng => .ok (snakes, rng)
  | pid :: rest, snakes, rng =>
    match List.lookup pid snakes with
    | none => respawn_pass fruits n nowMs rest snakes rng
    | some s =>
      if s.alive then respawn_pass fruits n nowMs rest snakes rng
      else
        match s.respawnAtMs with
        | none => respawn_pass fruits n nowMs rest snakes rng
        | some t =>
          if nowMs < t then respawn_pass fruits n nowMs rest snakes rng
          else do
            let occupied := occupied_cell_list snakes ++ fruits.map (·.cell)
            let pr ← try_place_snake pid n rng occupied 4000
            match pr.1 with
            | some placed =>
              respawn_pass fruits n nowMs rest (aset snakes pid { placed with score := s.score }) pr.2
            | none =>
              respawn_pass fruits n nowMs rest
                (aset snakes pid { s with respawnAtMs := some (nowMs + 250) }) pr.2

/-- Everything of tick before death finalization: returns the snakes after the
bite pass, the dead set, the remaining fruits and the advanced rng. -/
def tick_core (state : GameState) (inputs : List (Nat × PyVal)) (nowMs : Int) :
    Except String (List (Nat × Snake) × List Nat × List Fruit × Rng) := do
  let n := state.settings.cubeN
  let (snakes1, rng1) ← respawn_pass state.fruits n nowMs (state.snakes.map (·.1)) state.snakes state.rng
  let fruits0 := state.fruits
  let (snakes2, plans) ← plan_phase inputs fruits0 n (snakes1.map (·.1)) snakes1
  let (snakes3, fruits3, newCells) ← move_phase plans fruits0 (snakes2.map (·.1)) snakes2 fruits0
  let snakes4 := apply_new_cells snakes3 newCells
  let heads ← alive_heads snakes4
  let dead0 := head_on_dead heads
  let (snakes5, dead1) ← bite_phase snakes4 dead0
  .ok (snakes5, dead1, fruits3, rng1)

/-- tick from the source, mutating exactly tick, snakes, fruits and the rng. -/
def tick (state : GameState) (inputs : List (Nat × PyVal)) (nowMs : Int) :
    Except String GameState := do
  let (snakes5, dead1, fruits3, rng1) ← tick_core state inputs nowMs
  let snakes6 := finalize_deaths snakes5 dead1 nowMs
  let (fruits7, rng7) ← ensure_fruit_target state.settings snakes6 fruits3 rng1
  .ok { state with snakes := snakes6, fruits := fruits7, rng := rng7, tick := state.tick + 1 }


/-! ## Room join: backend/app/rooms.py (RoomManager.join) and the generic
exception handler of backend/app/main.py (ws_endpoint). -/

/-- The join guards of RoomManager.join lines 296-300: a RuntimeError carries
the failure code as its message. -/
def room_join_check (phase : String) (playerCount : Nat) : Except String Unit :=
  if phase ≠ "lobby" then .error "room_in_progress"
  else if 8 ≤ playerCount then .error "room_full"
  else .ok ()

structure ErrorMsg where
  code : String
  message : String
deriving DecidableEq

/-- What the joining client receives when join raises: ws_endpoint has no
specific handler for the RuntimeError, so the generic handler of main.py
lines 212-216 sends code server_error with str(e) as the message.  none means
the join succeeded and no error is sent. -/
def ws_join_response (phase : String) (playerCount : Nat) : Option ErrorMsg :=
  match room_join_check phase playerCount with
  | .error e => some { code := "server_error", message := e }
  | .ok _ => none

/-- Counterexample to claim C2: joining a running room yields an error whose
code field is server_error, not room_in_progress; the failure code only
appears in the message field. -/
theorem C2_counterexample :
    ws_join_response "running" 0 = some { code := "server_error", message := "room_in_progress" } ∧
      ¬ (ws_join_response "running" 0 = some { code := "room_in_progress", message := "room_in_progress" }) := by
  constructor
  · rfl
  · decide

/-- Claim C2 as amended: when a client attempts to join a room whose phase is
not lobby it receives an error message with code server_error and message
room_in_progress; when it attempts to join a lobby room that already has 8 or
more players it receives an error with code server_error and message
room_full. -/
theorem C2_join_errors (phase : String) (c : Nat) :
    (phase ≠ "lobby" →
      ws_join_response phase c = some { code := "server_error", message := "room_in_progress" }) ∧
    (phase = "lobby" → 8 ≤ c →
      ws_join_response phase c = some { code := "server_error", message := "room_full" }) := by
  constructor
  · intro h
    unfold ws_join_response room_join_check
    rw [if_pos h]
  · intro h hc
    unfold ws_join_response room_join_check
    rw [if_neg (by simp [h]), if_pos hc]

/-- Witness for C2 at a running room and at a full lobby room. -/
theorem C2_join_errors_witness :
    ws_join_response "running" 0 = some { code := "server_error", message := "room_in_progress" } ∧
      ws_join_response "lobby" 8 = some { code := "server_error", message := "room_full" } :=
  ⟨(C2_join_errors "running" 0).1 (by decide), (C2_join_errors "lobby" 8).2 rfl (by decide)⟩

/-! ## Claim C10: tick frame effect -/

theorem except_bind_ok {α β : Type} (a : α) (f : α → Except String β) :
    (Except.ok a : Except String α) >>= f = f a := rfl

theorem except_bind_error {α β : Type} (e : String) (f : α → Except String β) :
    (Except.error e : Except String α) >>= f = Except.error e := rfl

/-- Claim C10: tick never changes seed, settings, startServerTimeMs or
endsAtMs; only tick, snakes, fruits and the rng position may change. -/
theorem C10_tick_frame_effect (st : GameState) (inputs : List (Nat × PyVal)) (now : Int)
    (st' : GameState) (h : tick st inputs now = .ok st') :
    st'.seed = st.seed ∧ st'.settings = st.settings ∧
      st'.startServerTimeMs = st.startServerTimeMs ∧ st'.endsAtMs = st.endsAtMs := by
  unfold tick at h
  cases hc : tick_core st inputs now with
  | error e =>
    rw [hc, except_bind_error] at h
    exact Except.noConfusion h
  | ok q =>
    rw [hc, except_bind_ok] at h
    obtain ⟨S, D, F, R⟩ := q
    dsimp only at h
    cases he : ensure_fruit_target st.settings (finalize_deaths S D now) F R with
    | error e =>
      rw [he, except_bind_error] at h
      exact Except.noConfusion h
    | ok fr =>
      rw [he, except_bind_ok] at h
      injection h with h2
      rw [← h2]
      simp

/-- A minimal state on which tick succeeds: no snakes, no fruits, target 0. -/
def emptyState : GameState :=
  { seed := 0, rng := { stream := fun _ => 0, pos := 0, nextId := 0 },
    settings := { cubeN := 8, roundSeconds := 180, tickRate := 12, fruitTarget := 0 },
    tick := 0, startServerTimeMs := 0, endsAtMs := 1, snakes := [], fruits := [] }

/-- Witness for C10 on the empty state. -/
theorem C10_tick_frame_effect_witness :
    ({ emptyState with tick := 1 } : GameState).seed = emptyState.seed ∧
      ({ emptyState with tick := 1 } : GameState).settings = emptyState.settings ∧
      ({ emptyState with tick := 1 } : GameState).startServerTimeMs = emptyState.startServerTimeMs ∧
      ({ emptyState with tick := 1 } : GameState).endsAtMs = emptyState.endsAtMs :=
  C10_tick_frame_effect emptyState [] 0 { emptyState with tick := 1 } rfl

/-! ## Claim C1: per-tick turn inputs -/

/-- A running state with a single alive snake, used for the C1 failing input. -/
def C1_state : GameState :=
  { seed := 7, rng := { stream := fun _ => 0, pos := 0, nextId := 100 },
    settings := { cubeN := 8, roundSeconds := 180, tickRate := 12, fruitTarget := 0 },
    tick := 5, startServerTimeMs := 0, endsAtMs := 999999,
    snakes := [(1, { playerId := 1, alive := true, dir := 1,
                     cells := [encode_cell 4 3 3 8, encode_cell 4 2 3 8,
                               encode_cell 4 1 3 8, encode_cell 4 0 3 8],
                     pendingGrowth := 0, score := 0, respawnAtMs := none })],
    fruits := [] }

/-- Claim C1 is a code bug: the dispatcher (main.py line 202) stores the bare
int turn value in input_by_tick, the driver (rooms.py line 193) passes it to
tick unchanged, and tick (sim.py line 216) evaluates "dir" in cmd, which on
an int raises TypeError.  For a stored turn of 1 the tick call raises and no
direction is rotated. -/
theorem C1_turn_input_type_error :
    tick C1_state [(1, .pyInt 1)] 0 =
      .error "TypeError: argument of type int is not iterable" := by
  rfl


/-! ## Association list lemmas -/

theorem aupdate_cons (k0 : Nat) (s : Snake) (rest : List (Nat × Snake)) (k : Nat)
    (f : Snake → Snake) :
    aupdate ((k0, s) :: rest) k f =
      (if k0 = k then (k, f s) else (k0, s)) :: aupdate rest k f := rfl

theorem lookup_aupdate_self (l : List (Nat × Snake)) (k : Nat) (f : Snake → Snake) :
    List.lookup k (aupdate l k f) = (List.lookup k l).map f := by
  induction l with
  | nil => rfl
  | cons p rest ih =>
    obtain ⟨k0, s⟩ := p
    rw [aupdate_cons]
    by_cases hk : k0 = k
    · subst hk
      rw [if_pos rfl]
      simp [List.lookup]
    · rw [if_neg hk]
      have hb : (k == k0) = false := by simpa using fun he => hk he.symm
      simp [List.lookup, hb, ih]

theorem lookup_aupdate_ne (l : List (Nat × Snake)) (k k' : Nat) (f : Snake → Snake)
    (h : k' ≠ k) : List.lookup k' (aupdate l k f) = List.lookup k' l := by
  induction l with
  | nil => rfl
  | cons p rest ih =>
    obtain ⟨k0, s⟩ := p
    rw [aupdate_cons]
    by_cases hk : k0 = k
    · rw [if_pos hk]
      have hb : (k' == k) = false := by simpa using h
      have hb0 : (k' == k0) = false := by rw [hk]; exact hb
      simp [List.lookup, hb, hb0, ih]
    · rw [if_neg hk]
      by_cases he : k' = k0
      · subst he
        simp [List.lookup, ih]
      · have hb : (k' == k0) = false := by simpa using he
        simp [List.lookup, hb, ih]

theorem keys_aupdate (l : List (Nat × Snake)) (k : Nat) (f : Snake → Snake) :
    (aupdate l k f).map (·.1) = l.map (·.1) := by
  induction l with
  | nil => rfl
  | cons p rest ih =>
    obtain ⟨k0, s⟩ := p
    rw [aupdate_cons]
    by_cases hk : k0 = k
    · subst hk
      rw [if_pos rfl]
      simpa using ih
    · rw [if_neg hk]
      simpa using ih

theorem lookup_aset_self (l : List (Nat × Snake)) (k : Nat) (s : Snake) :
    List.lookup k (aset l k s) = (List.lookup k l).map (fun _ => s) :=
  lookup_aupdate_self l k (fun _ => s)

theorem lookup_aset_ne (l : List (Nat × Snake)) (k k' : Nat) (s : Snake)
    (h : k' ≠ k) : List.lookup k' (aset l k s) = List.lookup k' l :=
  lookup_aupdate_ne l k k' (fun _ => s) h

/-! ## Claim C8: death finalization -/

/-- A snake already finalized (not alive) is untouched by the rest of the
death loop. -/
theorem finalize_fix (dead : List Nat) (now : Int) :
    ∀ (snakes : List (Nat × Snake)) (pid : Nat) (t : Snake),
    List.lookup pid snakes = some t → t.alive = false →
    List.lookup pid (finalize_deaths snakes dead now) = some t := by
  induction dead with
  | nil => intro snakes pid t h _; exact h
  | cons d rest ih =>
    intro snakes pid t h hdead
    unfold finalize_deaths
    by_cases hd : d = pid
    · subst hd
      rw [h]
      simp only [hdead, Bool.not_false, if_pos]
      exact ih snakes d t h hdead
    · cases hl : List.lookup d snakes with
      | none => exact ih snakes pid t h hdead
      | some s =>
        by_cases ha : s.alive
        · simp only [ha, Bool.not_true, Bool.false_eq_true, if_false]
          have h2 : List.lookup pid (aset snakes d
              { s with alive := false, cells := [], pendingGrowth := 0,
                       respawnAtMs := some (now + 3000) }) = some t := by
            rw [lookup_aset_ne _ _ _ _ (fun he => hd he.symm)]
            exact h
          exact ih _ pid t h2 hdead
        · simp only [Bool.not_eq_true] at ha
          simp only [ha, Bool.not_false, if_pos]
          exact ih snakes pid t h hdead

/-- Claim C8 kernel: each player in the dead set that is alive when death
finalization starts ends with alive false, empty cells, zero pendingGrowth
and respawnAtMs set to nowMs + 3000. -/
theorem finalize_deaths_mem (dead : List Nat) (now : Int) :
    ∀ (snakes : List (Nat × Snake)) (pid : Nat) (s : Snake),
    pid ∈ dead → List.lookup pid snakes = some s → s.alive = true →
    List.lookup pid (finalize_deaths snakes dead now) =
      some { s with alive := false, cells := [], pendingGrowth := 0,
                    respawnAtMs := some (now + 3000) } := by
  induction dead with
  | nil => intro _ _ _ hmem; exact absurd hmem (List.not_mem_nil _)
  | cons d rest ih =>
    intro snakes pid s hmem hs halive
    unfold finalize_deaths
    by_cases hd : d = pid
    · subst hd
      rw [hs]
      simp only [halive, Bool.not_true, Bool.false_eq_true, if_false]
      have h2 : List.lookup d (aset snakes d
          { s with alive := false, cells := [], pendingGrowth := 0,
                   respawnAtMs := some (now + 3000) }) =
          some { s with alive := false, cells := [], pendingGrowth := 0,
                        respawnAtMs := some (now + 3000) } := by
        rw [lookup_aset_self, hs]
        rfl
      exact finalize_fix rest now _ d _ h2 rfl
    · have hmem' : pid ∈ rest := by
        cases hmem with
        | head => exact absurd rfl hd
        | tail _ hm => exact hm
      cases hl : List.lookup d snakes with
      | none => exact ih snakes pid s hmem' hs halive
      | some t =>
        by_cases ha : t.alive
        · simp only [ha, Bool.not_true, Bool.false_eq_true, if_false]
          have h2 : List.lookup pid (aset snakes d
              { t with alive := false, cells := [], pendingGrowth := 0,
                       respawnAtMs := some (now + 3000) }) = some s := by
            rw [lookup_aset_ne _ _ _ _ (fun he => hd he.symm)]
            exact hs
          exact ih _ pid s hmem' h2 halive
        · simp only [Bool.not_eq_true] at ha
          simp only [ha, Bool.not_false, if_pos]
          exact ih snakes pid s hmem' hs halive

/-- The snakes of a successful tick are exactly the finalized pre-final
snakes. -/
theorem tick_snakes_eq (st : GameState) (inputs : List (Nat × PyVal)) (now : Int)
    (S : List (Nat × Snake)) (D : List Nat) (F : List Fruit) (R : Rng) (st' : GameState)
    (hcore : tick_core st inputs now = .ok (S, D, F, R))
    (htick : tick st inputs now = .ok st') :
    st'.snakes = finalize_deaths S D now := by
  unfold tick at htick
  rw [hcore, except_bind_ok] at htick
  dsimp only at htick
  cases he : ensure_fruit_target st.settings (finalize_deaths S D now) F R with
  | error e =>
    rw [he, except_bind_error] at htick
    exact Except.noConfusion htick
  | ok fr =>
    rw [he, except_bind_ok] at htick
    injection htick with h2
    rw [← h2]

/-- Claim C8: for every player in the dead set of a tick call that is alive at
the start of death finalization, afterwards alive is false, cells is empty,
pendingGrowth is 0 and respawnAtMs is nowMs + 3000. -/
theorem C8_death_finalization (st : GameState) (inputs : List (Nat × PyVal)) (now : Int)
    (S : List (Nat × Snake)) (D : List Nat) (F : List Fruit) (R : Rng) (st' : GameState)
    (pid : Nat) (s : Snake)
    (hcore : tick_core st inputs now = .ok (S, D, F, R))
    (htick : tick st inputs now = .ok st')
    (hmem : pid ∈ D) (hs : List.lookup pid S = some s) (halive : s.alive = true) :
    List.lookup pid st'.snakes =
      some { s with alive := false, cells := [], pendingGrowth := 0,
                    respawnAtMs := some (now + 3000) } := by
  rw [tick_snakes_eq st inputs now S D F R st' hcore htick]
  exact finalize_deaths_mem D now S pid s hmem hs halive

/-- A head-on scenario: two snakes meeting on face 4 of an 8-cube. -/
def HO_state : GameState :=
  { seed := 7, rng := { stream := fun _ => 0, pos := 0, nextId := 100 },
    settings := { cubeN := 8, roundSeconds := 180, tickRate := 12, fruitTarget := 0 },
    tick := 0, startServerTimeMs := 0, endsAtMs := 999999,
    snakes := [(1, { playerId := 1, alive := true, dir := 1,
                     cells := [encode_cell 4 3 3 8, encode_cell 4 2 3 8,
                               encode_cell 4 1 3 8, encode_cell 4 0 3 8],
                     pendingGrowth := 0, score := 0, respawnAtMs := none }),
               (2, { playerId := 2, alive := true, dir := 3,
                     cells := [encode_cell 4 5 3 8, encode_cell 4 6 3 8,
                               encode_cell 4 7 3 8, encode_cell 4 7 4 8],
                     pendingGrowth := 0, score := 0, respawnAtMs := none })],
    fruits := [] }

def HO_core : List (Nat × Snake) × List Nat × List Fruit × Rng :=
  (tick_core HO_state [] 1000).toOption.getD ([], [], [], HO_state.rng)

def HO_final : GameState := (tick HO_state [] 1000).toOption.getD HO_state

def HO_snake1 : Snake :=
  (List.lookup 1 HO_core.1).getD
    { playerId := 0, alive := false, dir := 0, cells := [], pendingGrowth := 0,
      score := 0, respawnAtMs := none }

/-- Witness for C8 on the head-on scenario: player 1 dies and is finalized. -/
theorem C8_death_finalization_witness :
    List.lookup 1 HO_final.snakes =
      some { HO_snake1 with alive := false, cells := [], pendingGrowth := 0,
                            respawnAtMs := some (1000 + 3000) } :=
  C8_death_finalization HO_state [] 1000 HO_core.1 HO_core.2.1 HO_core.2.2.1 HO_core.2.2.2
    HO_final 1 HO_snake1 rfl rfl (by decide) rfl rfl


/-! ## Claim C5: score monotonicity -/

theorem bind_ok_elim {α β : Type} (m : Except String α) (f : α → Except String β) (out : β)
    (h : (m >>= f) = .ok out) : ∃ r, m = .ok r ∧ f r = .ok out := by
  cases m with
  | error e => exact Except.noConfusion h
  | ok r => exact ⟨r, rfl, h⟩

/-- Every snake present before is present after with a score at least as
large. -/
def score_mono (A B : List (Nat × Snake)) : Prop :=
  ∀ pid s, List.lookup pid A = some s → ∃ s', List.lookup pid B = some s' ∧ s.score ≤ s'.score

theorem score_mono_refl (A : List (Nat × Snake)) : score_mono A A :=
  fun _ s hs => ⟨s, hs, le_refl _⟩

theorem score_mono_trans {A B C : List (Nat × Snake)} (h1 : score_mono A B)
    (h2 : score_mono B C) : score_mono A C := by
  intro pid s hs
  obtain ⟨t, ht, hst⟩ := h1 pid s hs
  obtain ⟨u, hu, htu⟩ := h2 pid t ht
  exact ⟨u, hu, le_trans hst htu⟩

theorem score_mono_aupdate (l : List (Nat × Snake)) (k : Nat) (f : Snake → Snake)
    (hf : ∀ s, s.score ≤ (f s).score) : score_mono l (aupdate l k f) := by
  intro pid s hs
  by_cases hp : pid = k
  · subst hp
    rw [lookup_aupdate_self, hs]
    exact ⟨f s, rfl, hf s⟩
  · rw [lookup_aupdate_ne _ _ _ _ hp]
    exact ⟨s, hs, le_refl _⟩

theorem score_mono_aset (l : List (Nat × Snake)) (k : Nat) (v s0 : Snake)
    (h0 : List.lookup k l = some s0) (hs : s0.score ≤ v.score) :
    score_mono l (aset l k v) := by
  intro pid s hsl
  by_cases hp : pid = k
  · subst hp
    rw [lookup_aset_self, hsl]
    rw [h0] at hsl
    injection hsl with he
    exact ⟨v, rfl, he ▸ hs⟩
  · rw [lookup_aset_ne _ _ _ _ hp]
    exact ⟨s, hsl, le_refl _⟩

theorem respawn_pass_mono (fruits : List Fruit) (n : Nat) (now : Int) :
    ∀ (pids : List Nat) (snakes : List (Nat × Snake)) (rng : Rng)
      (S2 : List (Nat × Snake)) (rng2 : Rng),
    respawn_pass fruits n now pids snakes rng = .ok (S2, rng2) → score_mono snakes S2 := by
  intro pids
  induction pids with
  | nil =>
    intro snakes rng S2 rng2 h
    unfold respawn_pass at h
    injection h with h
    injection h with h1 h2
    exact h1 ▸ score_mono_refl snakes
  | cons pid rest ih =>
    intro snakes rng S2 rng2 h
    unfold respawn_pass at h
    cases hl : List.lookup pid snakes with
    | none =>
      rw [hl] at h
      exact ih snakes rng S2 rng2 h
    | some s =>
      rw [hl] at h
      try dsimp only at h
      by_cases ha : s.alive
      · rw [if_pos ha] at h
        exact ih snakes rng S2 rng2 h
      · rw [if_neg ha] at h
        cases hr : s.respawnAtMs with
        | none =>
          rw [hr] at h
          exact ih snakes rng S2 rng2 h
        | some t =>
          rw [hr] at h
          try dsimp only at h
          by_cases hle : now < t
          · rw [if_pos hle] at h
            exact ih snakes rng S2 rng2 h
          · rw [if_neg hle] at h
            try dsimp only at h
            obtain ⟨pr, htp, h⟩ := bind_ok_elim _ _ _ h
            cases hopl : pr.1 with
            | some placed =>
              rw [hopl] at h
              try dsimp only at h
              refine score_mono_trans (score_mono_aset snakes pid
                { placed with score := s.score } s hl (le_refl _)) ?_
              exact ih _ pr.2 S2 rng2 h
            | none =>
              rw [hopl] at h
              try dsimp only at h
              refine score_mono_trans (score_mono_aset snakes pid
                { s with respawnAtMs := some (now + 250) } s hl (le_refl _)) ?_
              exact ih _ pr.2 S2 rng2 h

theorem plan_phase_mono (inputs : List (Nat × PyVal)) (fruits0 : List Fruit) (n : Nat) :
    ∀ (pids : List Nat) (snakes S2 : List (Nat × Snake)) (plans : List (Nat × Plan)),
    plan_phase inputs fruits0 n pids snakes = .ok (S2, plans) → score_mono snakes S2 := by
  intro pids
  induction pids with
  | nil =>
    intro snakes S2 plans h
    unfold plan_phase at h
    injection h with h
    injection h with h1 h2
    exact h1 ▸ score_mono_refl snakes
  | cons pid rest ih =>
    intro snakes S2 plans h
    unfold plan_phase at h
    cases hl : List.lookup pid snakes with
    | none =>
      rw [hl] at h
      exact ih snakes S2 plans h
    | some s =>
      rw [hl] at h
      try dsimp only at h
      by_cases ha : s.alive
      · rw [if_pos ha] at h
        try dsimp only at h
        obtain ⟨nd, hai, h⟩ := bind_ok_elim _ _ _ h
        cases hc : s.cells with
        | nil =>
          rw [hc] at h
          exact Except.noConfusion h
        | cons hd tl =>
          rw [hc] at h
          try dsimp only at h
          cases hsc : step_cell hd nd n with
          | none =>
            rw [hsc] at h
            exact Except.noConfusion h
          | some nhd =>
            rw [hsc] at h
            try dsimp only at h
            obtain ⟨r, hrec, h⟩ := bind_ok_elim _ _ _ h
            injection h with h
            injection h with h1 h2
            refine score_mono_trans (score_mono_aset snakes pid
              { s with dir := nhd.2, cells := hd :: tl } s hl (le_refl _)) ?_
            exact h1 ▸ ih _ r.1 r.2 hrec
      · rw [if_neg ha] at h
        exact ih snakes S2 plans h

theorem move_snake_update_score (s : Snake) (pl : Plan) (fruits0 fruits : List Fruit) :
    s.score ≤ (move_snake_update s pl fruits0 fruits).1.score := by
  unfold move_snake_update
  dsimp only
  by_cases hg : s.pendingGrowth > 0 <;> by_cases he : pl.eatValue > 0 <;>
    simp only [hg, he, if_true, if_false, reduceIte] <;>
    first
      | rfl
      | (cases fruit_by_cell fruits0 pl.nextHead with
          | none => rfl
          | some f =>
            rcases hpop : pop_fruit fruits f.id with ⟨og, frN⟩
            cases og <;> simp [hpop] <;> omega)

theorem move_phase_mono (plans : List (Nat × Plan)) (fruits0 : List Fruit) :
    ∀ (pids : List Nat) (snakes S2 : List (Nat × Snake)) (fruits fruits2 : List Fruit)
      (nc : List (Nat × List Nat)),
    move_phase plans fruits0 pids snakes fruits = .ok (S2, fruits2, nc) → score_mono snakes S2 := by
  intro pids
  induction pids with
  | nil =>
    intro snakes S2 fruits fruits2 nc h
    unfold move_phase at h
    injection h with h
    injection h with h1 h2
    exact h1 ▸ score_mono_refl snakes
  | cons pid rest ih =>
    intro snakes S2 fruits fruits2 nc h
    unfold move_phase at h
    cases hl : List.lookup pid snakes with
    | none =>
      rw [hl] at h
      exact ih snakes S2 fruits fruits2 nc h
    | some s =>
      rw [hl] at h
      try dsimp only at h
      by_cases ha : s.alive
      · rw [if_pos ha] at h
        cases hp : List.lookup pid plans with
        | none =>
          rw [hp] at h
          exact Except.noConfusion h
        | some pl =>
          rw [hp] at h
          try dsimp only at h
          obtain ⟨r, hrec, h⟩ := bind_ok_elim _ _ _ h
          injection h with h
          injection h with h1 h2
          refine score_mono_trans (score_mono_aset snakes pid _ s hl
            (move_snake_update_score s pl fruits0 fruits)) ?_
          exact h1 ▸ ih _ r.1 _ r.2.1 r.2.2 hrec
      · rw [if_neg ha] at h
        exact ih snakes S2 fruits fruits2 nc h

theorem apply_new_cells_mono :
    ∀ (nc : List (Nat × List Nat)) (snakes : List (Nat × Snake)),
    score_mono snakes (apply_new_cells snakes nc) := by
  intro nc
  induction nc with
  | nil => intro snakes; exact score_mono_refl snakes
  | cons pc rest ih =>
    intro snakes
    unfold apply_new_cells
    exact score_mono_trans
      (score_mono_aupdate snakes pc.1 (fun s => { s with cells := pc.2 }) (fun s => le_refl _)) (ih _)

theorem add_score_mono (snakes S2 : List (Nat × Snake)) (pid x : Nat)
    (h : add_score snakes pid x = .ok S2) : score_mono snakes S2 := by
  unfold add_score at h
  cases hl : List.lookup pid snakes with
  | none => rw [hl] at h; exact Except.noConfusion h
  | some s =>
    rw [hl] at h
    injection h with h
    exact h ▸ score_mono_aupdate snakes pid _ (fun t => by simp)

theorem add_scores_mono (x : Nat) :
    ∀ (pids : List Nat) (snakes S2 : List (Nat × Snake)),
    add_scores snakes pids x = .ok S2 → score_mono snakes S2 := by
  intro pids
  induction pids with
  | nil =>
    intro snakes S2 h
    unfold add_scores at h
    injection h with h
    exact h ▸ score_mono_refl snakes
  | cons p rest ih =>
    intro snakes S2 h
    unfold add_scores at h
    obtain ⟨s1, h1, h2⟩ := bind_ok_elim _ _ _ h
    exact score_mono_trans (add_score_mono snakes s1 p x h1) (ih s1 S2 h2)

theorem award_segments_mono (attackersAt : Nat → List Nat) (oldLen : Nat) :
    ∀ (pts : List Nat) (snakes S2 : List (Nat × Snake)),
    award_segments snakes pts attackersAt oldLen = .ok S2 → score_mono snakes S2 := by
  intro pts
  induction pts with
  | nil =>
    intro snakes S2 h
    unfold award_segments at h
    injection h with h
    exact h ▸ score_mono_refl snakes
  | cons k rest ih =>
    intro snakes S2 h
    unfold award_segments at h
    try dsimp only at h
    cases hat : nat_sort (attackersAt k) with
    | nil =>
      rw [hat] at h
      exact ih snakes S2 h
    | cons a0 arest =>
      rw [hat] at h
      try dsimp only at h
      split at h
      · exact ih snakes S2 h
      · obtain ⟨s1, h1, h⟩ := bind_ok_elim _ _ _ h
        split at h
        · obtain ⟨s2, h2, h⟩ := bind_ok_elim _ _ _ h
          exact score_mono_trans (add_scores_mono _ _ snakes s1 h1)
            (score_mono_trans (add_score_mono s1 s2 a0 _ h2) (ih s2 S2 h))
        · obtain ⟨s2, h2, h⟩ := bind_ok_elim _ _ _ h
          injection h2 with h2
          refine score_mono_trans (add_scores_mono _ _ snakes s1 h1) ?_
          rw [h2]
          exact ih s2 S2 h

theorem process_victim_mono (snakes S2 : List (Nat × Snake)) (dead dead2 : List Nat)
    (victim : Nat) (vbites : List (Nat × Nat))
    (h : process_victim snakes dead victim vbites = .ok (S2, dead2)) :
    score_mono snakes S2 := by
  unfold process_victim at h
  cases hl : List.lookup victim snakes with
  | none =>
    rw [hl] at h
    injection h with h
    injection h with h1 h2
    exact h1 ▸ score_mono_refl snakes
  | some v =>
    rw [hl] at h
    try dsimp only at h
    by_cases hg : ¬v.alive ∨ dead.contains victim
    · rw [if_pos hg] at h
      injection h with h
      injection h with h1 h2
      exact h1 ▸ score_mono_refl snakes
    · rw [if_neg hg] at h
      cases hpts : nat_sort (first_seen (vbites.map (·.1))) with
      | nil =>
        rw [hpts] at h
        exact Except.noConfusion h
      | cons cut restPts =>
        rw [hpts] at h
        try dsimp only at h
        obtain ⟨s2, h2, h⟩ := bind_ok_elim _ _ _ h
        cases hl2 : List.lookup victim s2 with
        | none =>
          rw [hl2] at h
          exact Except.noConfusion h
        | some v2 =>
          rw [hl2] at h
          try dsimp only at h
          injection h with h
          injection h with h1 h3
          refine score_mono_trans (score_mono_aupdate snakes victim
            (fun s => { s with cells := s.cells.take cut }) (fun t => le_refl _)) ?_
          exact h1 ▸ award_segments_mono _ _ _ _ s2 h2

theorem bite_loop_mono (bites : List (Nat × Nat × Nat)) :
    ∀ (victims : List Nat) (acc : List (Nat × Snake) × List Nat)
      (out : List (Nat × Snake) × List Nat),
    bite_loop bites victims acc = .ok out → score_mono acc.1 out.1 := by
  intro victims
  induction victims with
  | nil =>
    intro acc out h
    unfold bite_loop at h
    injection h with h
    exact h ▸ score_mono_refl acc.1
  | cons vtm rest ih =>
    intro acc out h
    unfold bite_loop at h
    obtain ⟨nxt, h1, h2⟩ := bind_ok_elim _ _ _ h
    refine score_mono_trans ?_ (ih nxt out h2)
    exact process_victim_mono acc.1 nxt.1 acc.2 nxt.2 vtm _ h1

theorem bite_phase_mono (snakes S2 : List (Nat × Snake)) (dead dead2 : List Nat)
    (h : bite_phase snakes dead = .ok (S2, dead2)) : score_mono snakes S2 := by
  unfold bite_phase at h
  obtain ⟨bites, h1, h2⟩ := bind_ok_elim _ _ _ h
  exact bite_loop_mono bites _ (snakes, dead) (S2, dead2) h2

theorem finalize_deaths_mono (dead : List Nat) (now : Int) :
    ∀ (snakes : List (Nat × Snake)), score_mono snakes (finalize_deaths snakes dead now) := by
  induction dead with
  | nil => intro snakes; exact score_mono_refl snakes
  | cons d rest ih =>
    intro snakes
    unfold finalize_deaths
    cases hl : List.lookup d snakes with
    | none => exact ih snakes
    | some s =>
      dsimp only
      split
      · exact ih snakes
      · refine score_mono_trans (score_mono_aset snakes d
          { s with alive := false, cells := [], pendingGrowth := 0,
                   respawnAtMs := some (now + 3000) } s hl (le_refl _)) (ih _)

/-- The pre-final snakes of tick_core dominate the initial scores. -/
theorem tick_core_mono (st : GameState) (inputs : List (Nat × PyVal)) (now : Int)
    (S : List (Nat × Snake)) (D : List Nat) (F : List Fruit) (R : Rng)
    (h : tick_core st inputs now = .ok (S, D, F, R)) : score_mono st.snakes S := by
  unfold tick_core at h
  try dsimp only at h
  obtain ⟨p1, h1, h⟩ := bind_ok_elim _ _ _ h
  obtain ⟨S1, R1⟩ := p1
  try dsimp only at h
  obtain ⟨p2, h2, h⟩ := bind_ok_elim _ _ _ h
  obtain ⟨S2, plans0⟩ := p2
  try dsimp only at h
  obtain ⟨p3, h3, h⟩ := bind_ok_elim _ _ _ h
  obtain ⟨S3, F3, NC⟩ := p3
  try dsimp only at h
  obtain ⟨hds, h4, h⟩ := bind_ok_elim _ _ _ h
  try dsimp only at h
  obtain ⟨p5, h5, h⟩ := bind_ok_elim _ _ _ h
  obtain ⟨S5, D1⟩ := p5
  try dsimp only at h
  simp only [Except.ok.injEq, Prod.mk.injEq] at h
  obtain ⟨hS, hD, hF, hR⟩ := h
  have m1 : score_mono st.snakes S1 :=
    respawn_pass_mono st.fruits st.settings.cubeN now _ _ _ _ _ h1
  have m2 : score_mono S1 S2 :=
    plan_phase_mono inputs st.fruits st.settings.cubeN _ _ _ _ h2
  have m3 : score_mono S2 S3 :=
    move_phase_mono plans0 st.fruits _ _ _ _ _ _ h3
  have m4 : score_mono S3 (apply_new_cells S3 NC) := apply_new_cells_mono NC S3
  have m5 : score_mono (apply_new_cells S3 NC) S5 := bite_phase_mono _ _ _ _ h5
  exact hS ▸ score_mono_trans (score_mono_trans (score_mono_trans (score_mono_trans m1 m2) m3) m4) m5

/-- Claim C5: for every snake and every successful tick call, its score after
the call is at least its score before the call. -/
theorem C5_score_monotone (st : GameState) (inputs : List (Nat × PyVal)) (now : Int)
    (st' : GameState) (pid : Nat) (s s' : Snake)
    (h : tick st inputs now = .ok st')
    (hs : List.lookup pid st.snakes = some s)
    (hs' : List.lookup pid st'.snakes = some s') :
    s.score ≤ s'.score := by
  unfold tick at h
  obtain ⟨q, hcore, h⟩ := bind_ok_elim _ _ _ h
  obtain ⟨S, D, F, R⟩ := q
  try dsimp only at h
  obtain ⟨fr, hef, h⟩ := bind_ok_elim _ _ _ h
  injection h with h
  have hsn : st'.snakes = finalize_deaths S D now := by rw [← h]
  have m1 := tick_core_mono st inputs now S D F R hcore
  have m2 := finalize_deaths_mono D now S
  obtain ⟨t, ht, hscore⟩ := score_mono_trans m1 m2 pid s hs
  rw [hsn, ht] at hs'
  injection hs' with he
  exact he ▸ hscore

/-- The bite scenario of the spec (section 8, scenario 3): snake 1 bites snake
2 at segment index 3 while snake 2 has length 10. -/
def B_state : GameState :=
  { seed := 7, rng := { stream := fun _ => 0, pos := 0, nextId := 100 },
    settings := { cubeN := 8, roundSeconds := 180, tickRate := 12, fruitTarget := 0 },
    tick := 0, startServerTimeMs := 0, endsAtMs := 999999,
    snakes := [(1, { playerId := 1, alive := true, dir := 2,
                     cells := [encode_cell 4 5 2 8, encode_cell 4 5 1 8,
                               encode_cell 4 5 0 8, encode_cell 4 4 0 8],
                     pendingGrowth := 0, score := 0, respawnAtMs := none }),
               (2, { playerId := 2, alive := true, dir := 2,
                     cells := [encode_cell 4 7 3 8, encode_cell 4 6 3 8,
                               encode_cell 4 5 3 8, encode_cell 4 4 3 8,
                               encode_cell 4 3 3 8, encode_cell 4 2 3 8,
                               encode_cell 4 1 3 8, encode_cell 4 0 3 8,
                               encode_cell 4 0 4 8, encode_cell 4 0 5 8],
                     pendingGrowth := 0, score := 0, respawnAtMs := none })],
    fruits := [] }

def B_final : GameState := (tick B_state [] 1000).toOption.getD B_state

def B_def : Snake :=
  { playerId := 0, alive := false, dir := 0, cells := [], pendingGrowth := 0,
    score := 0, respawnAtMs := none }

/-- Witness for C5 on the bite scenario for the attacking snake. -/
theorem C5_score_monotone_witness :
    ((List.lookup 1 B_state.snakes).getD B_def).score ≤
      ((List.lookup 1 B_final.snakes).getD B_def).score :=
  C5_score_monotone B_state [] 1000 B_final 1
    ((List.lookup 1 B_state.snakes).getD B_def)
    ((List.lookup 1 B_final.snakes).getD B_def) rfl rfl rfl


/-! ## Claim C4: bite accounting -/

/-- The sum of all scores on the board (dict values in snake order). -/
def total_score (snakes : List (Nat × Snake)) : Nat :=
  (snakes.map (fun p => p.2.score)).sum

theorem aupdate_not_mem (l : List (Nat × Snake)) (k : Nat) (f : Snake → Snake)
    (h : k ∉ l.map (·.1)) : aupdate l k f = l := by
  induction l with
  | nil => rfl
  | cons p rest ih =>
    obtain ⟨k0, s⟩ := p
    rw [aupdate_cons]
    simp only [List.map_cons, List.mem_cons] at h
    push_neg at h
    rw [if_neg (fun he => h.1 he.symm), ih h.2]

theorem total_score_aupdate (l : List (Nat × Snake)) (k : Nat) (f : Snake → Snake) (s : Snake)
    (hnodup : (l.map (·.1)).Nodup) (hl : List.lookup k l = some s) :
    total_score (aupdate l k f) + s.score = total_score l + (f s).score := by
  induction l with
  | nil => simp [List.lookup] at hl
  | cons p rest ih =>
    obtain ⟨k0, t⟩ := p
    rw [aupdate_cons]
    simp only [List.map_cons, List.nodup_cons] at hnodup
    by_cases hk : k0 = k
    · subst hk
      rw [if_pos rfl]
      simp [List.lookup] at hl
      subst hl
      rw [aupdate_not_mem rest k0 f hnodup.1]
      simp [total_score]
      omega
    · rw [if_neg hk]
      have hb : (k == k0) = false := by simpa using fun he => hk he.symm
      rw [List.lookup] at hl
      simp only [hb] at hl
      have := ih hnodup.2 hl
      simp only [total_score, List.map_cons, List.sum_cons] at *
      omega

theorem keys_add_score (snakes S2 : List (Nat × Snake)) (pid x : Nat)
    (h : add_score snakes pid x = .ok S2) : S2.map (·.1) = snakes.map (·.1) := by
  unfold add_score at h
  cases hl : List.lookup pid snakes with
  | none => rw [hl] at h; exact Except.noConfusion h
  | some s =>
    rw [hl] at h
    injection h with h
    rw [← h]
    exact keys_aupdate snakes pid _

theorem total_add_score (snakes S2 : List (Nat × Snake)) (pid x : Nat)
    (hnodup : (snakes.map (·.1)).Nodup)
    (h : add_score snakes pid x = .ok S2) : total_score S2 = total_score snakes + x := by
  unfold add_score at h
  cases hl : List.lookup pid snakes with
  | none => rw [hl] at h; exact Except.noConfusion h
  | some s =>
    rw [hl] at h
    injection h with h
    have := total_score_aupdate snakes pid (fun t => { t with score := t.score + x }) s hnodup hl
    rw [← h]
    simp only at this
    omega

theorem keys_add_scores (x : Nat) :
    ∀ (pids : List Nat) (snakes S2 : List (Nat × Snake)),
    add_scores snakes pids x = .ok S2 → S2.map (·.1) = snakes.map (·.1) := by
  intro pids
  induction pids with
  | nil =>
    intro snakes S2 h
    unfold add_scores at h
    injection h with h
    rw [← h]
  | cons p rest ih =>
    intro snakes S2 h
    unfold add_scores at h
    obtain ⟨s1, h1, h2⟩ := bind_ok_elim _ _ _ h
    rw [ih s1 S2 h2, keys_add_score snakes s1 p x h1]

theorem total_add_scores (x : Nat) :
    ∀ (pids : List Nat) (snakes S2 : List (Nat × Snake)),
    (snakes.map (·.1)).Nodup →
    add_scores snakes pids x = .ok S2 →
    total_score S2 = total_score snakes + x * pids.length := by
  intro pids
  induction pids with
  | nil =>
    intro snakes S2 _ h
    unfold add_scores at h
    injection h with h
    rw [← h]
    simp
  | cons p rest ih =>
    intro snakes S2 hnodup h
    unfold add_scores at h
    obtain ⟨s1, h1, h2⟩ := bind_ok_elim _ _ _ h
    have hn1 : (s1.map (·.1)).Nodup := (keys_add_score snakes s1 p x h1) ▸ hnodup
    have := ih s1 S2 hn1 h2
    rw [this, total_add_score snakes s1 p x hnodup h1]
    simp [Nat.mul_succ]
    ring

theorem add_score_cells (snakes S2 : List (Nat × Snake)) (pid x : Nat)
    (h : add_score snakes pid x = .ok S2) (q : Nat) (s : Snake)
    (hq : List.lookup q snakes = some s) :
    ∃ s', List.lookup q S2 = some s' ∧ s'.cells = s.cells := by
  unfold add_score at h
  cases hl : List.lookup pid snakes with
  | none => rw [hl] at h; exact Except.noConfusion h
  | some t =>
    rw [hl] at h
    injection h with h
    subst h
    by_cases hqp : q = pid
    · subst hqp
      rw [lookup_aupdate_self, hq]
      exact ⟨_, rfl, rfl⟩
    · rw [lookup_aupdate_ne _ _ _ _ hqp]
      exact ⟨s, hq, rfl⟩

theorem add_scores_cells (x : Nat) :
    ∀ (pids : List Nat) (snakes S2 : List (Nat × Snake)),
    add_scores snakes pids x = .ok S2 →
    ∀ (q : Nat) (s : Snake), List.lookup q snakes = some s →
    ∃ s', List.lookup q S2 = some s' ∧ s'.cells = s.cells := by
  intro pids
  induction pids with
  | nil =>
    intro snakes S2 h q s hq
    unfold add_scores at h
    injection h with h
    exact h ▸ ⟨s, hq, rfl⟩
  | cons p rest ih =>
    intro snakes S2 h q s hq
    unfold add_scores at h
    obtain ⟨s1, h1, h2⟩ := bind_ok_elim _ _ _ h
    obtain ⟨t, ht, htc⟩ := add_score_cells snakes s1 p x h1 q s hq
    obtain ⟨u, hu, huc⟩ := ih s1 S2 h2 q t ht
    exact ⟨u, hu, huc.trans htc⟩

theorem award_segments_cells (attackersAt : Nat → List Nat) (oldLen : Nat) :
    ∀ (pts : List Nat) (snakes S2 : List (Nat × Snake)),
    award_segments snakes pts attackersAt oldLen = .ok S2 →
    ∀ (q : Nat) (s : Snake), List.lookup q snakes = some s →
    ∃ s', List.lookup q S2 = some s' ∧ s'.cells = s.cells := by
  intro pts
  induction pts with
  | nil =>
    intro snakes S2 h q s hq
    unfold award_segments at h
    injection h with h
    exact h ▸ ⟨s, hq, rfl⟩
  | cons k rest ih =>
    intro snakes S2 h q s hq
    unfold award_segments at h
    try dsimp only at h
    cases hat : nat_sort (attackersAt k) with
    | nil =>
      rw [hat] at h
      exact ih snakes S2 h q s hq
    | cons a0 arest =>
      rw [hat] at h
      try dsimp only at h
      split at h
      · exact ih snakes S2 h q s hq
      · obtain ⟨s1, h1, h⟩ := bind_ok_elim _ _ _ h
        split at h
        · obtain ⟨s2, h2, h⟩ := bind_ok_elim _ _ _ h
          obtain ⟨t, ht, htc⟩ := add_scores_cells _ _ snakes s1 h1 q s hq
          obtain ⟨u, hu, huc⟩ := add_score_cells s1 s2 a0 _ h2 q t ht
          obtain ⟨w, hw, hwc⟩ := ih s2 S2 h q u hu
          exact ⟨w, hw, (hwc.trans huc).trans htc⟩
        · obtain ⟨s2, h2, h⟩ := bind_ok_elim _ _ _ h
          injection h2 with h2
          subst h2
          obtain ⟨t, ht, htc⟩ := add_scores_cells _ _ snakes s1 h1 q s hq
          obtain ⟨w, hw, hwc⟩ := ih s1 S2 h q t ht
          exact ⟨w, hw, hwc.trans htc⟩

theorem keys_award_segments (attackersAt : Nat → List Nat) (oldLen : Nat) :
    ∀ (pts : List Nat) (snakes S2 : List (Nat × Snake)),
    award_segments snakes pts attackersAt oldLen = .ok S2 →
    S2.map (·.1) = snakes.map (·.1) := by
  intro pts
  induction pts with
  | nil =>
    intro snakes S2 h
    unfold award_segments at h
    injection h with h
    rw [← h]
  | cons k rest ih =>
    intro snakes S2 h
    unfold award_segments at h
    try dsimp only at h
    cases hat : nat_sort (attackersAt k) with
    | nil =>
      rw [hat] at h
      exact ih snakes S2 h
    | cons a0 arest =>
      rw [hat] at h
      try dsimp only at h
      split at h
      · exact ih snakes S2 h
      · obtain ⟨s1, h1, h⟩ := bind_ok_elim _ _ _ h
        split at h
        · obtain ⟨s2, h2, h⟩ := bind_ok_elim _ _ _ h
          rw [ih s2 S2 h, keys_add_score s1 s2 a0 _ h2, keys_add_scores _ _ snakes s1 h1]
        · obtain ⟨s2, h2, h⟩ := bind_ok_elim _ _ _ h
          injection h2 with h2
          subst h2
          rw [ih s1 S2 h, keys_add_scores _ _ snakes s1 h1]

theorem chain_lt_last (l : List Nat) (b x : Nat)
    (h : List.Chain' (· < ·) (l ++ [b])) (hx : x ∈ l) : x < b := by
  have hp : List.Pairwise (· < ·) (l ++ [b]) := List.chain'_iff_pairwise.mp h
  rw [List.pairwise_append] at hp
  exact hp.2.2 x hx b (List.mem_singleton.mpr rfl)

theorem nat_sort_perm (l : List Nat) : (nat_sort l).Perm l := List.perm_insertionSort _ l

theorem total_award_segments (attackersAt : Nat → List Nat) (oldLen : Nat) :
    ∀ (pts : List Nat) (snakes S2 : List (Nat × Snake)),
    (snakes.map (·.1)).Nodup →
    List.Chain' (· < ·) (pts ++ [oldLen]) →
    (∀ k ∈ pts, attackersAt k ≠ []) →
    award_segments snakes pts attackersAt oldLen = .ok S2 →
    total_score S2 + pts.headD oldLen = total_score snakes + oldLen := by
  intro pts
  induction pts with
  | nil =>
    intro snakes S2 _ _ _ h
    unfold award_segments at h
    injection h with h
    rw [← h]
    simp
  | cons k rest ih =>
    intro snakes S2 hnodup hch hatt h
    unfold award_segments at h
    try dsimp only at h
    have hne : attackersAt k ≠ [] := hatt k (List.mem_cons_self k rest)
    have hkn : k < rest.headD oldLen := by
      cases rest with
      | nil => exact (List.chain'_cons.mp hch).1
      | cons k2 r2 => exact (List.chain'_cons.mp hch).1
    have hnle : rest.headD oldLen ≤ oldLen := by
      cases rest with
      | nil => exact le_refl oldLen
      | cons k2 r2 =>
        exact le_of_lt (chain_lt_last (k :: k2 :: r2) oldLen k2 hch
          (List.mem_cons_of_mem k (List.mem_cons_self k2 r2)))
    have hchr : List.Chain' (· < ·) (rest ++ [oldLen]) := (List.chain'_cons'.mp hch).2
    have hattr : ∀ k2 ∈ rest, attackersAt k2 ≠ [] :=
      fun k2 hk2 => hatt k2 (List.mem_cons_of_mem k hk2)
    cases hat : nat_sort (attackersAt k) with
    | nil =>
      exfalso
      have hp := nat_sort_perm (attackersAt k)
      rw [hat] at hp
      exact hne hp.symm.eq_nil
    | cons a0 arest =>
      rw [hat] at h
      try dsimp only at h
      split at h
      · simp only [List.headD_cons]
        omega
      · obtain ⟨s1, h1, h⟩ := bind_ok_elim _ _ _ h
        have ht1 := total_add_scores _ _ snakes s1 hnodup h1
        have hn1 : (s1.map (·.1)).Nodup := (keys_add_scores _ _ snakes s1 h1) ▸ hnodup
        split at h
        · obtain ⟨s2, h2, h⟩ := bind_ok_elim _ _ _ h
          have ht2 := total_add_score s1 s2 a0 _ hn1 h2
          have hn2 : (s2.map (·.1)).Nodup := (keys_add_score s1 s2 a0 _ h2) ▸ hn1
          have hih := ih s2 S2 hn2 hchr hattr h
          have hP : total_score s2 = total_score snakes + (rest.headD oldLen - k) := by
            rw [ht2, ht1, Nat.add_assoc, Nat.div_add_mod']
          simp only [List.headD_cons]
          omega
        · rename_i hnz
          obtain ⟨s2, h2, h⟩ := bind_ok_elim _ _ _ h
          injection h2 with h2
          subst h2
          have hih := ih _ S2 hn1 hchr hattr h
          have hr0 : (rest.headD oldLen - k) % (a0 :: arest).length = 0 := by
            by_contra hc
            exact hnz hc
          have hdm := Nat.div_add_mod' (rest.headD oldLen - k) ((a0 :: arest).length)
          rw [hr0, Nat.add_zero] at hdm
          rw [hdm] at ht1
          simp only [List.headD_cons]
          omega

theorem mem_first_seen_aux (l : List Nat) :
    ∀ (acc : List Nat) (x : Nat),
    (x ∈ l.foldl (fun acc y => if acc.contains y then acc else acc ++ [y]) acc) ↔
      (x ∈ acc ∨ x ∈ l) := by
  induction l with
  | nil => simp
  | cons a l ih =>
    intro acc x
    rw [List.foldl_cons]
    by_cases hc : acc.contains a
    · rw [if_pos hc]
      rw [ih]
      have ha : a ∈ acc := by simpa using hc
      constructor
      · rintro (h | h)
        · exact Or.inl h
        · exact Or.inr (List.mem_cons_of_mem a h)
      · rintro (h | h)
        · exact Or.inl h
        · rcases List.mem_cons.mp h with rfl | h
          · exact Or.inl ha
          · exact Or.inr h
    · rw [if_neg hc]
      rw [ih]
      simp only [List.mem_append, List.mem_singleton, List.mem_cons]
      tauto

theorem nodup_first_seen_aux (l : List Nat) :
    ∀ acc : List Nat, acc.Nodup →
    (l.foldl (fun acc y => if acc.contains y then acc else acc ++ [y]) acc).Nodup := by
  induction l with
  | nil => intro acc h; simpa using h
  | cons a l ih =>
    intro acc h
    rw [List.foldl_cons]
    by_cases hc : acc.contains a
    · rw [if_pos hc]
      exact ih acc h
    · rw [if_neg hc]
      refine ih _ ?_
      have ha : a ∉ acc := by simpa using hc
      rw [List.nodup_append]
      refine ⟨h, List.nodup_singleton a, ?_⟩
      intro x hx hxa
      have := List.mem_singleton.mp hxa
      subst this
      exact ha hx

theorem mem_first_seen (l : List Nat) (x : Nat) : x ∈ first_seen l ↔ x ∈ l := by
  unfold first_seen
  rw [mem_first_seen_aux]
  simp

theorem nodup_first_seen (l : List Nat) : (first_seen l).Nodup :=
  nodup_first_seen_aux l [] List.nodup_nil

theorem nat_sort_sorted (l : List Nat) : List.Sorted (· ≤ ·) (nat_sort l) :=
  List.sorted_insertionSort _ l

theorem nat_sort_first_seen_pairwise (segs : List Nat) :
    List.Pairwise (· < ·) (nat_sort (first_seen segs)) := by
  have hsorted : List.Pairwise (· ≤ ·) (nat_sort (first_seen segs)) :=
    nat_sort_sorted (first_seen segs)
  have hnodup : (nat_sort (first_seen segs)).Nodup :=
    (nat_sort_perm (first_seen segs)).nodup_iff.mpr (nodup_first_seen segs)
  exact List.Pairwise.imp (fun h => lt_of_le_of_ne h.1 h.2) (hsorted.and hnodup)

theorem mem_nat_sort_first_seen (segs : List Nat) (x : Nat) :
    x ∈ nat_sort (first_seen segs) ↔ x ∈ segs := by
  rw [(nat_sort_perm (first_seen segs)).mem_iff, mem_first_seen]

theorem nat_sort_first_seen_ne_nil (segs : List Nat) (h : segs ≠ []) :
    nat_sort (first_seen segs) ≠ [] := by
  intro hc
  rcases List.exists_mem_of_ne_nil segs h with ⟨x, hx⟩
  have := (mem_nat_sort_first_seen segs x).mpr hx
  rw [hc] at this
  exact List.not_mem_nil x this

/-- Claim C4: when the bite pass processes a bitten victim (alive, not head-on
dead, with at least one bite record, every bite at a body index in
[1, length)), the victim is truncated at the minimum bite index and the total
score on the board rises by exactly the number of cells removed; the victim is
added to the dead set iff its remaining length is below 4. -/
theorem C4_bite_score_conservation
    (snakes S2 : List (Nat × Snake)) (dead dead2 : List Nat) (victim : Nat)
    (vbites : List (Nat × Nat)) (v : Snake)
    (hnodup : (snakes.map (·.1)).Nodup)
    (hv : List.lookup victim snakes = some v)
    (halive : v.alive = true)
    (hnd : dead.contains victim = false)
    (hne : vbites ≠ [])
    (hseg : ∀ sa ∈ vbites, 1 ≤ sa.1 ∧ sa.1 < v.cells.length)
    (h : process_victim snakes dead victim vbites = .ok (S2, dead2)) :
    ∃ cut v2, List.lookup victim S2 = some v2 ∧ v2.cells = v.cells.take cut ∧
      cut ∈ vbites.map (·.1) ∧ (∀ k ∈ vbites.map (·.1), cut ≤ k) ∧
      total_score S2 = total_score snakes + (v.cells.length - cut) ∧
      dead2 = (if v2.cells.length < 4 then dead ++ [victim] else dead) := by
  unfold process_victim at h
  rw [hv] at h
  try dsimp only at h
  have hcond : ¬(¬v.alive = true ∨ dead.contains victim = true) := by
    rw [halive, hnd]
    simp
  rw [if_neg hcond] at h
  cases hpts : nat_sort (first_seen (vbites.map (·.1))) with
  | nil => exact absurd hpts (nat_sort_first_seen_ne_nil _ (by simpa using hne))
  | cons cut restPts =>
    rw [hpts] at h
    try dsimp only at h
    obtain ⟨snakes2, haw, h⟩ := bind_ok_elim _ _ _ h
    cases hl2 : List.lookup victim snakes2 with
    | none => rw [hl2] at h; exact Except.noConfusion h
    | some v2 =>
      rw [hl2] at h
      try dsimp only at h
      injection h with h
      have hS : snakes2 = S2 := congrArg Prod.fst h
      have hd : (if v2.cells.length < 4 then dead ++ [victim] else dead) = dead2 :=
        congrArg Prod.snd h
      have hmem : ∀ x, x ∈ cut :: restPts ↔ x ∈ vbites.map (·.1) := by
        intro x
        rw [← hpts, mem_nat_sort_first_seen]
      have hcut_mem : cut ∈ vbites.map (·.1) := (hmem cut).mp (List.mem_cons_self cut restPts)
      have hPW : List.Pairwise (· < ·) (cut :: restPts) :=
        hpts ▸ nat_sort_first_seen_pairwise (vbites.map (·.1))
      have hmin : ∀ k ∈ vbites.map (·.1), cut ≤ k := by
        intro k hk
        rcases List.mem_cons.mp ((hmem k).mpr hk) with rfl | hk2
        · exact le_refl k
        · exact le_of_lt (List.rel_of_pairwise_cons hPW hk2)
      have hlt : ∀ x ∈ cut :: restPts, x < v.cells.length := by
        intro x hx
        rcases List.mem_map.mp ((hmem x).mp hx) with ⟨sa, hsa, rfl⟩
        exact (hseg sa hsa).2
      have hch : List.Chain' (· < ·) ((cut :: restPts) ++ [v.cells.length]) := by
        rw [List.chain'_iff_pairwise, List.pairwise_append]
        refine ⟨hPW, List.pairwise_singleton _ _, ?_⟩
        intro x hx y hy
        have := List.mem_singleton.mp hy
        subst this
        exact hlt x hx
      have hatt : ∀ k ∈ cut :: restPts,
          ((vbites.filter (fun sa => sa.1 = k)).map (·.2)) ≠ [] := by
        intro k hk hcnil
        rcases List.mem_map.mp ((hmem k).mp hk) with ⟨sa, hsa, rfl⟩
        rw [List.map_eq_nil] at hcnil
        have hmemf : sa ∈ vbites.filter (fun sb => sb.1 = sa.1) :=
          List.mem_filter.mpr ⟨hsa, by simp⟩
        rw [hcnil] at hmemf
        exact List.not_mem_nil sa hmemf
      have hkeys1 : (aupdate snakes victim
          (fun s => { s with cells := s.cells.take cut })).map (·.1) = snakes.map (·.1) :=
        keys_aupdate snakes victim _
      have hn1 : ((aupdate snakes victim
          (fun s => { s with cells := s.cells.take cut })).map (·.1)).Nodup :=
        hkeys1 ▸ hnodup
      have hl1 : List.lookup victim (aupdate snakes victim
          (fun s => { s with cells := s.cells.take cut })) =
          some { v with cells := v.cells.take cut } := by
        rw [lookup_aupdate_self, hv]
        rfl
      have ht1 : total_score (aupdate snakes victim
          (fun s => { s with cells := s.cells.take cut })) = total_score snakes := by
        have := total_score_aupdate snakes victim
          (fun s => { s with cells := s.cells.take cut }) v hnodup hv
        simp only at this
        omega
      have hawt := total_award_segments
        (fun k => (vbites.filter (fun sa => sa.1 = k)).map (·.2)) v.cells.length
        (cut :: restPts) _ snakes2 hn1 hch hatt haw
      simp only [List.headD_cons] at hawt
      obtain ⟨v2', hv2', hc2⟩ := award_segments_cells
        (fun k => (vbites.filter (fun sa => sa.1 = k)).map (·.2)) v.cells.length
        (cut :: restPts) _ snakes2 haw victim { v with cells := v.cells.take cut } hl1
      rw [hl2] at hv2'
      injection hv2' with hv2'
      subst hv2'
      have hcl : cut < v.cells.length := hlt cut (List.mem_cons_self cut restPts)
      subst hS
      refine ⟨cut, v2, hl2, ?_, hcut_mem, hmin, ?_, hd.symm⟩
      · exact hc2
      · omega

/-- Concrete bite scenario for the accounting theorem: snake 2 (6 cells,
score 10) is bitten by snake 1 at segment 3. -/
def c4vA : Snake :=
  { playerId := 1, alive := true, dir := 0, cells := [10, 11], pendingGrowth := 0,
    score := 0, respawnAtMs := none }

def c4vB : Snake :=
  { playerId := 2, alive := true, dir := 0, cells := [20, 21, 22, 23, 24, 25],
    pendingGrowth := 0, score := 10, respawnAtMs := none }

def c4snakes : List (Nat × Snake) := [(1, c4vA), (2, c4vB)]

def c4out : List (Nat × Snake) :=
  [(1, { c4vA with score := 3 }), (2, { c4vB with cells := [20, 21, 22] })]

/-- The bite accounting theorem instantiated on the concrete scenario: the
victim is cut to 3 cells, the attacker gains the 3 removed cells, and the
victim dies. -/
theorem C4_bite_score_conservation_witness :
    ∃ cut v2, List.lookup 2 c4out = some v2 ∧ v2.cells = c4vB.cells.take cut ∧
      cut ∈ ([(3, 1)] : List (Nat × Nat)).map (·.1) ∧
      (∀ k ∈ ([(3, 1)] : List (Nat × Nat)).map (·.1), cut ≤ k) ∧
      total_score c4out = total_score c4snakes + (c4vB.cells.length - cut) ∧
      ([2] : List Nat) =
        (if v2.cells.length < 4 then ([] : List Nat) ++ [2] else ([] : List Nat)) :=
  C4_bite_score_conservation c4snakes c4out [] [2] 2 [(3, 1)] c4vB
    (by decide) (by rfl) (by rfl) (by rfl) (by decide) (by decide) (by rfl)


/-! ## Claim C9: self-bite -/

theorem contains_eq_false_of_not_mem (l : List Nat) (x : Nat) (h : x ∉ l) :
    l.contains x = false := by
  by_contra hc
  rw [Bool.not_eq_false] at hc
  exact h (by simpa using hc)

theorem add_score_other (snakes S2 : List (Nat × Snake)) (p x q : Nat)
    (h : add_score snakes p x = .ok S2) (hq : q ≠ p) :
    List.lookup q S2 = List.lookup q snakes := by
  unfold add_score at h
  cases hl : List.lookup p snakes with
  | none => rw [hl] at h; exact Except.noConfusion h
  | some t =>
    rw [hl] at h
    injection h with h
    rw [← h]
    exact lookup_aupdate_ne snakes p q _ hq

theorem add_scores_other (x q : Nat) :
    ∀ (pids : List Nat) (snakes S2 : List (Nat × Snake)),
    add_scores snakes pids x = .ok S2 → q ∉ pids →
    List.lookup q S2 = List.lookup q snakes := by
  intro pids
  induction pids with
  | nil =>
    intro snakes S2 h _
    unfold add_scores at h
    injection h with h
    rw [← h]
  | cons p rest ih =>
    intro snakes S2 h hq
    unfold add_scores at h
    obtain ⟨s1, h1, h2⟩ := bind_ok_elim _ _ _ h
    rw [List.mem_cons] at hq
    push_neg at hq
    rw [ih s1 S2 h2 hq.2, add_score_other snakes s1 p x q h1 hq.1]

theorem award_segments_other (attackersAt : Nat → List Nat) (oldLen q : Nat)
    (hq : ∀ k, q ∉ attackersAt k) :
    ∀ (pts : List Nat) (snakes S2 : List (Nat × Snake)),
    award_segments snakes pts attackersAt oldLen = .ok S2 →
    List.lookup q S2 = List.lookup q snakes := by
  intro pts
  induction pts with
  | nil =>
    intro snakes S2 h
    unfold award_segments at h
    injection h with h
    rw [← h]
  | cons k rest ih =>
    intro snakes S2 h
    unfold award_segments at h
    try dsimp only at h
    cases hat : nat_sort (attackersAt k) with
    | nil =>
      rw [hat] at h
      exact ih snakes S2 h
    | cons a0 arest =>
      rw [hat] at h
      try dsimp only at h
      have hqs : q ∉ (a0 :: arest) := by
        intro hc
        have hp := nat_sort_perm (attackersAt k)
        rw [hat] at hp
        exact hq k (hp.mem_iff.mp hc)
      split at h
      · exact ih snakes S2 h
      · obtain ⟨s1, h1, h⟩ := bind_ok_elim _ _ _ h
        split at h
        · obtain ⟨s2, h2, h⟩ := bind_ok_elim _ _ _ h
          rw [ih s2 S2 h,
            add_score_other s1 s2 a0 _ q h2 (fun he => hqs (he ▸ List.mem_cons_self a0 arest)),
            add_scores_other _ q _ snakes s1 h1 hqs]
        · obtain ⟨s2, h2, h⟩ := bind_ok_elim _ _ _ h
          injection h2 with h2
          subst h2
          rw [ih s1 S2 h, add_scores_other _ q _ snakes s1 h1 hqs]

theorem process_victim_other (snakes S2 : List (Nat × Snake)) (dead dead2 : List Nat)
    (vtm pid : Nat) (vbites : List (Nat × Nat))
    (hne : vtm ≠ pid) (hnatt : pid ∉ vbites.map (·.2))
    (h : process_victim snakes dead vtm vbites = .ok (S2, dead2)) :
    List.lookup pid S2 = List.lookup pid snakes ∧ (pid ∈ dead2 ↔ pid ∈ dead) := by
  unfold process_victim at h
  cases hl : List.lookup vtm snakes with
  | none =>
    rw [hl] at h
    try dsimp only at h
    injection h with h
    have hS : snakes = S2 := congrArg Prod.fst h
    have hD : dead = dead2 := congrArg Prod.snd h
    rw [← hS, ← hD]
    exact ⟨rfl, Iff.rfl⟩
  | some vv =>
    rw [hl] at h
    try dsimp only at h
    split at h
    · injection h with h
      have hS : snakes = S2 := congrArg Prod.fst h
      have hD : dead = dead2 := congrArg Prod.snd h
      rw [← hS, ← hD]
      exact ⟨rfl, Iff.rfl⟩
    · cases hpts : nat_sort (first_seen (vbites.map (·.1))) with
      | nil =>
        rw [hpts] at h
        exact Except.noConfusion h
      | cons cut restPts =>
        rw [hpts] at h
        try dsimp only at h
        obtain ⟨snakes2, haw, h⟩ := bind_ok_elim _ _ _ h
        cases hl2 : List.lookup vtm snakes2 with
        | none => rw [hl2] at h; exact Except.noConfusion h
        | some v2 =>
          rw [hl2] at h
          try dsimp only at h
          injection h with h
          have hS : snakes2 = S2 := congrArg Prod.fst h
          have hd : (if v2.cells.length < 4 then dead ++ [vtm] else dead) = dead2 :=
            congrArg Prod.snd h
          have hqatt : ∀ k, pid ∉ ((vbites.filter (fun sa => sa.1 = k)).map (·.2)) := by
            intro k hc
            rcases List.mem_map.mp hc with ⟨sa, hsa, hsa2⟩
            exact hnatt (List.mem_map.mpr ⟨sa, (List.mem_filter.mp hsa).1, hsa2⟩)
          have hpre := award_segments_other _ _ pid hqatt (cut :: restPts) _ snakes2 haw
          constructor
          · rw [← hS, hpre, lookup_aupdate_ne snakes vtm pid _ (fun he => hne he.symm)]
          · rw [← hd]
            split
            · rw [List.mem_append, List.mem_singleton]
              constructor
              · rintro (hx | hx)
                · exact hx
                · exact absurd hx.symm hne
              · exact Or.inl
            · exact Iff.rfl

theorem bite_loop_other (bites : List (Nat × Nat × Nat)) (pid : Nat)
    (hown : ∀ r ∈ bites, r.2.2 = pid → r.1 = pid) :
    ∀ (victims : List Nat) (acc out : List (Nat × Snake) × List Nat),
    bite_loop bites victims acc = .ok out → pid ∉ victims →
    List.lookup pid out.1 = List.lookup pid acc.1 ∧ (pid ∈ out.2 ↔ pid ∈ acc.2) := by
  intro victims
  induction victims with
  | nil =>
    intro acc out h _
    unfold bite_loop at h
    injection h with h
    rw [← h]
    exact ⟨rfl, Iff.rfl⟩
  | cons vtm rest ih =>
    intro acc out h hpid
    unfold bite_loop at h
    obtain ⟨nxt, h1, h2⟩ := bind_ok_elim _ _ _ h
    rw [List.mem_cons] at hpid
    push_neg at hpid
    have hnatt : pid ∉ ((bites.filter (fun r => r.1 = vtm)).map
        (fun r => (r.2.1, r.2.2))).map (·.2) := by
      intro hc
      rcases List.mem_map.mp hc with ⟨rr, hrr, hrr2⟩
      rcases List.mem_map.mp hrr with ⟨r, hr, hrq⟩
      have hr1 : r.1 = vtm := by simpa using (List.mem_filter.mp hr).2
      have : r.2.2 = pid := by rw [← hrq] at hrr2; exact hrr2
      exact hpid.1 ((hr1 ▸ hown r (List.mem_filter.mp hr).1 this).symm)
    obtain ⟨hl1, hd1⟩ := process_victim_other acc.1 nxt.1 acc.2 nxt.2 vtm pid _
      (fun he => hpid.1 he.symm) hnatt (by rw [← h1])
    obtain ⟨hl2, hd2⟩ := ih nxt out h2 hpid.2
    exact ⟨hl2.trans hl1, hd2.trans hd1⟩

theorem bite_loop_append (bites : List (Nat × Nat × Nat)) (l2 : List Nat) :
    ∀ (l1 : List Nat) (acc : List (Nat × Snake) × List Nat),
    bite_loop bites (l1 ++ l2) acc =
      (bite_loop bites l1 acc) >>= (fun r => bite_loop bites l2 r) := by
  intro l1
  induction l1 with
  | nil =>
    intro acc
    rfl
  | cons vtm rest ih =>
    intro acc
    show (process_victim acc.1 acc.2 vtm
        ((bites.filter (fun r => r.1 = vtm)).map (fun r => (r.2.1, r.2.2))) >>=
          fun nxt => bite_loop bites (rest ++ l2) nxt) =
      ((process_victim acc.1 acc.2 vtm
        ((bites.filter (fun r => r.1 = vtm)).map (fun r => (r.2.1, r.2.2))) >>=
          fun nxt => bite_loop bites rest nxt) >>= fun r => bite_loop bites l2 r)
    cases hpv : process_victim acc.1 acc.2 vtm
        ((bites.filter (fun r => r.1 = vtm)).map (fun r => (r.2.1, r.2.2))) with
    | error e => rfl
    | ok nxt => exact ih nxt

theorem nat_sort_first_seen_singleton (x : Nat) : nat_sort (first_seen [x]) = [x] := rfl

theorem process_victim_self (snakes : List (Nat × Snake)) (dead : List Nat) (pid j : Nat)
    (v : Snake) (hv : List.lookup pid snakes = some v) (halive : v.alive = true)
    (hnd : dead.contains pid = false) (hjlen : j < v.cells.length) :
    process_victim snakes dead pid [(j, pid)] =
      .ok (aupdate (aupdate snakes pid (fun s => { s with cells := s.cells.take j })) pid
             (fun s => { s with score := s.score + (v.cells.length - j) }),
           if j < 4 then dead ++ [pid] else dead) := by
  unfold process_victim
  rw [hv]
  try dsimp only
  have hcond : ¬(¬v.alive = true ∨ dead.contains pid = true) := by
    rw [halive, hnd]
    simp
  rw [if_neg hcond]
  simp only [List.map_cons, List.map_nil]
  rw [nat_sort_first_seen_singleton j]
  try dsimp only
  have hatt : nat_sort ((([(j, pid)] : List (Nat × Nat)).filter
      (fun sa => sa.1 = j)).map (·.2)) = [pid] := by
    have h1 : (([(j, pid)] : List (Nat × Nat)).filter (fun sa => sa.1 = j)) = [(j, pid)] := by
      simp
    rw [h1]
    rfl
  have hl1 : List.lookup pid (aupdate snakes pid (fun s => { s with cells := s.cells.take j }))
      = some { v with cells := v.cells.take j } := by
    rw [lookup_aupdate_self, hv]
    rfl
  have haw : award_segments (aupdate snakes pid (fun s => { s with cells := s.cells.take j }))
      [j] (fun k => (([(j, pid)] : List (Nat × Nat)).filter (fun sa => sa.1 = k)).map (·.2))
      v.cells.length =
      .ok (aupdate (aupdate snakes pid (fun s => { s with cells := s.cells.take j })) pid
        (fun s => { s with score := s.score + (v.cells.length - j) })) := by
    unfold award_segments
    try dsimp only
    rw [hatt]
    try dsimp only
    simp only [List.headD_nil, List.length_cons, List.length_nil, Nat.zero_add,
      Nat.div_one, Nat.mod_one]
    rw [if_neg (by omega : ¬(v.cells.length - j = 0))]
    have hadds : add_scores
        (aupdate snakes pid (fun s => { s with cells := s.cells.take j })) [pid]
        (v.cells.length - j) =
        .ok (aupdate (aupdate snakes pid (fun s => { s with cells := s.cells.take j })) pid
          (fun s => { s with score := s.score + (v.cells.length - j) })) := by
      unfold add_scores add_score
      rw [hl1]
      try dsimp only
      unfold add_scores
      rfl
    rw [hadds, except_bind_ok]
    try dsimp only
    rw [if_neg (by decide : ¬((0 : Nat) ≠ 0)), except_bind_ok]
    try dsimp only
    unfold award_segments
    rfl
  rw [haw, except_bind_ok]
  try dsimp only
  rw [lookup_aupdate_self, lookup_aupdate_self, hv]
  simp only [Option.map_some']
  try dsimp only
  rw [List.length_take, Nat.min_eq_left (le_of_lt hjlen)]

/-- Claim C9: if the bite records collected in a tick show exactly one bite on
a snake, a self-bite at body index j (and the snake attacks nobody else), the
snake being alive, not head-on dead, with 1 <= j < length, then the bite pass
truncates it to its first j cells, credits its own score with the removed
cell count, and marks it dead exactly when j < 4. -/
theorem C9_self_bite (snakes S2 : List (Nat × Snake)) (dead dead2 : List Nat)
    (bites : List (Nat × Nat × Nat)) (pid j : Nat) (v : Snake)
    (hb : collect_bites snakes dead snakes = .ok bites)
    (hv : List.lookup pid snakes = some v)
    (halive : v.alive = true)
    (hnd : pid ∉ dead)
    (hself : bites.filter (fun r => r.1 = pid) = [(pid, j, pid)])
    (hown : ∀ r ∈ bites, r.2.2 = pid → r.1 = pid)
    (hj1 : 1 ≤ j) (hjlen : j < v.cells.length)
    (h : bite_phase snakes dead = .ok (S2, dead2)) :
    ∃ v2, List.lookup pid S2 = some v2 ∧
      v2.cells = v.cells.take j ∧
      v2.score = v.score + (v.cells.length - j) ∧
      (pid ∈ dead2 ↔ j < 4) := by
  unfold bite_phase at h
  rw [hb, except_bind_ok] at h
  have hbmem : (pid, j, pid) ∈ bites := by
    have hmem : (pid, j, pid) ∈ bites.filter (fun r => r.1 = pid) := by
      rw [hself]
      exact List.mem_singleton.mpr rfl
    exact (List.mem_filter.mp hmem).1
  have hpidmem : pid ∈ first_seen (bites.map (·.1)) := by
    rw [mem_first_seen]
    exact List.mem_map.mpr ⟨(pid, j, pid), hbmem, rfl⟩
  have hnodupv : (first_seen (bites.map (·.1))).Nodup := nodup_first_seen _
  obtain ⟨pre, post, hsplit⟩ := List.append_of_mem hpidmem
  rw [hsplit] at h hnodupv
  rw [List.nodup_append] at hnodupv
  have hpre : pid ∉ pre := fun hc =>
    hnodupv.2.2 hc (List.mem_cons_self pid post)
  have hpost : pid ∉ post := (List.nodup_cons.mp hnodupv.2.1).1
  rw [bite_loop_append] at h
  obtain ⟨acc1, h1, h⟩ := bind_ok_elim _ _ _ h
  obtain ⟨hl1, hd1⟩ := bite_loop_other bites pid hown pre (snakes, dead) acc1 h1 hpre
  unfold bite_loop at h
  obtain ⟨acc2, h2, h⟩ := bind_ok_elim _ _ _ h
  rw [hself] at h2
  simp only [List.map_cons, List.map_nil] at h2
  have hv1 : List.lookup pid acc1.1 = some v := by rw [hl1]; exact hv
  have hnd1 : acc1.2.contains pid = false :=
    contains_eq_false_of_not_mem _ _ (fun hc => hnd (hd1.mp hc))
  rw [process_victim_self acc1.1 acc1.2 pid j v hv1 halive hnd1 hjlen] at h2
  injection h2 with h2
  obtain ⟨hl2, hd2⟩ := bite_loop_other bites pid hown post acc2 (S2, dead2) h hpost
  refine ⟨{ v with cells := v.cells.take j, score := v.score + (v.cells.length - j) },
    ?_, rfl, rfl, ?_⟩
  · rw [hl2, ← h2]
    try dsimp only
    rw [lookup_aupdate_self, lookup_aupdate_self, hv1]
    rfl
  · rw [hd2, ← h2]
    try dsimp only
    by_cases hj4 : j < 4
    · rw [if_pos hj4]
      simp [hj4]
    · rw [if_neg hj4]
      constructor
      · intro hc
        exact absurd (hd1.mp hc) hnd
      · intro hc
        exact absurd hc hj4

/-- Concrete self-bite scenario: a single snake whose head cell 9 reappears at
its own body index 5. -/
def c9S : Snake :=
  { playerId := 1, alive := true, dir := 0, cells := [9, 1, 2, 3, 4, 9],
    pendingGrowth := 0, score := 7, respawnAtMs := none }

def c9snakes : List (Nat × Snake) := [(1, c9S)]

def c9out : List (Nat × Snake) := [(1, { c9S with cells := [9, 1, 2, 3, 4], score := 8 })]

/-- The self-bite theorem instantiated on the concrete scenario: the snake is
cut to 5 cells, gains 1 point, and survives (5 >= 4). -/
theorem C9_self_bite_witness :
    ∃ v2, List.lookup 1 c9out = some v2 ∧
      v2.cells = c9S.cells.take 5 ∧
      v2.score = c9S.score + (c9S.cells.length - 5) ∧
      ((1 : Nat) ∈ ([] : List Nat) ↔ 5 < 4) :=
  C9_self_bite c9snakes c9out [] [] [(1, 5, 1)] 1 5 c9S
    (by rfl) (by rfl) (by rfl) (by simp) (by rfl) (by decide) (by decide) (by decide) (by rfl)


/-! ## Claim C6: fruit growth -/

theorem lookup_mem_keys (l : List (Nat × Snake)) (k : Nat) (s : Snake)
    (h : List.lookup k l = some s) : k ∈ l.map (·.1) := by
  induction l with
  | nil => simp [List.lookup] at h
  | cons p rest ih =>
    obtain ⟨k0, t⟩ := p
    by_cases hk : k = k0
    · subst hk
      exact List.mem_cons_self _ _
    · have hb : (k == k0) = false := by simpa using hk
      rw [List.lookup] at h
      simp only [hb] at h
      exact List.mem_cons_of_mem _ (ih h)

theorem keys_aset (l : List (Nat × Snake)) (k : Nat) (s : Snake) :
    (aset l k s).map (·.1) = l.map (·.1) := keys_aupdate l k _

theorem keys_respawn_pass (fruits : List Fruit) (n : Nat) (now : Int) :
    ∀ (pids : List Nat) (snakes : List (Nat × Snake)) (rng : Rng)
      (S2 : List (Nat × Snake)) (rng2 : Rng),
    respawn_pass fruits n now pids snakes rng = .ok (S2, rng2) →
    S2.map (·.1) = snakes.map (·.1) := by
  intro pids
  induction pids with
  | nil =>
    intro snakes rng S2 rng2 h
    unfold respawn_pass at h
    injection h with h
    injection h with h1 h2
    rw [← h1]
  | cons pid rest ih =>
    intro snakes rng S2 rng2 h
    unfold respawn_pass at h
    cases hl : List.lookup pid snakes with
    | none =>
      rw [hl] at h
      exact ih snakes rng S2 rng2 h
    | some s =>
      rw [hl] at h
      try dsimp only at h
      by_cases ha : s.alive
      · rw [if_pos ha] at h
        exact ih snakes rng S2 rng2 h
      · rw [if_neg ha] at h
        cases hr : s.respawnAtMs with
        | none =>
          rw [hr] at h
          exact ih snakes rng S2 rng2 h
        | some t =>
          rw [hr] at h
          try dsimp only at h
          by_cases hle : now < t
          · rw [if_pos hle] at h
            exact ih snakes rng S2 rng2 h
          · rw [if_neg hle] at h
            try dsimp only at h
            obtain ⟨pr, htp, h⟩ := bind_ok_elim _ _ _ h
            cases hopl : pr.1 with
            | some placed =>
              rw [hopl] at h
              try dsimp only at h
              rw [ih _ pr.2 S2 rng2 h, keys_aset]
            | none =>
              rw [hopl] at h
              try dsimp only at h
              rw [ih _ pr.2 S2 rng2 h, keys_aset]

theorem respawn_track (fruits : List Fruit) (n : Nat) (now : Int) (pid : Nat) (v : Snake)
    (halive : v.alive = true) :
    ∀ (pids : List Nat) (snakes : List (Nat × Snake)) (rng : Rng)
      (S2 : List (Nat × Snake)) (rng2 : Rng),
    respawn_pass fruits n now pids snakes rng = .ok (S2, rng2) →
    List.lookup pid snakes = some v →
    List.lookup pid S2 = some v := by
  intro pids
  induction pids with
  | nil =>
    intro snakes rng S2 rng2 h hv
    unfold respawn_pass at h
    injection h with h
    injection h with h1 h2
    rw [← h1]
    exact hv
  | cons pid0 rest ih =>
    intro snakes rng S2 rng2 h hv
    unfold respawn_pass at h
    cases hl : List.lookup pid0 snakes with
    | none =>
      rw [hl] at h
      exact ih snakes rng S2 rng2 h hv
    | some s =>
      rw [hl] at h
      try dsimp only at h
      by_cases ha : s.alive
      · rw [if_pos ha] at h
        exact ih snakes rng S2 rng2 h hv
      · rw [if_neg ha] at h
        have hne : pid ≠ pid0 := by
          intro he
          rw [← he, hv] at hl
          injection hl with hl
          rw [← hl] at ha
          exact ha halive
        cases hr : s.respawnAtMs with
        | none =>
          rw [hr] at h
          exact ih snakes rng S2 rng2 h hv
        | some t =>
          rw [hr] at h
          try dsimp only at h
          by_cases hle : now < t
          · rw [if_pos hle] at h
            exact ih snakes rng S2 rng2 h hv
          · rw [if_neg hle] at h
            try dsimp only at h
            obtain ⟨pr, htp, h⟩ := bind_ok_elim _ _ _ h
            cases hopl : pr.1 with
            | some placed =>
              rw [hopl] at h
              try dsimp only at h
              refine ih _ pr.2 S2 rng2 h ?_
              rw [lookup_aset_ne _ _ _ _ hne]
              exact hv
            | none =>
              rw [hopl] at h
              try dsimp only at h
              refine ih _ pr.2 S2 rng2 h ?_
              rw [lookup_aset_ne _ _ _ _ hne]
              exact hv

theorem keys_apply_new_cells :
    ∀ (ncs : List (Nat × List Nat)) (snakes : List (Nat × Snake)),
    (apply_new_cells snakes ncs).map (·.1) = snakes.map (·.1) := by
  intro ncs
  induction ncs with
  | nil => intro snakes; rfl
  | cons pc rest ih =>
    intro snakes
    unfold apply_new_cells
    rw [ih, keys_aupdate]

theorem apply_new_cells_other (pid : Nat) :
    ∀ (ncs : List (Nat × List Nat)) (snakes : List (Nat × Snake)),
    pid ∉ ncs.map (·.1) →
    List.lookup pid (apply_new_cells snakes ncs) = List.lookup pid snakes := by
  intro ncs
  induction ncs with
  | nil => intro snakes _; rfl
  | cons pc rest ih =>
    intro snakes hn
    simp only [List.map_cons, List.mem_cons] at hn
    push_neg at hn
    unfold apply_new_cells
    rw [ih _ hn.2, lookup_aupdate_ne _ _ _ _ hn.1]

theorem apply_new_cells_track (pid : Nat) (body : List Nat)
    (pre post : List (Nat × List Nat)) (hpre : pid ∉ pre.map (·.1))
    (hpost : pid ∉ post.map (·.1)) :
    ∀ (snakes : List (Nat × Snake)) (v : Snake),
    List.lookup pid snakes = some v →
    List.lookup pid (apply_new_cells snakes (pre ++ (pid, body) :: post)) =
      some { v with cells := body } := by
  induction pre with
  | nil =>
    intro snakes v hv
    simp only [List.nil_append]
    unfold apply_new_cells
    rw [apply_new_cells_other pid post _ hpost, lookup_aupdate_self, hv]
    rfl
  | cons pc rest ih =>
    intro snakes v hv
    simp only [List.map_cons, List.mem_cons] at hpre
    push_neg at hpre
    simp only [List.cons_append]
    unfold apply_new_cells
    refine ih hpre.2 _ v ?_
    rw [lookup_aupdate_ne _ _ _ _ hpre.1]
    exact hv

theorem keys_finalize_deaths (now : Int) :
    ∀ (dead : List Nat) (snakes : List (Nat × Snake)),
    (finalize_deaths snakes dead now).map (·.1) = snakes.map (·.1) := by
  intro dead
  induction dead with
  | nil => intro snakes; rfl
  | cons pid rest ih =>
    intro snakes
    unfold finalize_deaths
    cases hl : List.lookup pid snakes with
    | none => rw [ih]
    | some s =>
      try dsimp only
      split
      · rw [ih]
      · rw [ih, keys_aset]

theorem finalize_other (now : Int) (pid : Nat) :
    ∀ (dead : List Nat) (snakes : List (Nat × Snake)),
    pid ∉ dead →
    List.lookup pid (finalize_deaths snakes dead now) = List.lookup pid snakes := by
  intro dead
  induction dead with
  | nil => intro snakes _; rfl
  | cons p rest ih =>
    intro snakes hn
    rw [List.mem_cons] at hn
    push_neg at hn
    unfold finalize_deaths
    cases hl : List.lookup p snakes with
    | none => exact ih snakes hn.2
    | some s =>
      try dsimp only
      split
      · exact ih snakes hn.2
      · rw [ih _ hn.2, lookup_aset_ne _ _ _ _ hn.1]

theorem keys_plan_phase (inputs : List (Nat × PyVal)) (fruits0 : List Fruit) (n : Nat) :
    ∀ (pids : List Nat) (snakes S2 : List (Nat × Snake)) (plans2 : List (Nat × Plan)),
    plan_phase inputs fruits0 n pids snakes = .ok (S2, plans2) →
    S2.map (·.1) = snakes.map (·.1) := by
  intro pids
  induction pids with
  | nil =>
    intro snakes S2 plans2 h
    unfold plan_phase at h
    injection h with h
    injection h with h1 h2
    rw [← h1]
  | cons pid0 rest ih =>
    intro snakes S2 plans2 h
    unfold plan_phase at h
    cases hl : List.lookup pid0 snakes with
    | none =>
      rw [hl] at h
      exact ih snakes S2 plans2 h
    | some s =>
      rw [hl] at h
      try dsimp only at h
      by_cases ha : s.alive
      · rw [if_pos ha] at h
        try dsimp only at h
        obtain ⟨nd, hnd, h⟩ := bind_ok_elim _ _ _ h
        cases hc : s.cells with
        | nil => rw [hc] at h; exact Except.noConfusion h
        | cons head tl =>
          rw [hc] at h
          try dsimp only at h
          cases hsc : step_cell head nd n with
          | none => rw [hsc] at h; exact Except.noConfusion h
          | some nhd =>
            rw [hsc] at h
            try dsimp only at h
            obtain ⟨r, hr, h⟩ := bind_ok_elim _ _ _ h
            simp only [Except.ok.injEq, Prod.mk.injEq] at h
            rw [← h.1, ih _ r.1 r.2 hr, keys_aset]
      · rw [if_neg ha] at h
        exact ih snakes S2 plans2 h

theorem plan_track (inputs : List (Nat × PyVal)) (fruits0 : List Fruit) (n : Nat) (pid : Nat) :
    ∀ (pids : List Nat) (snakes S2 : List (Nat × Snake)) (plans2 : List (Nat × Plan)),
    pids.Nodup →
    plan_phase inputs fruits0 n pids snakes = .ok (S2, plans2) →
    ∀ v : Snake, List.lookup pid snakes = some v → v.alive = true →
    (pid ∈ pids → ∃ d2 pl, List.lookup pid S2 = some { v with dir := d2 } ∧
       List.lookup pid plans2 = some pl) ∧
    (pid ∉ pids → List.lookup pid S2 = some v ∧ List.lookup pid plans2 = none) := by
  intro pids
  induction pids with
  | nil =>
    intro snakes S2 plans2 _ h v hv _
    unfold plan_phase at h
    injection h with h
    injection h with h1 h2
    constructor
    · intro hc
      exact absurd hc (List.not_mem_nil pid)
    · intro _
      rw [← h1, ← h2]
      exact ⟨hv, rfl⟩
  | cons pid0 rest ih =>
    intro snakes S2 plans2 hnodup h v hv halive
    rw [List.nodup_cons] at hnodup
    unfold plan_phase at h
    by_cases hpq : pid0 = pid
    · subst hpq
      rw [hv] at h
      try dsimp only at h
      rw [if_pos halive] at h
      try dsimp only at h
      obtain ⟨nd, hnd, h⟩ := bind_ok_elim _ _ _ h
      cases hc : v.cells with
      | nil => rw [hc] at h; exact Except.noConfusion h
      | cons head tl =>
        rw [hc] at h
        try dsimp only at h
        cases hsc : step_cell head nd n with
        | none => rw [hsc] at h; exact Except.noConfusion h
        | some nhd =>
          rw [hsc] at h
          try dsimp only at h
          obtain ⟨r, hr, h⟩ := bind_ok_elim _ _ _ h
          rw [← hc] at hr
          simp only [Except.ok.injEq, Prod.mk.injEq] at h
          have hv1 : List.lookup pid0 (aset snakes pid0 { v with dir := nhd.2 }) =
              some { v with dir := nhd.2 } := by
            rw [lookup_aset_self, hv]
            rfl
          have hrec := (ih _ r.1 r.2 hnodup.2 hr { v with dir := nhd.2 } hv1 halive).2 hnodup.1
          rw [hc] at hrec
          constructor
          · intro _
            refine ⟨nhd.2,
              { nextHead := nhd.1, newDir := nhd.2,
                eatValue := match fruit_by_cell fruits0 nhd.1 with
                            | some f => f.value
                            | none => 0 }, ?_, ?_⟩
            · rw [← h.1]
              exact hrec.1
            · rw [← h.2]
              simp [List.lookup]
          · intro hn
            exact absurd (List.mem_cons_self pid0 rest) hn
    · cases hl : List.lookup pid0 snakes with
      | none =>
        rw [hl] at h
        have hrec := ih snakes S2 plans2 hnodup.2 h v hv halive
        constructor
        · intro hm
          rcases List.mem_cons.mp hm with he | hm2
          · exact absurd he.symm hpq
          · exact hrec.1 hm2
        · intro hn
          rw [List.mem_cons] at hn
          push_neg at hn
          exact hrec.2 hn.2
      | some s =>
        rw [hl] at h
        try dsimp only at h
        by_cases ha : s.alive
        · rw [if_pos ha] at h
          try dsimp only at h
          obtain ⟨nd, hnd, h⟩ := bind_ok_elim _ _ _ h
          cases hc : s.cells with
          | nil => rw [hc] at h; exact Except.noConfusion h
          | cons head tl =>
            rw [hc] at h
            try dsimp only at h
            cases hsc : step_cell head nd n with
            | none => rw [hsc] at h; exact Except.noConfusion h
            | some nhd =>
              rw [hsc] at h
              try dsimp only at h
              obtain ⟨r, hr, h⟩ := bind_ok_elim _ _ _ h
              rw [← hc] at hr
              simp only [Except.ok.injEq, Prod.mk.injEq] at h
              have hv1 : List.lookup pid (aset snakes pid0 { s with dir := nhd.2 }) = some v := by
                rw [lookup_aset_ne _ _ _ _ (fun he => hpq he.symm)]
                exact hv
              have hrec := ih _ r.1 r.2 hnodup.2 hr v hv1 halive
              have hplk : List.lookup pid ((pid0,
                  { nextHead := nhd.1, newDir := nhd.2,
                    eatValue := match fruit_by_cell fruits0 nhd.1 with
                                | some f => f.value
                                | none => 0 }) :: r.2) = List.lookup pid r.2 := by
                have hb : (pid == pid0) = false := by
                  simpa using fun he => hpq he.symm
                rw [List.lookup]
                simp only [hb]
              constructor
              · intro hm
                rcases List.mem_cons.mp hm with he | hm2
                · exact absurd he.symm hpq
                · obtain ⟨d2, pl, hs2, hp2⟩ := hrec.1 hm2
                  refine ⟨d2, pl, ?_, ?_⟩
                  · rw [← h.1]
                    exact hs2
                  · rw [← h.2, hplk]
                    exact hp2
              · intro hn
                rw [List.mem_cons] at hn
                push_neg at hn
                obtain ⟨hs2, hp2⟩ := hrec.2 hn.2
                refine ⟨?_, ?_⟩
                · rw [← h.1]
                  exact hs2
                · rw [← h.2, hplk]
                  exact hp2
        · rw [if_neg ha] at h
          have hrec := ih snakes S2 plans2 hnodup.2 h v hv halive
          constructor
          · intro hm
            rcases List.mem_cons.mp hm with he | hm2
            · exact absurd he.symm hpq
            · exact hrec.1 hm2
          · intro hn
            rw [List.mem_cons] at hn
            push_neg at hn
            exact hrec.2 hn.2

theorem keys_move_phase (plans : List (Nat × Plan)) (fruits0 : List Fruit) :
    ∀ (pids : List Nat) (snakes S3 : List (Nat × Snake)) (fruits F3 : List Fruit)
      (ncs : List (Nat × List Nat)),
    move_phase plans fruits0 pids snakes fruits = .ok (S3, F3, ncs) →
    S3.map (·.1) = snakes.map (·.1) := by
  intro pids
  induction pids with
  | nil =>
    intro snakes S3 fruits F3 ncs h
    unfold move_phase at h
    injection h with h
    simp only [Prod.mk.injEq] at h
    rw [← h.1]
  | cons pid0 rest ih =>
    intro snakes S3 fruits F3 ncs h
    unfold move_phase at h
    cases hl : List.lookup pid0 snakes with
    | none =>
      rw [hl] at h
      exact ih snakes S3 fruits F3 ncs h
    | some s =>
      rw [hl] at h
      try dsimp only at h
      by_cases ha : s.alive
      · rw [if_pos ha] at h
        cases hpl : List.lookup pid0 plans with
        | none => rw [hpl] at h; exact Except.noConfusion h
        | some pl =>
          rw [hpl] at h
          try dsimp only at h
          obtain ⟨r, hr, h⟩ := bind_ok_elim _ _ _ h
          simp only [Except.ok.injEq, Prod.mk.injEq] at h
          rw [← h.1, ih _ r.1 _ r.2.1 r.2.2 hr, keys_aset]
      · rw [if_neg ha] at h
        exact ih snakes S3 fruits F3 ncs h

theorem move_track (plans : List (Nat × Plan)) (fruits0 : List Fruit) (pid : Nat) :
    ∀ (pids : List Nat) (snakes S3 : List (Nat × Snake)) (fruits F3 : List Fruit)
      (ncs : List (Nat × List Nat)),
    pids.Nodup →
    move_phase plans fruits0 pids snakes fruits = .ok (S3, F3, ncs) →
    ∀ v : Snake, List.lookup pid snakes = some v → v.alive = true →
    (pid ∈ pids → ∀ pl, List.lookup pid plans = some pl → pl.eatValue = 0 →
        0 < v.pendingGrowth →
        List.lookup pid S3 = some { v with pendingGrowth := v.pendingGrowth - 1 } ∧
        ∃ pre post, ncs = pre ++ (pid, pl.nextHead :: v.cells) :: post ∧
          pid ∉ pre.map (·.1) ∧ pid ∉ post.map (·.1)) ∧
    (pid ∉ pids → List.lookup pid S3 = some v ∧ pid ∉ ncs.map (·.1)) := by
  intro pids
  induction pids with
  | nil =>
    intro snakes S3 fruits F3 ncs _ h v hv _
    unfold move_phase at h
    injection h with h
    simp only [Prod.mk.injEq] at h
    constructor
    · intro hc
      exact absurd hc (List.not_mem_nil pid)
    · intro _
      rw [← h.1, ← h.2.2]
      exact ⟨hv, by simp⟩
  | cons pid0 rest ih =>
    intro snakes S3 fruits F3 ncs hnodup h v hv halive
    rw [List.nodup_cons] at hnodup
    unfold move_phase at h
    by_cases hpq : pid0 = pid
    · subst hpq
      rw [hv] at h
      try dsimp only at h
      rw [if_pos halive] at h
      constructor
      · intro _ pl hpl hev hg
        rw [hpl] at h
        try dsimp only at h
        have hupd : move_snake_update v pl fruits0 fruits =
            ({ v with pendingGrowth := v.pendingGrowth - 1 }, fruits,
             pl.nextHead :: v.cells) := by
          unfold move_snake_update
          try dsimp only
          rw [if_pos hg]
          try dsimp only
          rw [if_neg (by rw [hev]; exact lt_irrefl 0 : ¬pl.eatValue > 0)]
        rw [hupd] at h
        try dsimp only at h
        obtain ⟨r, hr, h⟩ := bind_ok_elim _ _ _ h
        simp only [Except.ok.injEq, Prod.mk.injEq] at h
        have hv1 : List.lookup pid0
            (aset snakes pid0 { v with pendingGrowth := v.pendingGrowth - 1 }) =
            some { v with pendingGrowth := v.pendingGrowth - 1 } := by
          rw [lookup_aset_self, hv]
          rfl
        have hrec := (ih _ r.1 _ r.2.1 r.2.2 hnodup.2 hr
          { v with pendingGrowth := v.pendingGrowth - 1 } hv1 halive).2 hnodup.1
        constructor
        · rw [← h.1]
          exact hrec.1
        · refine ⟨[], r.2.2, ?_, by simp, hrec.2⟩
          rw [← h.2.2]
          rfl
      · intro hn
        exact absurd (List.mem_cons_self pid0 rest) hn
    · cases hl : List.lookup pid0 snakes with
      | none =>
        rw [hl] at h
        have hrec := ih snakes S3 fruits F3 ncs hnodup.2 h v hv halive
        constructor
        · intro hm pl hpl hev hg
          rcases List.mem_cons.mp hm with he | hm2
          · exact absurd he.symm hpq
          · exact hrec.1 hm2 pl hpl hev hg
        · intro hn
          rw [List.mem_cons] at hn
          push_neg at hn
          exact hrec.2 hn.2
      | some s =>
        rw [hl] at h
        try dsimp only at h
        by_cases ha : s.alive
        · rw [if_pos ha] at h
          cases hpl0 : List.lookup pid0 plans with
          | none => rw [hpl0] at h; exact Except.noConfusion h
          | some pl0 =>
            rw [hpl0] at h
            try dsimp only at h
            obtain ⟨r, hr, h⟩ := bind_ok_elim _ _ _ h
            simp only [Except.ok.injEq, Prod.mk.injEq] at h
            have hv1 : List.lookup pid
                (aset snakes pid0 (move_snake_update s pl0 fruits0 fruits).1) = some v := by
              rw [lookup_aset_ne _ _ _ _ (fun he => hpq he.symm)]
              exact hv
            have hrec := ih _ r.1 _ r.2.1 r.2.2 hnodup.2 hr v hv1 halive
            constructor
            · intro hm pl hpl hev hg
              rcases List.mem_cons.mp hm with he | hm2
              · exact absurd he.symm hpq
              · obtain ⟨hs3, pre, post, hsplit, hpre, hpost⟩ := hrec.1 hm2 pl hpl hev hg
                refine ⟨by rw [← h.1]; exact hs3,
                  (pid0, (move_snake_update s pl0 fruits0 fruits).2.2) :: pre, post, ?_, ?_, hpost⟩
                · rw [← h.2.2, hsplit]
                  rfl
                · simp only [List.map_cons, List.mem_cons]
                  push_neg
                  exact ⟨fun he => hpq he.symm, by simpa using hpre⟩
            · intro hn
              rw [List.mem_cons] at hn
              push_neg at hn
              obtain ⟨hs3, hnc⟩ := hrec.2 hn.2
              refine ⟨by rw [← h.1]; exact hs3, ?_⟩
              rw [← h.2.2]
              simp only [List.map_cons, List.mem_cons]
              push_neg
              exact ⟨hn.1, by simpa using hnc⟩
        · rw [if_neg ha] at h
          have hrec := ih snakes S3 fruits F3 ncs hnodup.2 h v hv halive
          constructor
          · intro hm pl hpl hev hg
            rcases List.mem_cons.mp hm with he | hm2
            · exact absurd he.symm hpq
            · exact hrec.1 hm2 pl hpl hev hg
          · intro hn
            rw [List.mem_cons] at hn
            push_neg at hn
            exact hrec.2 hn.2

theorem add_score_fields (snakes S2 : List (Nat × Snake)) (p x q : Nat)
    (h : add_score snakes p x = .ok S2) (s : Snake)
    (hq : List.lookup q snakes = some s) :
    ∃ s', List.lookup q S2 = some s' ∧ s'.cells = s.cells ∧ s'.alive = s.alive ∧
      s'.pendingGrowth = s.pendingGrowth := by
  unfold add_score at h
  cases hl : List.lookup p snakes with
  | none => rw [hl] at h; exact Except.noConfusion h
  | some t =>
    rw [hl] at h
    injection h with h
    subst h
    by_cases hqp : q = p
    · subst hqp
      rw [lookup_aupdate_self, hq]
      exact ⟨_, rfl, rfl, rfl, rfl⟩
    · rw [lookup_aupdate_ne _ _ _ _ hqp]
      exact ⟨s, hq, rfl, rfl, rfl⟩

theorem add_scores_fields (x q : Nat) :
    ∀ (pids : List Nat) (snakes S2 : List (Nat × Snake)),
    add_scores snakes pids x = .ok S2 →
    ∀ s : Snake, List.lookup q snakes = some s →
    ∃ s', List.lookup q S2 = some s' ∧ s'.cells = s.cells ∧ s'.alive = s.alive ∧
      s'.pendingGrowth = s.pendingGrowth := by
  intro pids
  induction pids with
  | nil =>
    intro snakes S2 h s hq
    unfold add_scores at h
    injection h with h
    exact h ▸ ⟨s, hq, rfl, rfl, rfl⟩
  | cons p rest ih =>
    intro snakes S2 h s hq
    unfold add_scores at h
    obtain ⟨s1, h1, h2⟩ := bind_ok_elim _ _ _ h
    obtain ⟨t, ht, htc, hta, htg⟩ := add_score_fields snakes s1 p x q h1 s hq
    obtain ⟨u, hu, huc, hua, hug⟩ := ih s1 S2 h2 t ht
    exact ⟨u, hu, huc.trans htc, hua.trans hta, hug.trans htg⟩

theorem award_segments_fields (attackersAt : Nat → List Nat) (oldLen q : Nat) :
    ∀ (pts : List Nat) (snakes S2 : List (Nat × Snake)),
    award_segments snakes pts attackersAt oldLen = .ok S2 →
    ∀ s : Snake, List.lookup q snakes = some s →
    ∃ s', List.lookup q S2 = some s' ∧ s'.cells = s.cells ∧ s'.alive = s.alive ∧
      s'.pendingGrowth = s.pendingGrowth := by
  intro pts
  induction pts with
  | nil =>
    intro snakes S2 h s hq
    unfold award_segments at h
    injection h with h
    exact h ▸ ⟨s, hq, rfl, rfl, rfl⟩
  | cons k rest ih =>
    intro snakes S2 h s hq
    unfold award_segments at h
    try dsimp only at h
    cases hat : nat_sort (attackersAt k) with
    | nil =>
      rw [hat] at h
      exact ih snakes S2 h s hq
    | cons a0 arest =>
      rw [hat] at h
      try dsimp only at h
      split at h
      · exact ih snakes S2 h s hq
      · obtain ⟨s1, h1, h⟩ := bind_ok_elim _ _ _ h
        split at h
        · obtain ⟨s2, h2, h⟩ := bind_ok_elim _ _ _ h
          obtain ⟨t, ht, htc, hta, htg⟩ := add_scores_fields _ q _ snakes s1 h1 s hq
          obtain ⟨u, hu, huc, hua, hug⟩ := add_score_fields s1 s2 a0 _ q h2 t ht
          obtain ⟨w, hw, hwc, hwa, hwg⟩ := ih s2 S2 h u hu
          exact ⟨w, hw, (hwc.trans huc).trans htc, (hwa.trans hua).trans hta,
            (hwg.trans hug).trans htg⟩
        · obtain ⟨s2, h2, h⟩ := bind_ok_elim _ _ _ h
          injection h2 with h2
          subst h2
          obtain ⟨t, ht, htc, hta, htg⟩ := add_scores_fields _ q _ snakes s1 h1 s hq
          obtain ⟨w, hw, hwc, hwa, hwg⟩ := ih s1 S2 h t ht
          exact ⟨w, hw, hwc.trans htc, hwa.trans hta, hwg.trans htg⟩

theorem keys_process_victim (snakes S2 : List (Nat × Snake)) (dead dead2 : List Nat)
    (vtm : Nat) (vbites : List (Nat × Nat))
    (h : process_victim snakes dead vtm vbites = .ok (S2, dead2)) :
    S2.map (·.1) = snakes.map (·.1) := by
  unfold process_victim at h
  cases hl : List.lookup vtm snakes with
  | none =>
    rw [hl] at h
    try dsimp only at h
    injection h with h
    have hS : snakes = S2 := congrArg Prod.fst h
    rw [← hS]
  | some vv =>
    rw [hl] at h
    try dsimp only at h
    split at h
    · injection h with h
      have hS : snakes = S2 := congrArg Prod.fst h
      rw [← hS]
    · cases hpts : nat_sort (first_seen (vbites.map (·.1))) with
      | nil =>
        rw [hpts] at h
        exact Except.noConfusion h
      | cons cut restPts =>
        rw [hpts] at h
        try dsimp only at h
        obtain ⟨snakes2, haw, h⟩ := bind_ok_elim _ _ _ h
        cases hl2 : List.lookup vtm snakes2 with
        | none => rw [hl2] at h; exact Except.noConfusion h
        | some v2 =>
          rw [hl2] at h
          try dsimp only at h
          injection h with h
          have hS : snakes2 = S2 := congrArg Prod.fst h
          rw [← hS, keys_award_segments _ _ _ _ snakes2 haw, keys_aupdate]

theorem process_victim_fields (snakes S2 : List (Nat × Snake)) (dead dead2 : List Nat)
    (vtm pid : Nat) (vbites : List (Nat × Nat))
    (hne : vtm ≠ pid)
    (h : process_victim snakes dead vtm vbites = .ok (S2, dead2)) :
    (∀ s : Snake, List.lookup pid snakes = some s →
      ∃ s', List.lookup pid S2 = some s' ∧ s'.cells = s.cells ∧ s'.alive = s.alive ∧
        s'.pendingGrowth = s.pendingGrowth) ∧
    (pid ∈ dead2 ↔ pid ∈ dead) := by
  unfold process_victim at h
  cases hl : List.lookup vtm snakes with
  | none =>
    rw [hl] at h
    try dsimp only at h
    injection h with h
    have hS : snakes = S2 := congrArg Prod.fst h
    have hD : dead = dead2 := congrArg Prod.snd h
    rw [← hS, ← hD]
    exact ⟨fun s hq => ⟨s, hq, rfl, rfl, rfl⟩, Iff.rfl⟩
  | some vv =>
    rw [hl] at h
    try dsimp only at h
    split at h
    · injection h with h
      have hS : snakes = S2 := congrArg Prod.fst h
      have hD : dead = dead2 := congrArg Prod.snd h
      rw [← hS, ← hD]
      exact ⟨fun s hq => ⟨s, hq, rfl, rfl, rfl⟩, Iff.rfl⟩
    · cases hpts : nat_sort (first_seen (vbites.map (·.1))) with
      | nil =>
        rw [hpts] at h
        exact Except.noConfusion h
      | cons cut restPts =>
        rw [hpts] at h
        try dsimp only at h
        obtain ⟨snakes2, haw, h⟩ := bind_ok_elim _ _ _ h
        cases hl2 : List.lookup vtm snakes2 with
        | none => rw [hl2] at h; exact Except.noConfusion h
        | some v2 =>
          rw [hl2] at h
          try dsimp only at h
          injection h with h
          have hS : snakes2 = S2 := congrArg Prod.fst h
          have hD : (if v2.cells.length < 4 then dead ++ [vtm] else dead) = dead2 :=
            congrArg Prod.snd h
          constructor
          · intro s hq
            have hq1 : List.lookup pid (aupdate snakes vtm
                (fun t => { t with cells := t.cells.take cut })) = some s := by
              rw [lookup_aupdate_ne _ _ _ _ (fun he => hne he.symm)]
              exact hq
            obtain ⟨s', hs', hc, ha, hg⟩ := award_segments_fields _ _ pid
              (cut :: restPts) _ snakes2 haw s hq1
            exact ⟨s', hS ▸ hs', hc, ha, hg⟩
          · rw [← hD]
            split
            · rw [List.mem_append, List.mem_singleton]
              constructor
              · rintro (hx | hx)
                · exact hx
                · exact absurd hx.symm hne
              · exact Or.inl
            · exact Iff.rfl

theorem keys_bite_loop (bites : List (Nat × Nat × Nat)) :
    ∀ (victims : List Nat) (acc : List (Nat × Snake) × List Nat)
      (out : List (Nat × Snake) × List Nat),
    bite_loop bites victims acc = .ok out → out.1.map (·.1) = acc.1.map (·.1) := by
  intro victims
  induction victims with
  | nil =>
    intro acc out h
    unfold bite_loop at h
    injection h with h
    rw [← h]
  | cons vtm rest ih =>
    intro acc out h
    unfold bite_loop at h
    obtain ⟨nxt, h1, h2⟩ := bind_ok_elim _ _ _ h
    rw [ih nxt out h2,
      keys_process_victim acc.1 nxt.1 acc.2 nxt.2 vtm _ (by rw [← h1])]

theorem bite_loop_fields (bites : List (Nat × Nat × Nat)) (pid : Nat) :
    ∀ (victims : List Nat) (acc out : List (Nat × Snake) × List Nat),
    bite_loop bites victims acc = .ok out → pid ∉ victims →
    (∀ s : Snake, List.lookup pid acc.1 = some s →
      ∃ s', List.lookup pid out.1 = some s' ∧ s'.cells = s.cells ∧ s'.alive = s.alive ∧
        s'.pendingGrowth = s.pendingGrowth) ∧
    (pid ∈ out.2 ↔ pid ∈ acc.2) := by
  intro victims
  induction victims with
  | nil =>
    intro acc out h _
    unfold bite_loop at h
    injection h with h
    rw [← h]
    exact ⟨fun s hq => ⟨s, hq, rfl, rfl, rfl⟩, Iff.rfl⟩
  | cons vtm rest ih =>
    intro acc out h hpid
    unfold bite_loop at h
    obtain ⟨nxt, h1, h2⟩ := bind_ok_elim _ _ _ h
    rw [List.mem_cons] at hpid
    push_neg at hpid
    obtain ⟨hf1, hd1⟩ := process_victim_fields acc.1 nxt.1 acc.2 nxt.2 vtm pid _
      (fun he => hpid.1 he.symm) (by rw [← h1])
    obtain ⟨hf2, hd2⟩ := ih nxt out h2 hpid.2
    constructor
    · intro s hq
      obtain ⟨t, ht, htc, hta, htg⟩ := hf1 s hq
      obtain ⟨u, hu, huc, hua, hug⟩ := hf2 t ht
      exact ⟨u, hu, huc.trans htc, hua.trans hta, hug.trans htg⟩
    · exact hd2.trans hd1

/-- The per-tick conditions of the amended growth claim, read off the tick
phases: the snake's plan pops no fruit, it is not in the head-on dead set,
and no collected bite record names it as victim. -/
def quiet_for (pid : Nat) (st : GameState) (inputs : List (Nat × PyVal)) (now : Int) : Prop :=
  match respawn_pass st.fruits st.settings.cubeN now (st.snakes.map (·.1)) st.snakes st.rng with
  | .error _ => True
  | .ok (snakes1, _) =>
    match plan_phase inputs st.fruits st.settings.cubeN (snakes1.map (·.1)) snakes1 with
    | .error _ => True
    | .ok (snakes2, plans) =>
      (match List.lookup pid plans with
       | some pl => pl.eatValue = 0
       | none => True) ∧
      match move_phase plans st.fruits (snakes2.map (·.1)) snakes2 st.fruits with
      | .error _ => True
      | .ok (snakes3, _, newCells) =>
        match alive_heads (apply_new_cells snakes3 newCells) with
        | .error _ => True
        | .ok heads =>
          pid ∉ head_on_dead heads ∧
          match collect_bites (apply_new_cells snakes3 newCells) (head_on_dead heads)
              (apply_new_cells snakes3 newCells) with
          | .error _ => True
          | .ok bites => ∀ r ∈ bites, r.1 ≠ pid

theorem tick_growth (st : GameState) (inputs : List (Nat × PyVal)) (now : Int)
    (st2 : GameState) (pid : Nat) (v : Snake)
    (hnodup : (st.snakes.map (·.1)).Nodup)
    (hv : List.lookup pid st.snakes = some v)
    (halive : v.alive = true)
    (hg : 0 < v.pendingGrowth)
    (hq : quiet_for pid st inputs now)
    (h : tick st inputs now = .ok st2) :
    ∃ v2, List.lookup pid st2.snakes = some v2 ∧ v2.alive = true ∧
      v2.cells.length = v.cells.length + 1 ∧
      v2.pendingGrowth = v.pendingGrowth - 1 ∧
      st2.snakes.map (·.1) = st.snakes.map (·.1) := by
  unfold tick at h
  obtain ⟨q, hcore, h⟩ := bind_ok_elim _ _ _ h
  obtain ⟨S, D, F, R⟩ := q
  try dsimp only at h
  obtain ⟨fr, hef, h⟩ := bind_ok_elim _ _ _ h
  injection h with h
  have hsn : st2.snakes = finalize_deaths S D now := by rw [← h]
  unfold tick_core at hcore
  try dsimp only at hcore
  obtain ⟨p1, h1, hcore⟩ := bind_ok_elim _ _ _ hcore
  obtain ⟨S1, R1⟩ := p1
  try dsimp only at hcore
  obtain ⟨p2, h2, hcore⟩ := bind_ok_elim _ _ _ hcore
  obtain ⟨S2, plans0⟩ := p2
  try dsimp only at hcore
  obtain ⟨p3, h3, hcore⟩ := bind_ok_elim _ _ _ hcore
  obtain ⟨S3, F3, NC⟩ := p3
  try dsimp only at hcore
  obtain ⟨hds, h4, hcore⟩ := bind_ok_elim _ _ _ hcore
  try dsimp only at hcore
  obtain ⟨p5, h5, hcore⟩ := bind_ok_elim _ _ _ hcore
  obtain ⟨S5, D1⟩ := p5
  try dsimp only at hcore
  simp only [Except.ok.injEq, Prod.mk.injEq] at hcore
  obtain ⟨hS, hD, hF, hR⟩ := hcore
  unfold quiet_for at hq
  rw [h1] at hq
  try dsimp only at hq
  rw [h2] at hq
  try dsimp only at hq
  rw [h3] at hq
  try dsimp only at hq
  rw [h4] at hq
  try dsimp only at hq
  unfold bite_phase at h5
  obtain ⟨bites, hb, h5⟩ := bind_ok_elim _ _ _ h5
  rw [hb] at hq
  try dsimp only at hq
  have hvs1 : List.lookup pid S1 = some v :=
    respawn_track st.fruits st.settings.cubeN now pid v halive _ st.snakes st.rng S1 R1 h1 hv
  have hk1 : S1.map (·.1) = st.snakes.map (·.1) :=
    keys_respawn_pass st.fruits st.settings.cubeN now _ st.snakes st.rng S1 R1 h1
  have hn1 : (S1.map (·.1)).Nodup := hk1 ▸ hnodup
  have hm1 : pid ∈ S1.map (·.1) := lookup_mem_keys S1 pid v hvs1
  obtain ⟨d2, pl, hvs2, hplk⟩ :=
    (plan_track inputs st.fruits st.settings.cubeN pid _ S1 S2 plans0 hn1 h2 v hvs1 halive).1 hm1
  rw [hplk] at hq
  try dsimp only at hq
  have hev : pl.eatValue = 0 := hq.1
  have hk2 : S2.map (·.1) = S1.map (·.1) :=
    keys_plan_phase inputs st.fruits st.settings.cubeN _ S1 S2 plans0 h2
  have hn2 : (S2.map (·.1)).Nodup := hk2 ▸ hn1
  have hm2 : pid ∈ S2.map (·.1) := lookup_mem_keys S2 pid _ hvs2
  obtain ⟨hvs3, pre, post, hncs, hpre, hpost⟩ :=
    (move_track plans0 st.fruits pid _ S2 S3 st.fruits F3 NC hn2 h3
      { v with dir := d2 } hvs2 halive).1 hm2 pl hplk hev hg
  have hvs4 : List.lookup pid (apply_new_cells S3 NC) =
      some { v with dir := d2, pendingGrowth := v.pendingGrowth - 1, cells := pl.nextHead :: v.cells } := by
    rw [hncs]
    exact apply_new_cells_track pid _ pre post hpre hpost S3 _ hvs3
  have hnv : pid ∉ first_seen (bites.map (·.1)) := by
    rw [mem_first_seen]
    intro hc
    rcases List.mem_map.mp hc with ⟨r, hr, hr1⟩
    exact hq.2.2 r hr hr1
  obtain ⟨hf, hdd⟩ := bite_loop_fields bites pid _ _ (S5, D1) h5 hnv
  obtain ⟨v5, hvs5, hc5, ha5, hg5⟩ := hf _ hvs4
  have hpd : pid ∉ D := by
    rw [← hD]
    intro hc
    exact hq.2.1 (hdd.mp hc)
  refine ⟨v5, ?_, ?_, ?_, ?_, ?_⟩
  · rw [hsn, finalize_other now pid D S hpd, ← hS]
    exact hvs5
  · exact ha5.trans halive
  · rw [hc5]
    simp
  · exact hg5
  · rw [hsn, keys_finalize_deaths now D S, ← hS,
      keys_bite_loop bites _ _ (S5, D1) h5]
    try dsimp only
    rw [keys_apply_new_cells NC S3,
      keys_move_phase plans0 st.fruits _ S2 S3 st.fruits F3 NC h3, hk2, hk1]

/-- A run of consecutive tick calls during which the tracked snake eats
nothing, is never a bite victim, and is not in any head-on dead set. -/
inductive quiet_run (pid : Nat) : GameState → List (List (Nat × PyVal) × Int) → GameState → Prop
  | nil (st : GameState) : quiet_run pid st [] st
  | cons (st : GameState) (step : List (Nat × PyVal) × Int) (st2 st3 : GameState)
      (rest : List (List (Nat × PyVal) × Int)) :
      tick st step.1 step.2 = .ok st2 →
      quiet_for pid st step.1 step.2 →
      quiet_run pid st2 rest st3 →
      quiet_run pid st (step :: rest) st3

/-- Claim C6 (amended): after a snake eats a value-k fruit its pendingGrowth
is at least k; over any k following ticks in which it does not eat again, is
not bitten, and is not head-on dead, its body length grows by exactly k (one
cell per tick, the tail not being dropped), and its pendingGrowth drops by k.
The original claim, which does not exclude being bitten, is refuted by
C6_counterexample. -/
theorem C6_fruit_growth :
    ∀ (steps : List (List (Nat × PyVal) × Int)) (st st2 : GameState) (pid : Nat) (v : Snake),
    quiet_run pid st steps st2 →
    (st.snakes.map (·.1)).Nodup →
    List.lookup pid st.snakes = some v →
    v.alive = true →
    steps.length ≤ v.pendingGrowth →
    ∃ v2, List.lookup pid st2.snakes = some v2 ∧ v2.alive = true ∧
      v2.cells.length = v.cells.length + steps.length ∧
      v2.pendingGrowth = v.pendingGrowth - steps.length := by
  intro steps
  induction steps with
  | nil =>
    intro st st2 pid v hrun hnodup hv halive _
    cases hrun
    exact ⟨v, hv, halive, by simp, by simp⟩
  | cons step rest ih =>
    intro st st2 pid v hrun hnodup hv halive hlen
    cases hrun with
    | cons _ _ stm _ _ htick hq hrest =>
      rw [List.length_cons] at hlen
      have hg : 0 < v.pendingGrowth := by omega
      obtain ⟨v2, hv2, ha2, hc2, hp2, hk2⟩ :=
        tick_growth st step.1 step.2 stm pid v hnodup hv halive hg hq htick
      have hn2 : (stm.snakes.map (·.1)).Nodup := hk2 ▸ hnodup
      have hlen2 : rest.length ≤ v2.pendingGrowth := by omega
      obtain ⟨v3, hv3, ha3, hc3, hp3⟩ := ih stm st2 pid v2 hrest hn2 hv2 ha2 hlen2
      refine ⟨v3, hv3, ha3, ?_, ?_⟩
      · rw [hc3, hc2, List.length_cons]
        omega
      · rw [hp3, hp2, List.length_cons]
        omega

/-- Counterexample scenario for the unamended growth claim: snake 1 eats a
value-2 fruit on the first tick, then is bitten by snake 2 on the third. -/
def c6A : Snake :=
  { playerId := 1, alive := true, dir := 2, cells := [274, 266, 258, 259, 260, 261],
    pendingGrowth := 0, score := 0, respawnAtMs := none }

def c6B : Snake :=
  { playerId := 2, alive := true, dir := 3, cells := [269, 270, 271, 279],
    pendingGrowth := 0, score := 0, respawnAtMs := none }

def c6st0 : GameState :=
  { seed := 0, rng := { stream := fun _ => 0, pos := 0, nextId := 1 },
    settings := { cubeN := 8, roundSeconds := 180, tickRate := 12, fruitTarget := 0 },
    tick := 0, startServerTimeMs := 0, endsAtMs := 1000000000,
    snakes := [(1, c6A), (2, c6B)],
    fruits := [{ id := 0, cell := 282, kind := .berry, value := 2 }] }

/-- The state after the eating tick: snake 1 has eaten the fruit (score and
pendingGrowth 2), both snakes have moved, the board has no fruit left. -/
def c6st1 : GameState :=
  { seed := 0, rng := { stream := fun _ => 0, pos := 0, nextId := 1 },
    settings := { cubeN := 8, roundSeconds := 180, tickRate := 12, fruitTarget := 0 },
    tick := 1, startServerTimeMs := 0, endsAtMs := 1000000000,
    snakes := [(1, { playerId := 1, alive := true, dir := 2,
                     cells := [282, 274, 266, 258, 259, 260],
                     pendingGrowth := 2, score := 2, respawnAtMs := none }),
               (2, { playerId := 2, alive := true, dir := 3,
                     cells := [268, 269, 270, 271],
                     pendingGrowth := 0, score := 0, respawnAtMs := none })],
    fruits := [] }

/-- After the first quiet tick: snake 1 grew to 7 cells. -/
def c6st2 : GameState :=
  { seed := 0, rng := { stream := fun _ => 0, pos := 0, nextId := 1 },
    settings := { cubeN := 8, roundSeconds := 180, tickRate := 12, fruitTarget := 0 },
    tick := 2, startServerTimeMs := 0, endsAtMs := 1000000000,
    snakes := [(1, { playerId := 1, alive := true, dir := 2,
                     cells := [290, 282, 274, 266, 258, 259, 260],
                     pendingGrowth := 1, score := 2, respawnAtMs := none }),
               (2, { playerId := 2, alive := true, dir := 3,
                     cells := [267, 268, 269, 270],
                     pendingGrowth := 0, score := 0, respawnAtMs := none })],
    fruits := [] }

/-- After the second following tick: snake 2 has bitten snake 1 at segment 4,
truncating it to 4 cells; snake 1 survives. -/
def c6st3 : GameState :=
  { seed := 0, rng := { stream := fun _ => 0, pos := 0, nextId := 1 },
    settings := { cubeN := 8, roundSeconds := 180, tickRate := 12, fruitTarget := 0 },
    tick := 3, startServerTimeMs := 0, endsAtMs := 1000000000,
    snakes := [(1, { playerId := 1, alive := true, dir := 2,
                     cells := [298, 290, 282, 274],
                     pendingGrowth := 0, score := 2, respawnAtMs := none }),
               (2, { playerId := 2, alive := true, dir := 3,
                     cells := [266, 267, 268, 269],
                     pendingGrowth := 0, score := 4, respawnAtMs := none })],
    fruits := [] }

def c6v1 : Snake := (List.lookup 1 c6st1.snakes).getD c6A

def c6v3 : Snake := (List.lookup 1 c6st3.snakes).getD c6A

set_option maxHeartbeats 4000000 in
/-- Claim C6 is false as stated: snake 1 eats a value-2 fruit on the first
tick (score and pendingGrowth rise by 2, length still 6); during the two
following ticks there is no fruit at all to eat and the snake stays alive
(it is bitten, surviving with 4 cells), yet its final length is 4, not
6 + 2. -/
theorem C6_counterexample :
    tick c6st0 [] 0 = .ok c6st1 ∧ tick c6st1 [] 0 = .ok c6st2 ∧
    tick c6st2 [] 0 = .ok c6st3 ∧
    List.lookup 1 c6st1.snakes = some c6v1 ∧
    c6v1.pendingGrowth = 2 ∧ c6v1.score = c6A.score + 2 ∧ c6v1.alive = true ∧
    c6v1.cells.length = 6 ∧
    c6st1.fruits = [] ∧ c6st2.fruits = [] ∧
    (∃ vmid, List.lookup 1 c6st2.snakes = some vmid ∧ vmid.alive = true ∧
      vmid.score = c6v1.score) ∧
    List.lookup 1 c6st3.snakes = some c6v3 ∧ c6v3.alive = true ∧
    c6v3.score = c6v1.score ∧
    c6v3.cells.length ≠ c6v1.cells.length + 2 := by
  refine ⟨rfl, rfl, rfl, rfl, rfl, rfl, rfl, rfl, rfl, rfl, ⟨_, rfl, rfl, rfl⟩,
    rfl, rfl, rfl, by decide⟩

/-- Quiet-growth scenario: a lone snake with pendingGrowth 2 runs two ticks
with no fruit on the board. -/
def c6W : Snake :=
  { playerId := 1, alive := true, dir := 2, cells := [274, 266, 258],
    pendingGrowth := 2, score := 7, respawnAtMs := none }

def c6wst0 : GameState :=
  { seed := 0, rng := { stream := fun _ => 0, pos := 0, nextId := 1 },
    settings := { cubeN := 8, roundSeconds := 180, tickRate := 12, fruitTarget := 0 },
    tick := 0, startServerTimeMs := 0, endsAtMs := 1000000000,
    snakes := [(1, c6W)], fruits := [] }

def c6wst1 : GameState :=
  { seed := 0, rng := { stream := fun _ => 0, pos := 0, nextId := 1 },
    settings := { cubeN := 8, roundSeconds := 180, tickRate := 12, fruitTarget := 0 },
    tick := 1, startServerTimeMs := 0, endsAtMs := 1000000000,
    snakes := [(1, { playerId := 1, alive := true, dir := 2,
                     cells := [282, 274, 266, 258],
                     pendingGrowth := 1, score := 7, respawnAtMs := none })],
    fruits := [] }

def c6wst2 : GameState :=
  { seed := 0, rng := { stream := fun _ => 0, pos := 0, nextId := 1 },
    settings := { cubeN := 8, roundSeconds := 180, tickRate := 12, fruitTarget := 0 },
    tick := 2, startServerTimeMs := 0, endsAtMs := 1000000000,
    snakes := [(1, { playerId := 1, alive := true, dir := 2,
                     cells := [290, 282, 274, 266, 258],
                     pendingGrowth := 0, score := 7, respawnAtMs := none })],
    fruits := [] }

set_option maxHeartbeats 4000000 in
/-- The amended growth theorem instantiated on the quiet scenario: over two
quiet ticks the snake grows from 3 to 5 cells and pendingGrowth drops to 0. -/
theorem C6_fruit_growth_witness :
    ∃ v2, List.lookup 1 c6wst2.snakes = some v2 ∧ v2.alive = true ∧
      v2.cells.length = c6W.cells.length + 2 ∧
      v2.pendingGrowth = c6W.pendingGrowth - 2 :=
  C6_fruit_growth [([], 0), ([], 0)] c6wst0 c6wst2 1 c6W
    (quiet_run.cons c6wst0 ([], 0) c6wst1 c6wst2 [([], 0)] (by rfl)
        (by exact ⟨rfl, by show (1 : Nat) ∉ head_on_dead [(1, 282)]; decide,
          by intro r hr; exact absurd hr (List.not_mem_nil r)⟩)
      (quiet_run.cons c6wst1 ([], 0) c6wst2 c6wst2 [] (by rfl)
          (by exact ⟨rfl, by show (1 : Nat) ∉ head_on_dead [(1, 290)]; decide,
            by intro r hr; exact absurd hr (List.not_mem_nil r)⟩)
        (quiet_run.nil c6wst2)))
    (by decide) (by rfl) (by rfl) (by decide)
